import Mathlib

/-!
# ascii-raytracing: intersection, scene and shading core

A shallow embedding of `tools.h`, `objects.h`, `scene.h` and the per-pixel
shading loop of `engine.h`.

Modelling conventions.

* `float` is an arbitrary linearly ordered field `F` with exact arithmetic;
  rounding and overflow are outside the model.
* A quotient by zero is not a number of `F`.  Two of the intersection routines
  divide by a value that can be zero without testing it first,
  `Cylinder::intersection_side` and `Cone::intersect_side`; there the model
  follows the IEEE rules (`x / 0` is an infinity for `x ≠ 0`, `0 / 0` is NaN,
  every comparison with NaN is false) and the point returned may be `Hit.nan`,
  the `Vec3` whose coordinates are NaN.  `Sphere::intersection` divides by zero
  only for the zero direction, where the quotient `0 / 0` fails the test
  `t > 0` as the model's `0` does.  The other quotients are taken behind a
  test of the divisor, or by `height` and `height * height + radius * radius`
  of a `Cone`, which are positive for every cone its constructor builds; the
  one exception is the quotient by `square_size` in
  `ChessPlane::get_reflection_coeff`, which is not modelled for a divisor 0.
* `sqrt` from `<cmath>` is a parameter `sqrt : F → F` of every definition
  that reaches it.  Theorems that need its defining properties assume
  `SqrtLaws sqrt`; concrete evaluations use `ratSqrt` on `ℚ`, which is exact
  on squares of rationals.
* `floor` is `Int.floor` of a `FloorRing`.
* `std::optional<T>` is `Option T`; a C++ `throw` is `Except.error`.
* `Object*` is an `ObjectPtr`: an address together with the object stored
  there.  Pointer comparison compares addresses; `nullptr` is `none`.
-/

set_option autoImplicit false

/-! ## Scalars -/

/-- The literal `1e-6` used as tolerance throughout `objects.h`. -/
def eps (F : Type) [LinearOrderedField F] : F := 1 / 1000000

/-- The value of `std::numeric_limits<float>::max()`, `(2 - 2^-23) * 2^127`. -/
def FLT_MAX (F : Type) [LinearOrderedField F] : F :=
  340282346638528859811704183484516925440

/-- The two properties that characterise the square root on non-negative
arguments. -/
structure SqrtLaws {F : Type} [LinearOrderedField F] (sqrt : F → F) : Prop where
  nonneg : ∀ x : F, 0 ≤ sqrt x
  mul_self : ∀ x : F, 0 ≤ x → sqrt x * sqrt x = x

/-- A computable square root on `ℚ`: exact whenever the argument is the
square of a rational, rounded down on numerator and denominator otherwise. -/
def ratSqrt (q : ℚ) : ℚ :=
  if q < 0 then 0 else (Nat.sqrt q.num.natAbs : ℚ) / (Nat.sqrt q.den : ℚ)

/-- Conversion of an integral value to a 32-bit `int`, two's complement. The
C++ conversion is undefined outside the `int` range; the model wraps. -/
def toInt32 (z : ℤ) : ℤ := (z + 2147483648) % 4294967296 - 2147483648

/-- Errors thrown by the program, by exception class. -/
inductive Error where
  | runtime_error (what : String)
  | invalid_argument (what : String)
  | out_of_range (what : String)
deriving DecidableEq, Repr

/-! ## tools.h: Vec3 -/

/-- `class Vec3`. -/
@[ext]
structure Vec3 (F : Type) where
  x : F
  y : F
  z : F
deriving DecidableEq, Repr

namespace Vec3

variable {F : Type} [LinearOrderedField F]

/-- `Vec3::operator+`. -/
def add (u v : Vec3 F) : Vec3 F := ⟨u.x + v.x, u.y + v.y, u.z + v.z⟩

/-- `Vec3::operator-` (binary). -/
def sub (u v : Vec3 F) : Vec3 F := ⟨u.x - v.x, u.y - v.y, u.z - v.z⟩

/-- `Vec3::operator-` (unary). -/
def neg (u : Vec3 F) : Vec3 F := ⟨-u.x, -u.y, -u.z⟩

/-- `Vec3::operator*(float)`. -/
def mul (u : Vec3 F) (t : F) : Vec3 F := ⟨u.x * t, u.y * t, u.z * t⟩

instance : Add (Vec3 F) := ⟨add⟩
instance : Sub (Vec3 F) := ⟨sub⟩
instance : Neg (Vec3 F) := ⟨neg⟩
instance : HMul (Vec3 F) F (Vec3 F) := ⟨mul⟩

/-- `Vec3::dot`. -/
def dot (u v : Vec3 F) : F := u.x * v.x + u.y * v.y + u.z * v.z

/-- `Vec3::cross`. -/
def cross (u v : Vec3 F) : Vec3 F :=
  ⟨u.y * v.z - u.z * v.y, u.z * v.x - u.x * v.z, u.x * v.y - u.y * v.x⟩

/-- `Vec3::norm`. -/
def norm (sqrt : F → F) (u : Vec3 F) : F :=
  sqrt (u.x * u.x + u.y * u.y + u.z * u.z)

/-- `Vec3::normalized`: throws on a vector whose norm compares equal to 0. -/
def normalized (sqrt : F → F) (u : Vec3 F) : Except Error (Vec3 F) :=
  let n := u.norm sqrt
  if n = 0 then Except.error (Error.runtime_error "Zero length vector!")
  else Except.ok ⟨u.x / n, u.y / n, u.z / n⟩

end Vec3

/-! ## objects.h: the primitives -/

/-- `class Plane`. -/
structure Plane (F : Type) where
  point : Vec3 F
  norm : Vec3 F
  reflection_coeff : F

/-- `class ChessPlane`. -/
structure ChessPlane (F : Type) where
  point : Vec3 F
  norm : Vec3 F
  square_size : F
  reflection_coeff_black : F
  reflection_coeff_white : F

/-- `class Sphere`. -/
structure Sphere (F : Type) where
  center : Vec3 F
  radius : F
  reflection_coeff : F

/-- `class Rect`. -/
structure Rect (F : Type) where
  center : Vec3 F
  norm : Vec3 F
  width_dir : Vec3 F
  height_dir : Vec3 F
  width : F
  height : F
  reflection_coeff : F

/-- `class RectPrism` (and its subclass `Cube`, which adds no member).  The
array `Rect faces[6]` is the list `faces`. -/
structure RectPrism (F : Type) where
  base_center : Vec3 F
  height_dir : Vec3 F
  width_dir : Vec3 F
  length_dir : Vec3 F
  height : F
  width : F
  length : F
  reflection_coeff : F
  faces : List (Rect F)

/-- `class Cylinder`. -/
structure Cylinder (F : Type) where
  base_center : Vec3 F
  axis_dir : Vec3 F
  radius : F
  height : F
  reflection_coeff : F

/-- `class Cone`. -/
structure Cone (F : Type) where
  base_center : Vec3 F
  axis : Vec3 F
  radius : F
  height : F
  reflection_coeff : F
  vertex : Vec3 F

/-- A `Vec3` returned as a hit.  `pt p` is a point whose coordinates are numbers;
`nan` is the `Vec3` whose three coordinates are NaN, which is what
`line_point + line_dir * t` is when `t` is NaN. -/
inductive Hit (F : Type) where
  | pt (p : Vec3 F)
  | nan
deriving DecidableEq, Repr

section Primitives

variable {F : Type} [LinearOrderedField F]

/-- `Plane::intersection`. -/
def Plane.intersection (s : Plane F) (line_point line_dir : Vec3 F) : Option (Vec3 F) :=
  if |s.norm.dot line_dir| < eps F then none
  else
    let t := s.norm.dot (s.point - line_point) / s.norm.dot line_dir
    if t > 0 then some (line_point + line_dir * t) else none

/-- `Plane::norm_dir`. -/
def Plane.norm_dir (s : Plane F) (_p : Vec3 F) : Vec3 F := s.norm

/-- `Plane::get_reflection_coeff`. -/
def Plane.get_reflection_coeff (s : Plane F) (_p : Vec3 F) : F := s.reflection_coeff

/-- `ChessPlane::intersection`. -/
def ChessPlane.intersection (s : ChessPlane F) (line_point line_dir : Vec3 F) :
    Option (Vec3 F) :=
  if |s.norm.dot line_dir| < eps F then none
  else
    let t := s.norm.dot (s.point - line_point) / s.norm.dot line_dir
    if t > 0 then some (line_point + line_dir * t) else none

/-- `ChessPlane::norm_dir`. -/
def ChessPlane.norm_dir (s : ChessPlane F) (_p : Vec3 F) : Vec3 F := s.norm

/-- `ChessPlane::get_reflection_coeff`: the two indices are `int`s, their sum
is an `int` addition and `%` is the truncating remainder of C++.  For
`square_size = 0` the quotients are not numbers and their conversion to `int`
is undefined; the value of the model means nothing there. -/
def ChessPlane.get_reflection_coeff [FloorRing F] (s : ChessPlane F) (intersection : Vec3 F) :
    F :=
  let x := intersection.x
  let z := intersection.z
  let x_index := toInt32 ⌊x / s.square_size⌋
  let z_index := toInt32 ⌊z / s.square_size⌋
  if Int.tmod (toInt32 (x_index + z_index)) 2 = 0 then s.reflection_coeff_black
  else s.reflection_coeff_white

/-- `Sphere::intersection`. -/
def Sphere.intersection (sqrt : F → F) (s : Sphere F) (line_point line_dir : Vec3 F) :
    Option (Vec3 F) :=
  let oc := line_point - s.center
  let a := line_dir.dot line_dir
  let b := 2 * oc.dot line_dir
  let c := oc.dot oc - s.radius * s.radius
  let discriminant := b * b - 4 * a * c
  if discriminant > 0 then
    let t1 := (-b - sqrt discriminant) / (2 * a)
    let t2 := (-b + sqrt discriminant) / (2 * a)
    let intersection1 := line_point + line_dir * t1
    let intersection2 := line_point + line_dir * t2
    if t1 > 0 ∧ t2 > 0 then some (if t1 < t2 then intersection1 else intersection2)
    else if t1 > 0 then some intersection1
    else if t2 > 0 then some intersection2
    else none
  else if discriminant = 0 then
    let t := -b / (2 * a)
    if t > 0 then some (line_point + line_dir * t) else none
  else none

/-- `Sphere::norm_dir`. -/
def Sphere.norm_dir (sqrt : F → F) (s : Sphere F) (point : Vec3 F) : Except Error (Vec3 F) :=
  (point - s.center).normalized sqrt

/-- `Sphere::get_reflection_coeff`. -/
def Sphere.get_reflection_coeff (s : Sphere F) (_p : Vec3 F) : F := s.reflection_coeff

/-- `Rect::intersection`. -/
def Rect.intersection (s : Rect F) (line_point line_dir : Vec3 F) : Option (Vec3 F) :=
  if |s.norm.dot line_dir| < eps F then none
  else
    let t := s.norm.dot (s.center - line_point) / s.norm.dot line_dir
    if t > 0 then
      let possible_intersection := line_point + line_dir * t
      let local_point := possible_intersection - s.center
      if |s.width_dir.dot local_point| < s.width / 2 ∧
          |s.height_dir.dot local_point| < s.height / 2 then
        some possible_intersection
      else none
    else none

/-- `Rect::norm_dir`. -/
def Rect.norm_dir (s : Rect F) (_p : Vec3 F) : Vec3 F := s.norm

/-- `Rect::get_reflection_coeff`. -/
def Rect.get_reflection_coeff (s : Rect F) (_p : Vec3 F) : F := s.reflection_coeff

/-- The body of the `for (const auto& face : faces)` loop of
`RectPrism::intersection`, on the pair `(closest, closest_intersection)`. -/
def RectPrism.intersection_loop (sqrt : F → F) (line_point line_dir : Vec3 F) :
    List (Rect F) → F × Option (Vec3 F) → F × Option (Vec3 F)
  | [], acc => acc
  | face :: rest, acc =>
    match face.intersection line_point line_dir with
    | some p =>
      let t := (p - line_point).norm sqrt
      if t < acc.1 then RectPrism.intersection_loop sqrt line_point line_dir rest (t, some p)
      else RectPrism.intersection_loop sqrt line_point line_dir rest acc
    | none => RectPrism.intersection_loop sqrt line_point line_dir rest acc

/-- `RectPrism::intersection`. -/
def RectPrism.intersection (sqrt : F → F) (s : RectPrism F) (line_point line_dir : Vec3 F) :
    Option (Vec3 F) :=
  (RectPrism.intersection_loop sqrt line_point line_dir s.faces (FLT_MAX F, none)).2

/-- `RectPrism::norm_dir`. -/
def RectPrism.norm_dir (s : RectPrism F) (point : Vec3 F) : Vec3 F :=
  let min := s.base_center - s.width_dir * (s.width / 2) - s.length_dir * (s.length / 2)
  let max := s.base_center + s.width_dir * (s.width / 2) + s.length_dir * (s.length / 2)
    + s.height_dir * s.height
  if |point.dot s.height_dir - min.dot s.height_dir| < eps F then -s.height_dir
  else if |point.dot s.height_dir - max.dot s.height_dir| < eps F then s.height_dir
  else if |point.dot s.width_dir - min.dot s.width_dir| < eps F then -s.width_dir
  else if |point.dot s.width_dir - max.dot s.width_dir| < eps F then s.width_dir
  else if |point.dot s.length_dir - min.dot s.length_dir| < eps F then -s.length_dir
  else s.length_dir

/-- `RectPrism::get_reflection_coeff`. -/
def RectPrism.get_reflection_coeff (s : RectPrism F) (_p : Vec3 F) : F := s.reflection_coeff

/-- `Cylinder::intersection_side`.  The divisor `2 * a` is not tested.  It is 0
exactly when `d` is the zero vector (the ray is parallel to the axis); then `b`
and the discriminant are 0 as well and `t0` and `t1` are both `0 / 0`, NaN.
So `t` is NaN, `t < 0` is false, `intersection` is the NaN point,
`projection_length` is NaN, neither of its two tests holds, and the NaN point
is returned. -/
def Cylinder.intersection_side (sqrt : F → F) (s : Cylinder F) (line_point line_dir : Vec3 F) :
    Option (Hit F) :=
  let oc := line_point - s.base_center
  let d := line_dir - s.axis_dir * line_dir.dot s.axis_dir
  let o := oc - s.axis_dir * oc.dot s.axis_dir
  let a := d.dot d
  let b := 2 * d.dot o
  let c := o.dot o - s.radius * s.radius
  let discriminant := b * b - 4 * a * c
  if discriminant < 0 then none
  else if 2 * a = 0 then some Hit.nan
  else
    let t0 := (-b - sqrt discriminant) / (2 * a)
    let t1 := (-b + sqrt discriminant) / (2 * a)
    let t := if t0 > 0 then t0 else t1
    if t < 0 then none
    else
      let intersection := line_point + line_dir * t
      let projection_length := (intersection - s.base_center).dot s.axis_dir
      if projection_length < 0 ∨ projection_length > s.height then none
      else some (Hit.pt intersection)

/-- `Cylinder::base_intersection`. -/
def Cylinder.base_intersection (sqrt : F → F) (s : Cylinder F) (line_point line_dir : Vec3 F)
    (base_center : Vec3 F) : Option (Vec3 F) :=
  let base_norm := s.axis_dir
  if |base_norm.dot line_dir| < eps F then none
  else
    let t := base_norm.dot (base_center - line_point) / base_norm.dot line_dir
    if t < 0 then none
    else
      let intersection := line_point + line_dir * t
      if (intersection - base_center).norm sqrt ≤ s.radius then some intersection
      else none

/-- The `if (bottom_intersection)` and `if (top_intersection)` blocks of
`Cylinder::intersection`, on the pair `(min_t, result)`. -/
def Cylinder.consider (sqrt : F → F) (line_point : Vec3 F) (cand : Option (Vec3 F))
    (acc : F × Option (Vec3 F)) : F × Option (Vec3 F) :=
  match cand with
  | some p =>
    let t := (p - line_point).norm sqrt
    if t < acc.1 then (t, some p) else acc
  | none => acc

/-- The `if (side_intersection)` block of `Cylinder::intersection`, on the pair
`(min_t, result)`.  For the NaN point `t` is NaN and `t < min_t` is false. -/
def Cylinder.consider_side (sqrt : F → F) (line_point : Vec3 F) (cand : Option (Hit F))
    (acc : F × Option (Vec3 F)) : F × Option (Vec3 F) :=
  match cand with
  | some (Hit.pt p) =>
    let t := (p - line_point).norm sqrt
    if t < acc.1 then (t, some p) else acc
  | some Hit.nan => acc
  | none => acc

/-- `Cylinder::intersection`. -/
def Cylinder.intersection (sqrt : F → F) (s : Cylinder F) (line_point line_dir : Vec3 F) :
    Option (Vec3 F) :=
  let side_intersection := s.intersection_side sqrt line_point line_dir
  let bottom_intersection := s.base_intersection sqrt line_point line_dir s.base_center
  let top_center := s.base_center + s.axis_dir * s.height
  let top_intersection := s.base_intersection sqrt line_point line_dir top_center
  let acc0 : F × Option (Vec3 F) := (FLT_MAX F, none)
  let acc1 := Cylinder.consider_side sqrt line_point side_intersection acc0
  let acc2 := Cylinder.consider sqrt line_point bottom_intersection acc1
  let acc3 := Cylinder.consider sqrt line_point top_intersection acc2
  acc3.2

/-- `Cylinder::norm_dir`. -/
def Cylinder.norm_dir (sqrt : F → F) (s : Cylinder F) (point : Vec3 F) : Except Error (Vec3 F) :=
  let projection_length := (point - s.base_center).dot s.axis_dir
  if |projection_length| < eps F then Except.ok (-s.axis_dir)
  else if |projection_length - s.height| < eps F then Except.ok s.axis_dir
  else
    let projection := s.base_center + s.axis_dir * projection_length
    (point - projection).normalized sqrt

/-- `Cylinder::get_reflection_coeff`. -/
def Cylinder.get_reflection_coeff (s : Cylinder F) (_p : Vec3 F) : F := s.reflection_coeff

/-- `Cone::intersect_side`.  The divisor `2 * a` is not tested.  It is 0 when the
ray is parallel to the slant; the discriminant is then `b * b` and its root
`|b|`, and `a`, a difference of two equal numbers, is `+0`.

* For `b > 0`: `t1 = -2b / 0` is `-inf` and `t2 = 0 / 0` is NaN.  `std::min(t1, t2)`
  and `std::max(t1, t2)` return their first argument when the comparison with
  NaN fails, so `t` is `-inf` both times, `t < 1e-6` holds and no hit is
  returned.
* For `b <= 0`: `t1 = 0 / 0` is NaN, so `std::min(t1, t2)` is NaN, neither test
  `t < 1e-6` holds, `hit_point` is the NaN point, neither of its two tests
  holds, and the NaN point is returned. -/
def Cone.intersect_side (sqrt : F → F) (s : Cone F) (line_point line_dir : Vec3 F) :
    Option (Hit F) :=
  let v := line_point - s.vertex
  let cos2 := s.height * s.height / (s.height * s.height + s.radius * s.radius)
  let a := line_dir.dot s.axis * line_dir.dot s.axis - cos2 * line_dir.dot line_dir
  let b := 2 * (line_dir.dot s.axis * v.dot s.axis - cos2 * line_dir.dot v)
  let c := v.dot s.axis * v.dot s.axis - cos2 * v.dot v
  let discriminant := b * b - 4 * a * c
  if discriminant < 0 then none
  else if 2 * a = 0 then
    if b > 0 then none else some Hit.nan
  else
    let t1 := (-b - sqrt discriminant) / (2 * a)
    let t2 := (-b + sqrt discriminant) / (2 * a)
    let t := min t1 t2
    let t := if t < eps F then max t1 t2 else t
    if t < eps F then none
    else
      let hit_point := line_point + line_dir * t
      if (hit_point - s.base_center).dot s.axis < 0 ∨ (hit_point - s.vertex).dot (-s.axis) < 0
      then none
      else some (Hit.pt hit_point)

/-- `Cone::intersect_base`. -/
def Cone.intersect_base (sqrt : F → F) (s : Cone F) (line_point line_dir : Vec3 F) :
    Option (Vec3 F) :=
  let denom := s.axis.dot line_dir
  if |denom| < eps F then none
  else
    let t := (s.base_center - line_point).dot s.axis / denom
    if t < eps F then none
    else
      let hit_point := line_point + line_dir * t
      if (hit_point - s.base_center).norm sqrt > s.radius then none
      else some hit_point

/-- `Cone::intersection`.  When `side_hit` is the NaN point, `side_dist` is NaN
and `side_dist < base_dist` is false. -/
def Cone.intersection (sqrt : F → F) (s : Cone F) (line_point line_dir : Vec3 F) :
    Option (Hit F) :=
  let side_hit := s.intersect_side sqrt line_point line_dir
  let base_hit := s.intersect_base sqrt line_point line_dir
  match side_hit, base_hit with
  | some (Hit.pt sh), some bh =>
    let side_dist := (sh - line_point).norm sqrt
    let base_dist := (bh - line_point).norm sqrt
    if side_dist < base_dist then some (Hit.pt sh) else some (Hit.pt bh)
  | some Hit.nan, some bh => some (Hit.pt bh)
  | some sh, none => some sh
  | none, some bh => some (Hit.pt bh)
  | none, none => none

/-- `Cone::norm_dir`. -/
def Cone.norm_dir (sqrt : F → F) (s : Cone F) (point : Vec3 F) : Except Error (Vec3 F) :=
  if |(point - s.base_center).dot s.axis| < eps F then Except.ok (-s.axis)
  else
    let v := point - s.vertex
    let proj_on_axis := s.axis * v.dot s.axis
    let radial := v - proj_on_axis
    (radial - proj_on_axis * (s.radius / s.height)).normalized sqrt

/-- `Cone::get_reflection_coeff`. -/
def Cone.get_reflection_coeff (s : Cone F) (_p : Vec3 F) : F := s.reflection_coeff

end Primitives

/-! ## objects.h: the abstract class `Object` -/

/-- A concrete object: one of the subclasses of `Object`. -/
inductive Object (F : Type) where
  | plane (s : Plane F)
  | chessPlane (s : ChessPlane F)
  | sphere (s : Sphere F)
  | rect (s : Rect F)
  | rectPrism (s : RectPrism F)
  | cylinder (s : Cylinder F)
  | cone (s : Cone F)

namespace Object

variable {F : Type} [LinearOrderedField F]

/-- Virtual dispatch of `Object::intersection`.  Only `Cone::intersection` can
return the NaN point; the point of every other variant is a `Hit.pt`. -/
def intersection (sqrt : F → F) (obj : Object F) (line_point line_dir : Vec3 F) :
    Option (Hit F) :=
  match obj with
  | plane s => (s.intersection line_point line_dir).map Hit.pt
  | chessPlane s => (s.intersection line_point line_dir).map Hit.pt
  | sphere s => (s.intersection sqrt line_point line_dir).map Hit.pt
  | rect s => (s.intersection line_point line_dir).map Hit.pt
  | rectPrism s => (s.intersection sqrt line_point line_dir).map Hit.pt
  | cylinder s => (s.intersection sqrt line_point line_dir).map Hit.pt
  | cone s => s.intersection sqrt line_point line_dir

/-- Virtual dispatch of `Object::norm_dir`. -/
def norm_dir (sqrt : F → F) (obj : Object F) (point : Vec3 F) : Except Error (Vec3 F) :=
  match obj with
  | plane s => Except.ok (s.norm_dir point)
  | chessPlane s => Except.ok (s.norm_dir point)
  | sphere s => s.norm_dir sqrt point
  | rect s => Except.ok (s.norm_dir point)
  | rectPrism s => Except.ok (s.norm_dir point)
  | cylinder s => s.norm_dir sqrt point
  | cone s => s.norm_dir sqrt point

/-- Virtual dispatch of `Object::get_reflection_coeff`. -/
def get_reflection_coeff [FloorRing F] (obj : Object F) (point : Vec3 F) : F :=
  match obj with
  | plane s => s.get_reflection_coeff point
  | chessPlane s => s.get_reflection_coeff point
  | sphere s => s.get_reflection_coeff point
  | rect s => s.get_reflection_coeff point
  | rectPrism s => s.get_reflection_coeff point
  | cylinder s => s.get_reflection_coeff point
  | cone s => s.get_reflection_coeff point

end Object

/-- An `Object*` that is not null: the address and the object it points to. -/
structure ObjectPtr (F : Type) where
  addr : Nat
  obj : Object F

/-! ## scene.h -/

/-- `class Scene`: the vector `objects`, in insertion order. -/
structure Scene (F : Type) where
  objects : List (ObjectPtr F)

namespace Scene

variable {F : Type} [LinearOrderedField F]

/-- `Scene::Scene()`: no objects. -/
def new : Scene F := ⟨[]⟩

/-- `Scene::add_object`: `objects.push_back(obj)`. -/
def add_object (scene : Scene F) (obj : ObjectPtr F) : Scene F :=
  ⟨scene.objects ++ [obj]⟩

/-- The locals `(min_dist, intersection, norm_dir, intersection_obj)` of
`get_nearest_intersection` once `min_dist` is finite. -/
abbrev Nearest (F : Type) := F × Vec3 F × Vec3 F × ObjectPtr F

/-- The comparison `curr_dist < min_dist` for a `curr_dist` that is a number of
`F`: `min_dist` is `INFINITY` in the initial state, and every number is below
`INFINITY`.  The distance of a NaN point is NaN; the loops treat that case
apart. -/
def lt_min_dist (curr_dist : F) : Option (Nearest F) → Prop
  | none => True
  | some b => curr_dist < b.1

instance (curr_dist : F) (best : Option (Nearest F)) : Decidable (lt_min_dist curr_dist best) :=
  match best with
  | none => isTrue trivial
  | some b => inferInstanceAs (Decidable (curr_dist < b.1))

/-- The `for (Object* obj : objects)` loop of `get_nearest_intersection`.  The
accumulator `none` is the initial state `min_dist == INFINITY`, in which the
other three locals are never read.  For the NaN point `curr_dist` is NaN and
`curr_dist < min_dist` is false: the object is passed over. -/
def get_nearest_intersection_loop (sqrt : F → F) (line_point line_dir : Vec3 F)
    (excluded_obj : Option Nat) :
    List (ObjectPtr F) → Option (Nearest F) → Except Error (Option (Nearest F))
  | [], best => Except.ok best
  | obj :: rest, best =>
    if excluded_obj = some obj.addr then
      get_nearest_intersection_loop sqrt line_point line_dir excluded_obj rest best
    else
      match obj.obj.intersection sqrt line_point line_dir with
      | some (Hit.pt curr_intersection) =>
        let curr_dist := (curr_intersection - line_point).norm sqrt
        if lt_min_dist curr_dist best then
          match obj.obj.norm_dir sqrt curr_intersection with
          | Except.ok n =>
            get_nearest_intersection_loop sqrt line_point line_dir excluded_obj rest
              (some (curr_dist, curr_intersection, n, obj))
          | Except.error e => Except.error e
        else get_nearest_intersection_loop sqrt line_point line_dir excluded_obj rest best
      | some Hit.nan =>
        get_nearest_intersection_loop sqrt line_point line_dir excluded_obj rest best
      | none => get_nearest_intersection_loop sqrt line_point line_dir excluded_obj rest best

/-- `Scene::get_nearest_intersection`. -/
def get_nearest_intersection (sqrt : F → F) (scene : Scene F) (line_point line_dir : Vec3 F)
    (excluded_obj : Option Nat) : Except Error (Option (Vec3 F × Vec3 F × ObjectPtr F)) :=
  match get_nearest_intersection_loop sqrt line_point line_dir excluded_obj scene.objects none with
  | Except.ok none => Except.ok none
  | Except.ok (some b) => Except.ok (some (b.2.1, b.2.2.1, b.2.2.2))
  | Except.error e => Except.error e

/-- The loop of `Scene::is_shadow`.  For the NaN point `curr_dist` is NaN and
`curr_dist < distance_to_light` is false. -/
def is_shadow_loop (sqrt : F → F) (line_point line_dir : Vec3 F) (excluded_obj : Option Nat)
    (distance_to_light : F) : List (ObjectPtr F) → Bool
  | [] => false
  | obj :: rest =>
    if excluded_obj = some obj.addr then
      is_shadow_loop sqrt line_point line_dir excluded_obj distance_to_light rest
    else
      match obj.obj.intersection sqrt line_point line_dir with
      | some (Hit.pt curr_intersection) =>
        let curr_dist := (curr_intersection - line_point).norm sqrt
        if curr_dist < distance_to_light then true
        else is_shadow_loop sqrt line_point line_dir excluded_obj distance_to_light rest
      | some Hit.nan =>
        is_shadow_loop sqrt line_point line_dir excluded_obj distance_to_light rest
      | none => is_shadow_loop sqrt line_point line_dir excluded_obj distance_to_light rest

/-- `Scene::is_shadow`. -/
def is_shadow (sqrt : F → F) (scene : Scene F) (line_point line_dir : Vec3 F)
    (excluded_obj : Option Nat) (distance_to_light : F) : Bool :=
  is_shadow_loop sqrt line_point line_dir excluded_obj distance_to_light scene.objects

end Scene

/-! ## camera_and_light.h: Light -/

/-- `class Light`. -/
structure Light (F : Type) where
  position : Vec3 F
  power : F

/-! ## engine.h: the shading loop of `render_frame` -/

/-- The locals of one pixel of `render_frame` that the `k` loop updates. -/
structure ShadeState (F : Type) where
  light_intensity : F
  cum_reflection_coeff : F
  ray_point : Vec3 F
  ray_dir : Vec3 F
  excluded_obj : Option Nat

namespace RaytracingEngine

variable {F : Type} [LinearOrderedField F] [FloorRing F]

/-- The values of the locals before the `k` loop, for the ray of one pixel. -/
def shade_init (ray_point ray_dir : Vec3 F) : ShadeState F :=
  { light_intensity := 0, cum_reflection_coeff := 1, ray_point := ray_point,
    ray_dir := ray_dir, excluded_obj := none }

/-- One pass through the body of `for(int k=0; k<num_reflections; ++k)`:
`none` is the `break`, `some st` the state after the pass. -/
def shade_step (sqrt : F → F) (scene : Scene F) (light : Light F) (st : ShadeState F) :
    Except Error (Option (ShadeState F)) :=
  match scene.get_nearest_intersection sqrt st.ray_point st.ray_dir st.excluded_obj with
  | Except.error e => Except.error e
  | Except.ok none => Except.ok none
  | Except.ok (some (intersection, norm_dir, intersection_obj)) =>
    match (light.position - intersection).normalized sqrt with
    | Except.error e => Except.error e
    | Except.ok dir_to_light =>
      let cos_angle := norm_dir.dot dir_to_light
      let cum_reflection_coeff :=
        st.cum_reflection_coeff * intersection_obj.obj.get_reflection_coeff intersection
      let light_intensity :=
        if cos_angle > 0 ∧
            ¬ (scene.is_shadow sqrt intersection dir_to_light (some intersection_obj.addr)
              ((light.position - intersection).norm sqrt) = true) then
          st.light_intensity + cum_reflection_coeff * cos_angle * light.power
        else st.light_intensity
      match (st.ray_dir - norm_dir * (2 : F) * (st.ray_dir.dot norm_dir)).normalized sqrt with
      | Except.error e => Except.error e
      | Except.ok ray_dir =>
        Except.ok (some
          { light_intensity := light_intensity, cum_reflection_coeff := cum_reflection_coeff,
            ray_point := intersection, ray_dir := ray_dir,
            excluded_obj := some intersection_obj.addr })

/-- The loop `for(int k=0; k<num_reflections; ++k)` with `n` passes left. -/
def shade_loop (sqrt : F → F) (scene : Scene F) (light : Light F) :
    Nat → ShadeState F → Except Error (ShadeState F)
  | 0, st => Except.ok st
  | n + 1, st =>
    match shade_step sqrt scene light st with
    | Except.error e => Except.error e
    | Except.ok none => Except.ok st
    | Except.ok (some st1) => shade_loop sqrt scene light n st1

/-- The value of `light_intensity` after the `k` loop of `render_frame`, for the
pixel whose ray starts at `ray_point` in direction `ray_dir`. -/
def shade (sqrt : F → F) (scene : Scene F) (light : Light F) (num_reflections : Int)
    (ray_point ray_dir : Vec3 F) : Except Error F :=
  match shade_loop sqrt scene light num_reflections.toNat (shade_init ray_point ray_dir) with
  | Except.error e => Except.error e
  | Except.ok st => Except.ok st.light_intensity

end RaytracingEngine

/-! ## Specification-side notions for the scene queries -/

namespace Scene

variable {F : Type} [LinearOrderedField F]

/-- What `get_nearest_intersection` records about a winner `b` taken from the
objects `S`: it is a non-excluded member of `S`, the recorded point is its
intersection, the recorded normal its normal there, and the recorded distance
the distance of that point from the ray origin. -/
def IsCandidate (sqrt : F → F) (o d : Vec3 F) (e : Option Nat) (S : List (ObjectPtr F))
    (b : Nearest F) : Prop :=
  b.2.2.2 ∈ S ∧ e ≠ some b.2.2.2.addr ∧
    b.2.2.2.obj.intersection sqrt o d = some (Hit.pt b.2.1) ∧
    b.2.2.2.obj.norm_dir sqrt b.2.1 = Except.ok b.2.2.1 ∧
    b.1 = (b.2.1 - o).norm sqrt

/-- No non-excluded object of `S` has a hit that is a number and strictly
nearer than `best`. -/
def IsMinimal (sqrt : F → F) (o d : Vec3 F) (e : Option Nat) (S : List (ObjectPtr F))
    (best : Option (Nearest F)) : Prop :=
  ∀ q ∈ S, e ≠ some q.addr → ∀ hq, q.obj.intersection sqrt o d = some (Hit.pt hq) →
    ¬ lt_min_dist ((hq - o).norm sqrt) best

end Scene

/-- The point `p` is the point of the ray `(o, d)` at a strictly positive
parameter. -/
def ForwardOf {F : Type} [LinearOrderedField F] (o d p : Vec3 F) : Prop :=
  ∃ t : F, 0 < t ∧ p = o + d * t

/-- The lateral surface of a cone as the specification describes it: the
points between the base plane and the apex whose distance from the axis is
the radius scaled by the remaining height. `h` is the height of `p` above the
base plane; the distance from the axis is compared squared. -/
def Cone.on_lateral_surface {F : Type} [LinearOrderedField F] (s : Cone F) (p : Vec3 F) : Prop :=
  let h := (p - s.base_center).dot s.axis
  0 ≤ h ∧ h ≤ s.height ∧
    (p - s.base_center).dot (p - s.base_center) - h * h
      = (s.radius * (s.height - h) / s.height) * (s.radius * (s.height - h) / s.height)

/-! ## Concrete inputs over `ℚ` -/

namespace Demo

/-- The plane `y = 0` with normal `(0,-1,0)`, at address 1. -/
def plane0 : ObjectPtr ℚ := ⟨1, Object.plane ⟨⟨0, 0, 0⟩, ⟨0, -1, 0⟩, 1 / 2⟩⟩

/-- The sphere of radius 1 about `(0,-2,0)`, at address 2. -/
def sphere0 : ObjectPtr ℚ := ⟨2, Object.sphere ⟨⟨0, -2, 0⟩, 1, 1 / 2⟩⟩

/-- The scene holding `plane0` and `sphere0`, added in that order. -/
def scene0 : Scene ℚ := ⟨[plane0, sphere0]⟩

/-- The cylinder with base centre `(0,0,0)`, axis `(0,1,0)`, radius 1, height 2. -/
def cyl0 : Cylinder ℚ := ⟨⟨0, 0, 0⟩, ⟨0, 1, 0⟩, 1, 2, 1 / 2⟩

/-- The cone `Cone({0,0,0}, {0,1,0}, 1, 1)`; its apex is `(0,1,0)`. -/
def cone0 : Cone ℚ := ⟨⟨0, 0, 0⟩, ⟨0, 1, 0⟩, 1, 1, 1 / 2, ⟨0, 1, 0⟩⟩

end Demo

/-! ## The shading loop: instrumented copy and the claimed closed form -/

namespace RaytracingEngine

variable {F : Type} [LinearOrderedField F] [FloorRing F]

/-- Ghost counters for the shading loop: the number of calls of
`scene.get_nearest_intersection` and the number of executions of
`light_intensity += ...`. -/
structure ShadeCount where
  queries : Nat
  contributions : Nat
deriving DecidableEq, Repr

/-- The loop `for(int k=0; k<num_reflections; ++k)` of `render_frame` with `n`
passes left, as `shade_loop`, threading the ghost counters through. -/
def shade_loop_counted (sqrt : F → F) (scene : Scene F) (light : Light F) :
    Nat → ShadeState F → ShadeCount → Except Error (ShadeState F × ShadeCount)
  | 0, st, c => Except.ok (st, c)
  | n + 1, st, c =>
    match scene.get_nearest_intersection sqrt st.ray_point st.ray_dir st.excluded_obj with
    | Except.error e => Except.error e
    | Except.ok none => Except.ok (st, ⟨c.queries + 1, c.contributions⟩)
    | Except.ok (some (intersection, norm_dir, intersection_obj)) =>
      match (light.position - intersection).normalized sqrt with
      | Except.error e => Except.error e
      | Except.ok dir_to_light =>
        let cos_angle := norm_dir.dot dir_to_light
        let cum_reflection_coeff :=
          st.cum_reflection_coeff * intersection_obj.obj.get_reflection_coeff intersection
        let lit : Bool := decide (cos_angle > 0 ∧
            ¬ (scene.is_shadow sqrt intersection dir_to_light (some intersection_obj.addr)
              ((light.position - intersection).norm sqrt) = true))
        let light_intensity :=
          if lit then st.light_intensity + cum_reflection_coeff * cos_angle * light.power
          else st.light_intensity
        match (st.ray_dir - norm_dir * (2 : F) * (st.ray_dir.dot norm_dir)).normalized sqrt with
        | Except.error e => Except.error e
        | Except.ok ray_dir =>
          shade_loop_counted sqrt scene light n
            { light_intensity := light_intensity, cum_reflection_coeff := cum_reflection_coeff,
              ray_point := intersection, ray_dir := ray_dir,
              excluded_obj := some intersection_obj.addr }
            ⟨c.queries + 1, if lit then c.contributions + 1 else c.contributions⟩

/-- One bounce of the chain of successive nearest hits: the hit `h_k`, the
normal `n_k` there, the primitive `prim_k` and `normalize(light - h_k)`. -/
structure Bounce (F : Type) where
  hit : Vec3 F
  normal : Vec3 F
  prim : ObjectPtr F
  to_light : Vec3 F

/-- The coefficient `c_k`: the reflection coefficient of `prim_k` at `h_k`. -/
def Bounce.coeff (b : Bounce F) : F := b.prim.obj.get_reflection_coeff b.hit

/-- The cosine `cos_k = n_k . normalize(light - h_k)`. -/
def Bounce.cos (b : Bounce F) : F := b.normal.dot b.to_light

/-- The flag `lit_k`: the surface faces the light and no other primitive
occludes it. -/
def Bounce.lit (sqrt : F → F) (scene : Scene F) (light : Light F) (b : Bounce F) : Bool :=
  decide (b.cos > 0 ∧
    ¬ (scene.is_shadow sqrt b.hit b.to_light (some b.prim.addr)
      ((light.position - b.hit).norm sqrt) = true))

/-- The successive nearest hits of a ray followed for at most `n` bounces: each
hit is the scene's nearest intersection for the current ray, excluding the
primitive just left, and the next ray leaves the hit in the normalised
reflected direction.  The chain ends at the first miss. -/
def bounce_chain (sqrt : F → F) (scene : Scene F) (light : Light F) :
    Nat → Vec3 F → Vec3 F → Option Nat → Except Error (List (Bounce F))
  | 0, _, _, _ => Except.ok []
  | n + 1, o, d, e =>
    match scene.get_nearest_intersection sqrt o d e with
    | Except.error err => Except.error err
    | Except.ok none => Except.ok []
    | Except.ok (some (h, nrm, prim)) =>
      match (light.position - h).normalized sqrt with
      | Except.error err => Except.error err
      | Except.ok u =>
        match (d - nrm * (2 : F) * (d.dot nrm)).normalized sqrt with
        | Except.error err => Except.error err
        | Except.ok d1 =>
          match bounce_chain sqrt scene light n h d1 (some prim.addr) with
          | Except.error err => Except.error err
          | Except.ok bs => Except.ok (⟨h, nrm, prim, u⟩ :: bs)

/-- The term of bounce `k` (counted from 0) in the claimed sum: the product of
the coefficients of bounces `0..k` times `cos_k` times the light power when the
bounce is lit, and nothing otherwise. -/
def claimed_term (sqrt : F → F) (scene : Scene F) (light : Light F) (bs : List (Bounce F))
    (k : Nat) : F :=
  match bs[k]? with
  | some b =>
    if b.lit sqrt scene light = true then
      ((bs.take (k + 1)).map Bounce.coeff).prod * b.cos * light.power
    else 0
  | none => 0

/-- The claimed intensity: the sum of the terms of all bounces of the chain. -/
def claimed_intensity (sqrt : F → F) (scene : Scene F) (light : Light F)
    (bs : List (Bounce F)) : F :=
  ((List.range bs.length).map (claimed_term sqrt scene light bs)).sum

/-- The claimed sum computed front to back, starting from the cumulative
coefficient `cum`. -/
def running_sum (sqrt : F → F) (scene : Scene F) (light : Light F) (cum : F) :
    List (Bounce F) → F
  | [] => 0
  | b :: bs =>
    (if b.lit sqrt scene light = true then cum * b.coeff * b.cos * light.power else 0)
      + running_sum sqrt scene light (cum * b.coeff) bs

end RaytracingEngine

namespace Demo

/-- The floor `y = 0`, normal `(0,-1,0)`, coefficient 1/2, at address 1. -/
def floor1 : ObjectPtr ℚ := ⟨1, Object.plane ⟨⟨0, 0, 0⟩, ⟨0, -1, 0⟩, 1 / 2⟩⟩

/-- The ceiling `y = -8`, normal `(0,1,0)`, coefficient 1/2, at address 2. -/
def ceiling1 : ObjectPtr ℚ := ⟨2, Object.plane ⟨⟨0, -8, 0⟩, ⟨0, 1, 0⟩, 1 / 2⟩⟩

/-- The scene of `floor1` and `ceiling1`. -/
def scene1 : Scene ℚ := ⟨[floor1, ceiling1]⟩

/-- A light of power 1 at `(3,-4,0)`, between the two planes. -/
def light1 : Light ℚ := ⟨⟨3, -4, 0⟩, 1⟩

end Demo

/-! ## objects.h: the constructors -/

section Constructors

variable {F : Type} [LinearOrderedField F]

/-- `Plane::Plane(const Vec3& point, float refl_coeff)`: the normal is `(0,-1,0)`. -/
def Plane.new (point : Vec3 F) (refl_coeff : F) : Plane F :=
  ⟨point, ⟨0, -1, 0⟩, refl_coeff⟩

/-- `Plane::Plane(const Vec3& point, const Vec3& norm, float refl_coeff)`: the
member initialiser normalises the argument, then the body tests the norm of the
argument. -/
def Plane.new_norm (sqrt : F → F) (point norm : Vec3 F) (refl_coeff : F) :
    Except Error (Plane F) :=
  match norm.normalized sqrt with
  | Except.error e => Except.error e
  | Except.ok n =>
    if norm.norm sqrt < eps F then
      Except.error (Error.runtime_error "Norm cannot be a zero vector")
    else Except.ok ⟨point, n, refl_coeff⟩

/-- `ChessPlane::ChessPlane(point, square_size, refl_coeff_black, refl_coeff_white)`. -/
def ChessPlane.new (point : Vec3 F) (square_size refl_coeff_black refl_coeff_white : F) :
    ChessPlane F :=
  ⟨point, ⟨0, -1, 0⟩, square_size, refl_coeff_black, refl_coeff_white⟩

/-- `ChessPlane::ChessPlane(point, norm, square_size, refl_coeff_black,
refl_coeff_white)`. -/
def ChessPlane.new_norm (sqrt : F → F) (point norm : Vec3 F)
    (square_size refl_coeff_black refl_coeff_white : F) : Except Error (ChessPlane F) :=
  match norm.normalized sqrt with
  | Except.error e => Except.error e
  | Except.ok n =>
    if norm.norm sqrt < eps F then
      Except.error (Error.runtime_error "Norm cannot be a zero vector")
    else Except.ok ⟨point, n, square_size, refl_coeff_black, refl_coeff_white⟩

/-- `Sphere::Sphere(center, radius, refl_coeff)`. -/
def Sphere.new (center : Vec3 F) (radius refl_coeff : F) : Sphere F :=
  ⟨center, radius, refl_coeff⟩

/-- `Rect::Rect(center, norm, width_dir, width, height, reflection_coeff)`.  In
the member initialisers and in the body the names `norm` and `width_dir` are the
constructor's arguments. -/
def Rect.new (sqrt : F → F) (center norm width_dir : Vec3 F) (width height reflection_coeff : F) :
    Except Error (Rect F) :=
  match norm.normalized sqrt with
  | Except.error e => Except.error e
  | Except.ok n =>
    match width_dir.normalized sqrt with
    | Except.error e => Except.error e
    | Except.ok w =>
      match (norm.cross width_dir).normalized sqrt with
      | Except.error e => Except.error e
      | Except.ok h =>
        if norm.norm sqrt < eps F ∨ width_dir.norm sqrt < eps F then
          Except.error (Error.runtime_error "Norm or width_dir vector cannot be a zero vector")
        else if norm.dot width_dir > eps F then
          Except.error (Error.runtime_error "Norm and width_dir must be orthogonal")
        else Except.ok ⟨center, n, w, h, width, height, reflection_coeff⟩

/-- `Rect::Rect()`, the public default constructor with the empty body: the four
`Vec3` members are initialised by `Vec3()` to `(0,0,0)`; the three `float`
members are not initialised and hold whatever values they happen to have, the
parameters here. -/
def Rect.new_default (width height reflection_coeff : F) : Rect F :=
  ⟨⟨0, 0, 0⟩, ⟨0, 0, 0⟩, ⟨0, 0, 0⟩, ⟨0, 0, 0⟩, width, height, reflection_coeff⟩

/-- `RectPrism::RectPrism(base_center, height_dir, width_dir, height, width,
length, reflection_coeff)`.  In the body `height_dir` and `width_dir` are the
constructor's arguments and `length_dir` is the member. -/
def RectPrism.new (sqrt : F → F) (base_center height_dir width_dir : Vec3 F)
    (height width length reflection_coeff : F) : Except Error (RectPrism F) :=
  match height_dir.normalized sqrt with
  | Except.error e => Except.error e
  | Except.ok hd =>
    match width_dir.normalized sqrt with
    | Except.error e => Except.error e
    | Except.ok wd =>
      match (height_dir.cross width_dir).normalized sqrt with
      | Except.error e => Except.error e
      | Except.ok length_dir =>
        if height_dir.norm sqrt < eps F ∨ width_dir.norm sqrt < eps F then
          Except.error
            (Error.runtime_error "Height_dir or width_dir vector cannot be a zero vector")
        else if height_dir.dot width_dir > eps F then
          Except.error (Error.runtime_error "Height_dir and width_dir must be orthogonal")
        else do
          let f0 ← Rect.new sqrt base_center (-height_dir) width_dir width length
            reflection_coeff
          let f1 ← Rect.new sqrt (base_center + height_dir * height) height_dir width_dir
            width length reflection_coeff
          let f2 ← Rect.new sqrt
            (base_center - length_dir * (length / 2) + height_dir * (height / 2))
            (-length_dir) width_dir width height reflection_coeff
          let f3 ← Rect.new sqrt
            (base_center + length_dir * (length / 2) + height_dir * (height / 2))
            length_dir width_dir width height reflection_coeff
          let f4 ← Rect.new sqrt
            (base_center - width_dir * (width / 2) + height_dir * (height / 2))
            (-width_dir) length_dir length height reflection_coeff
          let f5 ← Rect.new sqrt
            (base_center + width_dir * (width / 2) + height_dir * (height / 2))
            width_dir length_dir length height reflection_coeff
          Except.ok ⟨base_center, hd, wd, length_dir, height, width, length, reflection_coeff,
            [f0, f1, f2, f3, f4, f5]⟩

/-- `Cube::Cube(base_center, height_dir, width_dir, side, reflection_coeff)`. -/
def Cube.new (sqrt : F → F) (base_center height_dir width_dir : Vec3 F)
    (side reflection_coeff : F) : Except Error (RectPrism F) :=
  RectPrism.new sqrt base_center height_dir width_dir side side side reflection_coeff

/-- `Cylinder::Cylinder(base_center, axis_dir, radius, height, reflection_coeff)`:
the body is empty. -/
def Cylinder.new (sqrt : F → F) (base_center axis_dir : Vec3 F)
    (radius height reflection_coeff : F) : Except Error (Cylinder F) :=
  match axis_dir.normalized sqrt with
  | Except.error e => Except.error e
  | Except.ok a => Except.ok ⟨base_center, a, radius, height, reflection_coeff⟩

/-- `Cone::Cone(base_center, axis, radius, height, refl_coeff)`.  In the member
initialiser of `vertex` and in the body the name `axis` is the constructor's
argument. -/
def Cone.new (sqrt : F → F) (base_center axis : Vec3 F) (radius height refl_coeff : F) :
    Except Error (Cone F) :=
  match axis.normalized sqrt with
  | Except.error e => Except.error e
  | Except.ok a =>
    if |axis.norm sqrt| < eps F then
      Except.error (Error.runtime_error "Axis cannot be a zero vector")
    else if radius ≤ 0 ∨ height ≤ 0 then
      Except.error (Error.runtime_error "Radius and height must be positive values")
    else Except.ok ⟨base_center, a, radius, height, refl_coeff, base_center + axis * height⟩

/-- An object built by a constructor that takes arguments: every constructor of
the seven classes (and of `Cube`) except the default constructor `Rect()`.  An
object `Object.rect (Rect.new_default w h c)` is not among them. -/
inductive Object.ConstructedFromArguments (sqrt : F → F) : Object F → Prop
  | plane (point : Vec3 F) (refl_coeff : F) :
      Object.ConstructedFromArguments sqrt (Object.plane (Plane.new point refl_coeff))
  | plane_norm (point norm : Vec3 F) (refl_coeff : F) (s : Plane F) :
      Plane.new_norm sqrt point norm refl_coeff = Except.ok s →
      Object.ConstructedFromArguments sqrt (Object.plane s)
  | chessPlane (point : Vec3 F) (square_size black white : F) :
      Object.ConstructedFromArguments sqrt
        (Object.chessPlane (ChessPlane.new point square_size black white))
  | chessPlane_norm (point norm : Vec3 F) (square_size black white : F) (s : ChessPlane F) :
      ChessPlane.new_norm sqrt point norm square_size black white = Except.ok s →
      Object.ConstructedFromArguments sqrt (Object.chessPlane s)
  | sphere (center : Vec3 F) (radius refl_coeff : F) :
      Object.ConstructedFromArguments sqrt (Object.sphere (Sphere.new center radius refl_coeff))
  | rect (center norm width_dir : Vec3 F) (width height refl_coeff : F) (s : Rect F) :
      Rect.new sqrt center norm width_dir width height refl_coeff = Except.ok s →
      Object.ConstructedFromArguments sqrt (Object.rect s)
  | rectPrism (base_center height_dir width_dir : Vec3 F) (height width length refl_coeff : F)
      (s : RectPrism F) :
      RectPrism.new sqrt base_center height_dir width_dir height width length refl_coeff
        = Except.ok s →
      Object.ConstructedFromArguments sqrt (Object.rectPrism s)
  | cube (base_center height_dir width_dir : Vec3 F) (side refl_coeff : F) (s : RectPrism F) :
      Cube.new sqrt base_center height_dir width_dir side refl_coeff = Except.ok s →
      Object.ConstructedFromArguments sqrt (Object.rectPrism s)
  | cylinder (base_center axis_dir : Vec3 F) (radius height refl_coeff : F) (s : Cylinder F) :
      Cylinder.new sqrt base_center axis_dir radius height refl_coeff = Except.ok s →
      Object.ConstructedFromArguments sqrt (Object.cylinder s)
  | cone (base_center axis : Vec3 F) (radius height refl_coeff : F) (s : Cone F) :
      Cone.new sqrt base_center axis radius height refl_coeff = Except.ok s →
      Object.ConstructedFromArguments sqrt (Object.cone s)

end Constructors

namespace Demo

/-- The rectangle built by `Rect({0,0,0}, {0,0,1}, {1,0,0}, 2, 2, 0.5)`: the square
`|x| < 1`, `|y| < 1` of the plane `z = 0`. -/
def rect0 : Rect ℚ := ⟨⟨0, 0, 0⟩, ⟨0, 0, 1⟩, ⟨1, 0, 0⟩, ⟨0, 1, 0⟩, 2, 2, 1 / 2⟩

end Demo

namespace Demo

/-- The scene holding only `plane0`. -/
def scene2 : Scene ℚ := ⟨[plane0]⟩

/-- A light of power 1 at `(0,0,0)`, a point of `plane0`. -/
def light2 : Light ℚ := ⟨⟨0, 0, 0⟩, 1⟩

/-- The scene holding only `Sphere({0,0,0}, 0, 0.5)`, a sphere of radius 0, at
address 3. -/
def scene3 : Scene ℚ := ⟨[⟨3, Object.sphere (Sphere.new ⟨0, 0, 0⟩ 0 (1 / 2))⟩]⟩

end Demo

/-! ## Specification-side notions for ties in the nearest-hit query -/

namespace Scene

variable {F : Type} [LinearOrderedField F]

/-- The winner `b` is the first object of `S` at the least distance: `S` splits
around an occurrence of the winner so that every hit (a number) of a
non-excluded object before it is strictly farther, and every hit of one after
it is not nearer. -/
def IsFirstMinimal (sqrt : F → F) (o d : Vec3 F) (e : Option Nat) (S : List (ObjectPtr F))
    (b : Nearest F) : Prop :=
  ∃ before after, S = before ++ b.2.2.2 :: after ∧
    (∀ q ∈ before, e ≠ some q.addr → ∀ hq, q.obj.intersection sqrt o d = some (Hit.pt hq) →
      b.1 < (hq - o).norm sqrt) ∧
    (∀ q ∈ after, e ≠ some q.addr → ∀ hq, q.obj.intersection sqrt o d = some (Hit.pt hq) →
      b.1 ≤ (hq - o).norm sqrt)

end Scene

namespace Demo

/-- A second object with the geometry of `plane0`, at address 4. -/
def plane0_twin : ObjectPtr ℚ := ⟨4, Object.plane ⟨⟨0, 0, 0⟩, ⟨0, -1, 0⟩, 1 / 4⟩⟩

/-- The scene holding `plane0` and then `plane0_twin`: every ray that hits one
hits the other in the same point. -/
def scene4 : Scene ℚ := ⟨[plane0, plane0_twin]⟩

/-- The scene holding only `cone0`, at address 5. -/
def scene5 : Scene ℚ := ⟨[⟨5, Object.cone cone0⟩]⟩

end Demo

/-! ## tools.h: Vec3::rotate and RotationMat

`cos` and `sin` from `<cmath>` are parameters, as `sqrt` is. -/

section Rotation

variable {F : Type} [LinearOrderedField F]

/-- `Vec3::rotate(float a, float b, float c)`. -/
def Vec3.rotate (cos sin : F → F) (v : Vec3 F) (a b c : F) : Vec3 F :=
  ⟨cos b * cos c * v.x - cos b * sin c * v.y + sin b * v.z,
   (sin a * sin b * cos c + cos a * sin c) * v.x
     + (cos a * cos c - sin a * sin b * sin c) * v.y - sin a * cos b * v.z,
   (sin a * sin c - cos a * sin b * cos c) * v.x
     + (cos a * sin b * sin c + sin a * cos c) * v.y + cos a * cos b * v.z⟩

/-- `Vec3::rotate(const Vec3& w)`. -/
def Vec3.rotate_by (cos sin : F → F) (v w : Vec3 F) : Vec3 F :=
  ⟨cos w.y * cos w.z * v.x - cos w.y * sin w.z * v.y + sin w.y * v.z,
   (sin w.x * sin w.y * cos w.z + cos w.x * sin w.z) * v.x
     + (cos w.x * cos w.z - sin w.x * sin w.y * sin w.z) * v.y - sin w.x * cos w.y * v.z,
   (sin w.x * sin w.z - cos w.x * sin w.y * cos w.z) * v.x
     + (cos w.x * sin w.y * sin w.z + sin w.x * cos w.z) * v.y + cos w.x * cos w.y * v.z⟩

/-- `class RotationMat`: the member `std::vector<float> mat`, which every
constructor leaves with 9 elements, row by row.  An element read is `getD`,
with a default that a vector of 9 elements never yields. -/
structure RotationMat (F : Type) where
  mat : List F

namespace RotationMat

/-- `RotationMat::RotationMat()`: nine zeros. -/
def zero : RotationMat F := ⟨List.replicate 9 0⟩

/-- `RotationMat::RotationMat(const Vec3& rotation_angles)`. -/
def of_angles (cos sin : F → F) (rotation_angles : Vec3 F) : RotationMat F :=
  let a := rotation_angles.x
  let b := rotation_angles.y
  let c := rotation_angles.z
  ⟨[cos b * cos c, -cos b * sin c, sin b,
    sin a * sin b * cos c + cos a * sin c, cos a * cos c - sin a * sin b * sin c,
      -sin a * cos b,
    sin a * sin c - cos a * sin b * cos c, sin a * cos c + cos a * sin b * sin c,
      cos a * cos b]⟩

/-- `RotationMat::RotationMat(std::initializer_list<float> values)`. -/
def of_values (values : List F) : Except Error (RotationMat F) :=
  if values.length ≠ 9 then Except.error (Error.invalid_argument "Matrix must have 9 elements.")
  else Except.ok ⟨values⟩

/-- `RotationMat::operator*(const Vec3& v)`. -/
def apply (m : RotationMat F) (v : Vec3 F) : Vec3 F :=
  ⟨m.mat.getD 0 0 * v.x + m.mat.getD 1 0 * v.y + m.mat.getD 2 0 * v.z,
   m.mat.getD 3 0 * v.x + m.mat.getD 4 0 * v.y + m.mat.getD 5 0 * v.z,
   m.mat.getD 6 0 * v.x + m.mat.getD 7 0 * v.y + m.mat.getD 8 0 * v.z⟩

/-- The innermost loop of `operator*(const RotationMat&)`, over `k`, for the
element `i * 3 + j` of `result.mat`. -/
def mul_inner (m other : RotationMat F) (i j : Nat) (result : List F) : List F :=
  (List.range 3).foldl
    (fun r k => r.set (i * 3 + j)
      (r.getD (i * 3 + j) 0 + m.mat.getD (i * 3 + k) 0 * other.mat.getD (k * 3 + j) 0))
    result

/-- `RotationMat::operator*(const RotationMat& other)`: the three nested loops
over `result`, which starts as `RotationMat()`. -/
def mul (m other : RotationMat F) : RotationMat F :=
  ⟨(List.range 3).foldl
    (fun r i => (List.range 3).foldl
      (fun r j => mul_inner m other i j (r.set (i * 3 + j) 0)) r)
    (zero : RotationMat F).mat⟩

/-- The coefficients of the standard rotation about the X axis by `a`. -/
def Rx_values (cos sin : F → F) (a : F) : List F :=
  [1, 0, 0,
   0, cos a, -sin a,
   0, sin a, cos a]

/-- The coefficients of the standard rotation about the Y axis by `b`. -/
def Ry_values (cos sin : F → F) (b : F) : List F :=
  [cos b, 0, sin b,
   0, 1, 0,
   -sin b, 0, cos b]

/-- The coefficients of the standard rotation about the Z axis by `c`. -/
def Rz_values (cos sin : F → F) (c : F) : List F :=
  [cos c, -sin c, 0,
   sin c, cos c, 0,
   0, 0, 1]

end RotationMat

end Rotation

namespace Demo

/-- The cone that `Cone({0,0,0}, {0,1,0}, 2, 1, 0.5)` builds: radius 2, height 1,
apex `(0,1,0)`. -/
def cone_wide (F : Type) [LinearOrderedField F] : Cone F :=
  ⟨⟨0, 0, 0⟩, ⟨0, 1, 0⟩, 2, 1, 1 / 2, ⟨0, 1, 0⟩⟩

end Demo

/-- The solid box of a prism as the specification describes it: the points
`b + x*h + y*w + z*l` with `0 <= x <= height`, `|y| <= width/2` and
`|z| <= length/2`, for unit axes `h`, `w`, `l`. -/
def RectPrism.in_box {F : Type} [LinearOrderedField F] (b h w l : Vec3 F)
    (height width length : F) (p : Vec3 F) : Prop :=
  ∃ x y z : F, p = b + h * x + w * y + l * z ∧ 0 ≤ x ∧ x ≤ height ∧
    |y| ≤ width / 2 ∧ |z| ≤ length / 2

namespace Demo

/-- What `RectPrism({0,0,0}, {0,2,0}, {1,0,0}, 1, 2, 2, 0.5)` builds: the unit axes
are `(0,1,0)`, `(1,0,0)` and `(0,0,-1)`, and the six faces are placed with the
height direction `(0,2,0)` as given. -/
def prism0 : RectPrism ℚ :=
  { base_center := ⟨0, 0, 0⟩, height_dir := ⟨0, 1, 0⟩, width_dir := ⟨1, 0, 0⟩,
    length_dir := ⟨0, 0, -1⟩, height := 1, width := 2, length := 2, reflection_coeff := 1 / 2,
    faces :=
      [⟨⟨0, 0, 0⟩, ⟨0, -1, 0⟩, ⟨1, 0, 0⟩, ⟨0, 0, 1⟩, 2, 2, 1 / 2⟩,
       ⟨⟨0, 2, 0⟩, ⟨0, 1, 0⟩, ⟨1, 0, 0⟩, ⟨0, 0, -1⟩, 2, 2, 1 / 2⟩,
       ⟨⟨0, 1, 1⟩, ⟨0, 0, 1⟩, ⟨1, 0, 0⟩, ⟨0, 1, 0⟩, 2, 1, 1 / 2⟩,
       ⟨⟨0, 1, -1⟩, ⟨0, 0, -1⟩, ⟨1, 0, 0⟩, ⟨0, -1, 0⟩, 2, 1, 1 / 2⟩,
       ⟨⟨-1, 1, 0⟩, ⟨-1, 0, 0⟩, ⟨0, 0, -1⟩, ⟨0, -1, 0⟩, 2, 1, 1 / 2⟩,
       ⟨⟨1, 1, 0⟩, ⟨1, 0, 0⟩, ⟨0, 0, -1⟩, ⟨0, 1, 0⟩, 2, 1, 1 / 2⟩] }

end Demo

/-! # Theorems -/

namespace Vec3

variable {F : Type} [LinearOrderedField F]

theorem add_def (u v : Vec3 F) : u + v = ⟨u.x + v.x, u.y + v.y, u.z + v.z⟩ := rfl

theorem sub_def (u v : Vec3 F) : u - v = ⟨u.x - v.x, u.y - v.y, u.z - v.z⟩ := rfl

theorem neg_def (u : Vec3 F) : -u = ⟨-u.x, -u.y, -u.z⟩ := rfl

theorem mul_def (u : Vec3 F) (t : F) : u * t = ⟨u.x * t, u.y * t, u.z * t⟩ := rfl

end Vec3

/-! ## Scene queries -/

namespace Scene

variable {F : Type} [LinearOrderedField F]

theorem get_nearest_intersection_loop_spec (sqrt : F → F) (o d : Vec3 F) (e : Option Nat) :
    ∀ (rest pre : List (ObjectPtr F)) (best res : Option (Nearest F)),
      (∀ b, best = some b → IsCandidate sqrt o d e pre b) →
      IsMinimal sqrt o d e pre best →
      get_nearest_intersection_loop sqrt o d e rest best = Except.ok res →
      (∀ b, res = some b → IsCandidate sqrt o d e (pre ++ rest) b) ∧
        IsMinimal sqrt o d e (pre ++ rest) res := by
  intro rest
  induction rest with
  | nil =>
    intro pre best res hc hm h
    simp only [get_nearest_intersection_loop, Except.ok.injEq] at h
    subst h
    rw [List.append_nil]
    exact ⟨hc, hm⟩
  | cons obj rest ih =>
    intro pre best res hc hm h
    have happ : pre ++ obj :: rest = (pre ++ [obj]) ++ rest := by simp
    rw [happ]
    have hc1 : ∀ b, best = some b → IsCandidate sqrt o d e (pre ++ [obj]) b := by
      intro b hb
      obtain ⟨h1, h2⟩ := hc b hb
      exact ⟨List.mem_append_left _ h1, h2⟩
    unfold get_nearest_intersection_loop at h
    by_cases hex : e = some obj.addr
    · rw [if_pos hex] at h
      refine ih (pre ++ [obj]) best res hc1 ?_ h
      intro q hq hne
      rcases List.mem_append.1 hq with hq | hq
      · exact hm q hq hne
      · simp only [List.mem_singleton] at hq
        subst hq
        exact absurd hex hne
    · rw [if_neg hex] at h
      have hskip : (∀ p, obj.obj.intersection sqrt o d ≠ some (Hit.pt p)) →
          IsMinimal sqrt o d e (pre ++ [obj]) best := by
        intro hno q hq hne hq2 hint
        rcases List.mem_append.1 hq with hq | hq
        · exact hm q hq hne hq2 hint
        · simp only [List.mem_singleton] at hq
          subst hq
          exact absurd hint (hno hq2)
      cases hi : obj.obj.intersection sqrt o d with
      | none =>
        rw [hi] at h
        exact ih (pre ++ [obj]) best res hc1
          (hskip (by intro p hp; rw [hi] at hp; cases hp)) h
      | some hit =>
       rw [hi] at h
       cases hit with
       | nan =>
        exact ih (pre ++ [obj]) best res hc1
          (hskip (by intro p hp; rw [hi] at hp; cases hp)) h
       | pt p =>
        simp only at h
        by_cases hlt : lt_min_dist ((p - o).norm sqrt) best
        · rw [if_pos hlt] at h
          cases hn : obj.obj.norm_dir sqrt p with
          | error err =>
            rw [hn] at h
            cases h
          | ok n =>
            rw [hn] at h
            refine ih (pre ++ [obj]) _ res ?_ ?_ h
            · intro b hb
              cases hb
              exact ⟨by simp, hex, hi, hn, rfl⟩
            · intro q hq hne hq2 hint
              rcases List.mem_append.1 hq with hq | hq
              · have := hm q hq hne hq2 hint
                cases best with
                | none => exact absurd trivial this
                | some b0 =>
                  simp only [lt_min_dist, not_lt] at this hlt ⊢
                  exact le_trans hlt.le this
              · simp only [List.mem_singleton] at hq
                subst hq
                rw [hi] at hint
                cases hint
                simp [lt_min_dist]
        · rw [if_neg hlt] at h
          refine ih (pre ++ [obj]) best res hc1 ?_ h
          intro q hq hne hq2 hint
          rcases List.mem_append.1 hq with hq | hq
          · exact hm q hq hne hq2 hint
          · simp only [List.mem_singleton] at hq
            subst hq
            rw [hi] at hint
            cases hint
            exact hlt

end Scene

namespace Scene
variable {F : Type} [LinearOrderedField F]

theorem is_shadow_loop_iff (sqrt : F → F) (o d : Vec3 F) (e : Option Nat) (D : F) :
    ∀ rest : List (ObjectPtr F),
      is_shadow_loop sqrt o d e D rest = true ↔
        ∃ q ∈ rest, e ≠ some q.addr ∧
          ∃ p, q.obj.intersection sqrt o d = some (Hit.pt p) ∧ (p - o).norm sqrt < D := by
  intro rest
  induction rest with
  | nil => simp [is_shadow_loop]
  | cons obj rest ih =>
    unfold is_shadow_loop
    by_cases hex : e = some obj.addr
    · rw [if_pos hex, ih]
      constructor
      · rintro ⟨q, hq, h⟩
        exact ⟨q, List.mem_cons_of_mem _ hq, h⟩
      · rintro ⟨q, hq, hne, h⟩
        rcases List.mem_cons.1 hq with hq | hq
        · subst hq
          exact absurd hex hne
        · exact ⟨q, hq, hne, h⟩
    · rw [if_neg hex]
      have hskip : (∀ p, obj.obj.intersection sqrt o d ≠ some (Hit.pt p)) →
          ((∃ q ∈ rest, e ≠ some q.addr ∧
              ∃ p, q.obj.intersection sqrt o d = some (Hit.pt p) ∧ (p - o).norm sqrt < D) ↔
            ∃ q ∈ obj :: rest, e ≠ some q.addr ∧
              ∃ p, q.obj.intersection sqrt o d = some (Hit.pt p) ∧ (p - o).norm sqrt < D) := by
        intro hno
        constructor
        · rintro ⟨q, hq, h⟩
          exact ⟨q, List.mem_cons_of_mem _ hq, h⟩
        · rintro ⟨q, hq, hne, p, hp, hlt⟩
          rcases List.mem_cons.1 hq with hq | hq
          · subst hq
            exact absurd hp (hno p)
          · exact ⟨q, hq, hne, p, hp, hlt⟩
      cases hi : obj.obj.intersection sqrt o d with
      | none =>
        simp only
        rw [ih]
        exact hskip (by intro p hp; rw [hi] at hp; cases hp)
      | some hit =>
       cases hit with
       | nan =>
        simp only
        rw [ih]
        exact hskip (by intro p hp; rw [hi] at hp; cases hp)
       | pt p0 =>
        simp only
        by_cases hlt0 : (p0 - o).norm sqrt < D
        · rw [if_pos hlt0]
          simp only [true_iff]
          exact ⟨obj, List.mem_cons_self _ _, hex, p0, hi, hlt0⟩
        · rw [if_neg hlt0, ih]
          constructor
          · rintro ⟨q, hq, h⟩
            exact ⟨q, List.mem_cons_of_mem _ hq, h⟩
          · rintro ⟨q, hq, hne, p, hp, hlt⟩
            rcases List.mem_cons.1 hq with hq | hq
            · subst hq
              rw [hi] at hp
              cases hp
              exact absurd hlt hlt0
            · exact ⟨q, hq, hne, p, hp, hlt⟩

end Scene

/-- C3. `Scene::is_shadow` returns true exactly when some object of the scene
other than the excluded one has an intersection with the ray at a distance
from the ray origin strictly below `distance_to_light`; when every such
intersection lies at `distance_to_light` or farther, it returns false.  The
intersection is a point `Hit.pt p`: no distance of the NaN point is below
anything. -/
theorem is_shadow_iff {F : Type} [LinearOrderedField F]
    (sqrt : F → F) (scene : Scene F) (o d : Vec3 F) (e : Option Nat) (D : F) :
    (scene.is_shadow sqrt o d e D = true ↔
      ∃ q ∈ scene.objects, e ≠ some q.addr ∧
        ∃ p, q.obj.intersection sqrt o d = some (Hit.pt p) ∧ (p - o).norm sqrt < D) ∧
    ((∀ q ∈ scene.objects, e ≠ some q.addr →
        ∀ p, q.obj.intersection sqrt o d = some (Hit.pt p) → D ≤ (p - o).norm sqrt) →
      scene.is_shadow sqrt o d e D = false) := by
  have hiff := Scene.is_shadow_loop_iff sqrt o d e D scene.objects
  refine ⟨hiff, ?_⟩
  intro hall
  cases hs : scene.is_shadow sqrt o d e D with
  | false => rfl
  | true =>
    obtain ⟨q, hq, hne, p, hp, hlt⟩ := hiff.1 hs
    exact absurd hlt (not_lt.2 (hall q hq hne p hp))

/-- Witness for C3: in `Demo.scene0`, seen from `(0,-5,0)` towards `(0,1,0)`,
the sphere's hit lies at distance 2: it occludes a light at distance 3 and,
with the plane excluded, does not occlude a light at distance exactly 2. -/
theorem is_shadow_iff_witness :
    Scene.is_shadow ratSqrt Demo.scene0 ⟨0, -5, 0⟩ ⟨0, 1, 0⟩ none 3 = true ∧
      Scene.is_shadow ratSqrt Demo.scene0 ⟨0, -5, 0⟩ ⟨0, 1, 0⟩ (some 1) 2 = false := by
  refine ⟨((is_shadow_iff ratSqrt Demo.scene0 ⟨0, -5, 0⟩ ⟨0, 1, 0⟩ none 3).1).2
    ⟨Demo.sphere0, by simp [Demo.scene0], by simp, ⟨0, -3, 0⟩, ?_, ?_⟩,
    (is_shadow_iff ratSqrt Demo.scene0 ⟨0, -5, 0⟩ ⟨0, 1, 0⟩ (some 1) 2).2 ?_⟩
  · norm_num [Demo.sphere0, Object.intersection, Sphere.intersection, Vec3.dot, Vec3.add_def,
      Vec3.sub_def, Vec3.mul_def, ratSqrt]
  · norm_num [Vec3.norm, Vec3.sub_def, ratSqrt]
  · intro q hq hne p hp
    simp only [Demo.scene0, List.mem_cons, List.mem_singleton, List.not_mem_nil, or_false] at hq
    rcases hq with rfl | rfl
    · exact absurd rfl hne
    · have : p = ⟨0, -3, 0⟩ := by
        have h2 : Demo.sphere0.obj.intersection ratSqrt ⟨0, -5, 0⟩ ⟨0, 1, 0⟩
            = some (Hit.pt ⟨0, -3, 0⟩) := by
          norm_num [Demo.sphere0, Object.intersection, Sphere.intersection, Vec3.dot,
            Vec3.add_def, Vec3.sub_def, Vec3.mul_def, ratSqrt]
        rw [h2] at hp
        exact (Hit.pt.inj (Option.some.inj hp)).symm
      subst this
      norm_num [Vec3.norm, Vec3.sub_def, ratSqrt]

/-- C4 (evaluation at the failing inputs). `Cylinder::intersection` returns the
ray origin itself: for the origin `(0,0,0)` on the bottom cap plane inside the
cap disk with direction `(3,-4,0)` (through `base_intersection`, `t = 0`), and
for the origin `(1,1,0)` on the side surface with direction `(3,4,0)` (through
`intersection_side`, `t = 0`).  Neither is `o + t*d` for a `t > 0`.  The square
roots taken are those of 36 and 0. -/
theorem cylinder_intersection_returns_ray_origin :
    (Object.intersection ratSqrt (Object.cylinder Demo.cyl0) ⟨0, 0, 0⟩ ⟨3, -4, 0⟩
        = some (Hit.pt ⟨0, 0, 0⟩) ∧
      Demo.cyl0.base_intersection ratSqrt ⟨0, 0, 0⟩ ⟨3, -4, 0⟩ Demo.cyl0.base_center
        = some ⟨0, 0, 0⟩ ∧
      ¬ ∃ t : ℚ, 0 < t ∧ (⟨0, 0, 0⟩ : Vec3 ℚ) = ⟨0, 0, 0⟩ + (⟨3, -4, 0⟩ : Vec3 ℚ) * t) ∧
    (Object.intersection ratSqrt (Object.cylinder Demo.cyl0) ⟨1, 1, 0⟩ ⟨3, 4, 0⟩
        = some (Hit.pt ⟨1, 1, 0⟩) ∧
      Demo.cyl0.intersection_side ratSqrt ⟨1, 1, 0⟩ ⟨3, 4, 0⟩ = some (Hit.pt ⟨1, 1, 0⟩) ∧
      ¬ ∃ t : ℚ, 0 < t ∧ (⟨1, 1, 0⟩ : Vec3 ℚ) = ⟨1, 1, 0⟩ + (⟨3, 4, 0⟩ : Vec3 ℚ) * t) := by
  refine ⟨⟨?_, ?_, ?_⟩, ?_, ?_, ?_⟩
  · norm_num [Object.intersection, Cylinder.intersection, Cylinder.intersection_side,
      Cylinder.base_intersection, Cylinder.consider, Cylinder.consider_side, Demo.cyl0,
      Vec3.norm, Vec3.dot, Vec3.add_def, Vec3.sub_def, Vec3.mul_def, eps, FLT_MAX, ratSqrt]
  · norm_num [Cylinder.base_intersection, Demo.cyl0, Vec3.norm, Vec3.dot, Vec3.add_def,
      Vec3.sub_def, Vec3.mul_def, eps, ratSqrt]
  · rintro ⟨t, ht, h⟩
    have := congrArg Vec3.x h
    simp only [Vec3.add_def, Vec3.mul_def] at this
    linarith
  · norm_num [Object.intersection, Cylinder.intersection, Cylinder.intersection_side,
      Cylinder.base_intersection, Cylinder.consider, Cylinder.consider_side, Demo.cyl0,
      Vec3.norm, Vec3.dot, Vec3.add_def, Vec3.sub_def, Vec3.mul_def, eps, FLT_MAX, ratSqrt]
  · norm_num [Cylinder.intersection_side, Demo.cyl0, Vec3.dot, Vec3.add_def,
      Vec3.sub_def, Vec3.mul_def, ratSqrt]
  · rintro ⟨t, ht, h⟩
    have := congrArg Vec3.x h
    simp only [Vec3.add_def, Vec3.mul_def] at this
    linarith

/-- C5 (evaluation at the failing input). For `Cone({0,0,0}, {0,1,0}, 1, 1)` and
the ray from `(0.1,3,0)` towards `(0,-1,0)`, `Cone::intersection` returns the
base point `(0.1,0,0)` at `t = 3`, although the ray meets the lateral surface
earlier, at `t = 2.1` in `(0.1,0.9,0)`: `intersect_side` takes the smaller root
`t = 1.9`, which lies beyond the apex, rejects it and returns no hit without
trying the larger root.  The square roots taken are those of 1/100. -/
theorem cone_intersection_misses_nearest_point :
    Object.intersection ratSqrt (Object.cone Demo.cone0) ⟨1 / 10, 3, 0⟩ ⟨0, -1, 0⟩
        = some (Hit.pt ⟨1 / 10, 0, 0⟩) ∧
      Demo.cone0.intersect_side ratSqrt ⟨1 / 10, 3, 0⟩ ⟨0, -1, 0⟩ = none ∧
      (⟨1 / 10, 0, 0⟩ : Vec3 ℚ) = ⟨1 / 10, 3, 0⟩ + (⟨0, -1, 0⟩ : Vec3 ℚ) * (3 : ℚ) ∧
      Demo.cone0.on_lateral_surface (⟨1 / 10, 3, 0⟩ + (⟨0, -1, 0⟩ : Vec3 ℚ) * (21 / 10 : ℚ)) ∧
      eps ℚ ≤ 21 / 10 ∧ (21 / 10 : ℚ) < 3 := by
  refine ⟨?_, ?_, ?_, ?_, ?_, ?_⟩
  · norm_num [Object.intersection, Cone.intersection, Cone.intersect_side, Cone.intersect_base,
      Demo.cone0, Vec3.norm, Vec3.dot, Vec3.add_def, Vec3.sub_def, Vec3.mul_def, Vec3.neg_def,
      eps, ratSqrt]
  · norm_num [Cone.intersect_side, Demo.cone0, Vec3.dot, Vec3.add_def, Vec3.sub_def,
      Vec3.mul_def, Vec3.neg_def, eps, ratSqrt]
  · norm_num [Vec3.add_def, Vec3.mul_def]
  · norm_num [Cone.on_lateral_surface, Demo.cone0, Vec3.dot, Vec3.add_def, Vec3.sub_def,
      Vec3.mul_def]
  · norm_num [eps]
  · norm_num

/-! ## Square roots and quadratics -/

section Quadratic

variable {F : Type} [LinearOrderedField F]

theorem SqrtLaws.eq_iff {sqrt : F → F} (hs : SqrtLaws sqrt) {x r : F} (hx : 0 ≤ x)
    (hr : 0 ≤ r) : sqrt x = r ↔ x = r * r := by
  constructor
  · intro h
    rw [← h, hs.mul_self x hx]
  · intro h
    have h1 : sqrt x * sqrt x = r * r := by rw [hs.mul_self x hx, h]
    exact (mul_self_inj (hs.nonneg x) hr).1 h1

theorem Vec3.dot_self_nonneg (v : Vec3 F) : 0 ≤ v.x * v.x + v.y * v.y + v.z * v.z := by
  have h1 := mul_self_nonneg v.x
  have h2 := mul_self_nonneg v.y
  have h3 := mul_self_nonneg v.z
  linarith

theorem Vec3.norm_eq_iff {sqrt : F → F} (hs : SqrtLaws sqrt) (v : Vec3 F) {r : F}
    (hr : 0 ≤ r) : v.norm sqrt = r ↔ v.dot v = r * r := by
  unfold Vec3.norm Vec3.dot
  exact hs.eq_iff (Vec3.dot_self_nonneg v) hr

theorem Vec3.dot_self_pos {d : Vec3 F} (hd : d ≠ ⟨0, 0, 0⟩) : 0 < d.dot d := by
  unfold Vec3.dot
  rcases lt_or_eq_of_le (Vec3.dot_self_nonneg d) with h | h
  · exact h
  · exfalso
    apply hd
    have h1 := mul_self_nonneg d.x
    have h2 := mul_self_nonneg d.y
    have h3 := mul_self_nonneg d.z
    have hx : d.x * d.x = 0 := by linarith
    have hy : d.y * d.y = 0 := by linarith
    have hz : d.z * d.z = 0 := by linarith
    ext
    · exact mul_self_eq_zero.1 hx
    · exact mul_self_eq_zero.1 hy
    · exact mul_self_eq_zero.1 hz

/-- The roots of `a t² + b t + c` for `a > 0`, given a square root `s` of the
discriminant. -/
theorem quadratic_root_iff {a b c s : F} (ha : 0 < a) (hs : s * s = b * b - 4 * a * c) (t : F) :
    a * t * t + b * t + c = 0 ↔ t = (-b - s) / (2 * a) ∨ t = (-b + s) / (2 * a) := by
  have h2a : (2 * a) ≠ 0 := by positivity
  have h4 : 4 * a * (a * t * t + b * t + c) = (2 * a * t + b + s) * (2 * a * t + b - s) := by
    have : (2 * a * t + b + s) * (2 * a * t + b - s)
        = 4 * a * (a * t * t + b * t) + b * b - s * s := by ring
    rw [this, hs]
    ring
  constructor
  · intro h
    rw [h, mul_zero] at h4
    rcases mul_eq_zero.1 h4.symm with h0 | h0
    · left
      rw [eq_div_iff h2a]
      linarith
    · right
      rw [eq_div_iff h2a]
      linarith
  · intro h
    have h0 : (2 * a * t + b + s) * (2 * a * t + b - s) = 0 := by
      rcases h with h | h
      · have h5 : 2 * a * t = -b - s := by
          rw [h]
          field_simp
        have : 2 * a * t + b + s = 0 := by linarith
        rw [this, zero_mul]
      · have h5 : 2 * a * t = -b + s := by
          rw [h]
          field_simp
        have : 2 * a * t + b - s = 0 := by linarith
        rw [this, mul_zero]
    rw [← h4] at h0
    rcases mul_eq_zero.1 h0 with h1 | h1
    · exfalso
      have : 0 < 4 * a := by positivity
      linarith
    · exact h1

/-- A quadratic with negative discriminant has no root. -/
theorem quadratic_no_root {a b c : F} (hD : b * b - 4 * a * c < 0) (t : F) :
    a * t * t + b * t + c ≠ 0 := by
  intro h
  have h4 : 4 * a * (a * t * t + b * t + c)
      = (2 * a * t + b) * (2 * a * t + b) - (b * b - 4 * a * c) := by ring
  rw [h, mul_zero] at h4
  have := mul_self_nonneg (2 * a * t + b)
  linarith

end Quadratic

/-! ## Rays parallel to the slant of a cone -/

section SphereThms

variable {F : Type} [LinearOrderedField F]

/-- The point of the ray at parameter `t` is at distance `radius` from the centre
exactly when `t` is a root of the quadratic that `Sphere::intersection` solves. -/
theorem Sphere.on_sphere_iff {sqrt : F → F} (hs : SqrtLaws sqrt) (s : Sphere F) (o d : Vec3 F)
    (hr : 0 < s.radius) (t : F) :
    (o + d * t - s.center).norm sqrt = s.radius ↔
      d.dot d * t * t + 2 * (o - s.center).dot d * t
        + ((o - s.center).dot (o - s.center) - s.radius * s.radius) = 0 := by
  rw [Vec3.norm_eq_iff hs _ hr.le]
  simp only [Vec3.dot, Vec3.add_def, Vec3.sub_def, Vec3.mul_def]
  constructor
  · intro h
    linear_combination h
  · intro h
    linear_combination h

end SphereThms

section SphereThms2

variable {F : Type} [LinearOrderedField F]

/-- `Sphere::intersection` either finds no positive root of its quadratic,
there being none, or returns the ray point of the smallest positive root. -/
theorem Sphere.intersection_spec {sqrt : F → F} (hs : SqrtLaws sqrt) (s : Sphere F)
    (o d : Vec3 F) (hd : d ≠ ⟨0, 0, 0⟩) :
    (s.intersection sqrt o d = none ∧
      ∀ t, 0 < t → d.dot d * t * t + 2 * (o - s.center).dot d * t
        + ((o - s.center).dot (o - s.center) - s.radius * s.radius) ≠ 0) ∨
    (∃ t, 0 < t ∧
      d.dot d * t * t + 2 * (o - s.center).dot d * t
        + ((o - s.center).dot (o - s.center) - s.radius * s.radius) = 0 ∧
      s.intersection sqrt o d = some (o + d * t) ∧
      ∀ t', 0 < t' → d.dot d * t' * t' + 2 * (o - s.center).dot d * t'
        + ((o - s.center).dot (o - s.center) - s.radius * s.radius) = 0 → t ≤ t') := by
  have ha : 0 < d.dot d := Vec3.dot_self_pos hd
  unfold Sphere.intersection
  simp only []
  set a := d.dot d with ha_def
  set b := 2 * (o - s.center).dot d with hb_def
  set c := (o - s.center).dot (o - s.center) - s.radius * s.radius with hc_def
  have h2a : 0 < 2 * a := by positivity
  rcases lt_trichotomy (b * b - 4 * a * c) 0 with hD | hD | hD
  · -- negative discriminant
    left
    rw [if_neg (not_lt.2 hD.le), if_neg (ne_of_lt hD)]
    exact ⟨rfl, fun t _ => quadratic_no_root hD t⟩
  · -- zero discriminant
    rw [if_neg (by rw [hD]; exact lt_irrefl _), if_pos hD]
    have hs0 : (0 : F) * 0 = b * b - 4 * a * c := by rw [hD, mul_zero]
    have hroot := fun t => quadratic_root_iff ha hs0 t
    by_cases ht : -b / (2 * a) > 0
    · right
      rw [if_pos ht]
      refine ⟨-b / (2 * a), ht, ?_, rfl, ?_⟩
      · rw [hroot]
        left
        rw [sub_zero]
      · intro t' _ h'
        rcases (hroot t').1 h' with h | h
        · rw [h, sub_zero]
        · rw [h, add_zero]
    · left
      rw [if_neg ht]
      refine ⟨rfl, ?_⟩
      intro t ht0 h'
      apply ht
      rcases (hroot t).1 h' with h | h
      · rw [sub_zero] at h
        rw [← h]
        exact ht0
      · rw [add_zero] at h
        rw [← h]
        exact ht0
  · -- positive discriminant
    rw [if_pos hD]
    have hss := hs.mul_self _ hD.le
    have hs0 := hs.nonneg (b * b - 4 * a * c)
    have hspos : 0 < sqrt (b * b - 4 * a * c) := by
      rcases lt_or_eq_of_le hs0 with h | h
      · exact h
      · rw [← h, mul_zero] at hss
        rw [← hss] at hD
        exact absurd hD (lt_irrefl _)
    have hroot := fun t => quadratic_root_iff ha hss t
    set r := sqrt (b * b - 4 * a * c) with hr_def
    have h12 : (-b - r) / (2 * a) < (-b + r) / (2 * a) := by
      apply div_lt_div_of_pos_right _ h2a
      linarith
    by_cases h1 : (-b - r) / (2 * a) > 0
    · right
      have h2 : (-b + r) / (2 * a) > 0 := lt_trans h1 h12
      rw [if_pos ⟨h1, h2⟩, if_pos h12]
      refine ⟨_, h1, (hroot _).2 (Or.inl rfl), rfl, ?_⟩
      intro t' _ h'
      rcases (hroot t').1 h' with h | h
      · rw [h]
      · rw [h]
        exact h12.le
    · rw [if_neg (fun h => h1 h.1), if_neg h1]
      by_cases h2 : (-b + r) / (2 * a) > 0
      · right
        rw [if_pos h2]
        refine ⟨_, h2, (hroot _).2 (Or.inr rfl), rfl, ?_⟩
        intro t' ht' h'
        rcases (hroot t').1 h' with h | h
        · rw [h] at ht'
          exact absurd ht' h1
        · rw [h]
      · left
        rw [if_neg h2]
        refine ⟨rfl, ?_⟩
        intro t ht0 h'
        rcases (hroot t).1 h' with h | h
        · rw [h] at ht0
          exact h1 ht0
        · rw [h] at ht0
          exact h2 ht0

end SphereThms2

/-- C6. For a sphere of positive radius and a ray with non-zero direction,
`Sphere::intersection` returns a point exactly when some `t > 0` puts
`o + t*d` at distance `radius` from the centre; the point returned is `o + t*d`
for the smallest such `t`, so it lies on the sphere.  For the sphere of radius
`r` about the origin, the ray from `(0,0,-2r)` towards `(0,0,1)` returns
`(0,0,-r)`, where `norm_dir` is `(0,0,-1)`. -/
theorem sphere_intersection_smallest_positive_root {F : Type} [LinearOrderedField F]
    (sqrt : F → F) (hs : SqrtLaws sqrt) (s : Sphere F) (o d : Vec3 F)
    (hr : 0 < s.radius) (hd : d ≠ ⟨0, 0, 0⟩) :
    ((∃ p, s.intersection sqrt o d = some p) ↔
      ∃ t : F, 0 < t ∧ (o + d * t - s.center).norm sqrt = s.radius) ∧
    (∀ p, s.intersection sqrt o d = some p →
      ∃ t : F, 0 < t ∧ p = o + d * t ∧ (p - s.center).norm sqrt = s.radius ∧
        ∀ t' : F, 0 < t' → (o + d * t' - s.center).norm sqrt = s.radius → t ≤ t') ∧
    (s.center = ⟨0, 0, 0⟩ →
      s.intersection sqrt ⟨0, 0, -(2 * s.radius)⟩ ⟨0, 0, 1⟩ = some ⟨0, 0, -s.radius⟩ ∧
      s.norm_dir sqrt ⟨0, 0, -s.radius⟩ = Except.ok ⟨0, 0, -1⟩) := by
  have hon := Sphere.on_sphere_iff hs s o d hr
  refine ⟨?_, ?_, ?_⟩
  · rcases Sphere.intersection_spec hs s o d hd with ⟨hn, hno⟩ | ⟨t, ht, hq, hi, _⟩
    · constructor
      · rintro ⟨p, hp⟩
        rw [hn] at hp
        cases hp
      · rintro ⟨t, ht, h⟩
        exact absurd ((hon t).1 h) (hno t ht)
    · constructor
      · intro _
        exact ⟨t, ht, (hon t).2 hq⟩
      · intro _
        exact ⟨_, hi⟩
  · intro p hp
    rcases Sphere.intersection_spec hs s o d hd with ⟨hn, _⟩ | ⟨t, ht, hq, hi, hmin⟩
    · rw [hn] at hp
      cases hp
    · rw [hi] at hp
      cases hp
      exact ⟨t, ht, rfl, (hon t).2 hq, fun t' ht' h' => hmin t' ht' ((hon t').1 h')⟩
  · intro hc
    have h1 : (⟨0, 0, 1⟩ : Vec3 F) ≠ ⟨0, 0, 0⟩ := by
      intro h
      have := congrArg Vec3.z h
      simp at this
    have hon1 := Sphere.on_sphere_iff hs s ⟨0, 0, -(2 * s.radius)⟩ ⟨0, 0, 1⟩ hr
    constructor
    · rcases Sphere.intersection_spec hs s ⟨0, 0, -(2 * s.radius)⟩ ⟨0, 0, 1⟩ h1 with
        ⟨_, hno⟩ | ⟨t, ht, hq, hi, hmin⟩
      · exfalso
        apply hno s.radius hr
        rw [hc]
        simp only [Vec3.dot, Vec3.sub_def]
        ring
      · have hle : t ≤ s.radius := by
          apply hmin s.radius hr
          rw [hc]
          simp only [Vec3.dot, Vec3.sub_def]
          ring
        rw [hc] at hq
        simp only [Vec3.dot, Vec3.sub_def] at hq
        have hfac : (t - s.radius) * (t - 3 * s.radius) = 0 := by linear_combination hq
        have ht_eq : t = s.radius := by
          rcases mul_eq_zero.1 hfac with h | h
          · linarith
          · exfalso
            linarith
        rw [hi, ht_eq]
        simp only [Vec3.add_def, Vec3.mul_def]
        congr 2
        · ring
        · ring
        · ring
    · unfold Sphere.norm_dir Vec3.normalized
      rw [hc]
      simp only [Vec3.sub_def, sub_zero]
      have hn : (⟨0, 0, -s.radius⟩ : Vec3 F).norm sqrt = s.radius := by
        rw [Vec3.norm_eq_iff hs _ hr.le]
        simp only [Vec3.dot]
        ring
      rw [hn, if_neg (ne_of_gt hr), zero_div, neg_div, div_self (ne_of_gt hr)]

/-- Witness for C6 over the reals with `Real.sqrt`: the unit sphere about the
origin and the ray from `(0,0,-2)` towards `(0,0,1)`. -/
theorem sphere_intersection_smallest_positive_root_witness :
    SqrtLaws Real.sqrt ∧
      Sphere.intersection Real.sqrt (⟨⟨0, 0, 0⟩, 1, 1 / 2⟩ : Sphere ℝ) ⟨0, 0, -(2 * 1)⟩ ⟨0, 0, 1⟩
        = some ⟨0, 0, -1⟩ ∧
      Sphere.norm_dir Real.sqrt (⟨⟨0, 0, 0⟩, 1, 1 / 2⟩ : Sphere ℝ) ⟨0, 0, -1⟩
        = Except.ok ⟨0, 0, -1⟩ := by
  have hs : SqrtLaws Real.sqrt := ⟨Real.sqrt_nonneg, fun x hx => Real.mul_self_sqrt hx⟩
  have hd : (⟨0, 0, 1⟩ : Vec3 ℝ) ≠ ⟨0, 0, 0⟩ := by
    intro h
    have := congrArg Vec3.z h
    simp at this
  exact ⟨hs, (sphere_intersection_smallest_positive_root Real.sqrt hs
    (⟨⟨0, 0, 0⟩, 1, 1 / 2⟩ : Sphere ℝ) ⟨0, 0, -(2 * 1)⟩ ⟨0, 0, 1⟩ one_pos hd).2.2 rfl⟩

/-! ## Plane and ChessPlane -/

/-- C7. For a plane through `p0` with normal `n` (a `Plane` or a `ChessPlane`)
and a ray `(o, d)`, with `t = n.(p0 - o) / (n.d)`: `intersection` returns
`o + t*d` when `|n.d| >= 1e-6` and `t > 0`, and no hit otherwise; every point
`q` it returns satisfies `n.(q - p0) = 0`.  For the plane through the origin
with normal `(0,-1,0)`, the ray from `(0,-5,0)` towards `(0,1,0)` returns
`(0,0,0)` and the ray from `(0,5,0)` towards `(0,1,0)` returns no hit. -/
theorem plane_intersection_formula {F : Type} [LinearOrderedField F]
    (pl : Plane F) (cp : ChessPlane F) (o d : Vec3 F) :
    (pl.intersection o d =
        if eps F ≤ |pl.norm.dot d| ∧ 0 < pl.norm.dot (pl.point - o) / pl.norm.dot d
        then some (o + d * (pl.norm.dot (pl.point - o) / pl.norm.dot d)) else none) ∧
    (∀ q, pl.intersection o d = some q → pl.norm.dot (q - pl.point) = 0) ∧
    (cp.intersection o d =
        if eps F ≤ |cp.norm.dot d| ∧ 0 < cp.norm.dot (cp.point - o) / cp.norm.dot d
        then some (o + d * (cp.norm.dot (cp.point - o) / cp.norm.dot d)) else none) ∧
    (∀ q, cp.intersection o d = some q → cp.norm.dot (q - cp.point) = 0) ∧
    (∀ c : F, Plane.intersection ⟨⟨0, 0, 0⟩, ⟨0, -1, 0⟩, c⟩ ⟨0, -5, 0⟩ ⟨0, 1, 0⟩
        = some ⟨0, 0, 0⟩ ∧
      Plane.intersection ⟨⟨0, 0, 0⟩, ⟨0, -1, 0⟩, c⟩ ⟨0, 5, 0⟩ ⟨0, 1, 0⟩ = none) := by
  have on_plane : ∀ n p0 : Vec3 F, n.dot d ≠ 0 →
      n.dot (o + d * (n.dot (p0 - o) / n.dot d) - p0) = 0 := by
    intro n p0 hnd
    have h : n.dot (o + d * (n.dot (p0 - o) / n.dot d) - p0)
        = n.dot d * (n.dot (p0 - o) / n.dot d) - n.dot (p0 - o) := by
      simp only [Vec3.dot, Vec3.add_def, Vec3.sub_def, Vec3.mul_def]
      ring
    rw [h, mul_div_cancel₀ _ hnd, sub_self]
  have nonzero : ∀ n : Vec3 F, ¬ |n.dot d| < eps F → n.dot d ≠ 0 := by
    intro n h h0
    apply h
    rw [h0, abs_zero]
    unfold eps
    positivity
  refine ⟨?_, ?_, ?_, ?_, ?_⟩
  · unfold Plane.intersection
    by_cases h1 : |pl.norm.dot d| < eps F
    · rw [if_pos h1, if_neg (fun h => absurd h1 (not_lt.2 h.1))]
    · rw [if_neg h1]
      by_cases h2 : pl.norm.dot (pl.point - o) / pl.norm.dot d > 0
      · simp only [if_pos h2]
        rw [if_pos ⟨not_lt.1 h1, h2⟩]
      · simp only [if_neg h2]
        rw [if_neg (fun h => h2 h.2)]
  · intro q hq
    unfold Plane.intersection at hq
    by_cases h1 : |pl.norm.dot d| < eps F
    · rw [if_pos h1] at hq
      cases hq
    · rw [if_neg h1] at hq
      by_cases h2 : pl.norm.dot (pl.point - o) / pl.norm.dot d > 0
      · simp only [if_pos h2, Option.some.injEq] at hq
        rw [← hq]
        exact on_plane pl.norm pl.point (nonzero pl.norm h1)
      · simp only [if_neg h2] at hq
        cases hq
  · unfold ChessPlane.intersection
    by_cases h1 : |cp.norm.dot d| < eps F
    · rw [if_pos h1, if_neg (fun h => absurd h1 (not_lt.2 h.1))]
    · rw [if_neg h1]
      by_cases h2 : cp.norm.dot (cp.point - o) / cp.norm.dot d > 0
      · simp only [if_pos h2]
        rw [if_pos ⟨not_lt.1 h1, h2⟩]
      · simp only [if_neg h2]
        rw [if_neg (fun h => h2 h.2)]
  · intro q hq
    unfold ChessPlane.intersection at hq
    by_cases h1 : |cp.norm.dot d| < eps F
    · rw [if_pos h1] at hq
      cases hq
    · rw [if_neg h1] at hq
      by_cases h2 : cp.norm.dot (cp.point - o) / cp.norm.dot d > 0
      · simp only [if_pos h2, Option.some.injEq] at hq
        rw [← hq]
        exact on_plane cp.norm cp.point (nonzero cp.norm h1)
      · simp only [if_neg h2] at hq
        cases hq
  · intro c
    constructor
    · norm_num [Plane.intersection, Vec3.dot, Vec3.add_def, Vec3.sub_def, Vec3.mul_def, eps]
    · norm_num [Plane.intersection, Vec3.dot, Vec3.add_def, Vec3.sub_def, Vec3.mul_def, eps]

/-- Witness for C7 over `ℚ`: the plane of `Demo.plane0`, hit at `(0,0,0)` from
`(0,-5,0)` and missed from `(0,5,0)`. -/
theorem plane_intersection_formula_witness :
    Plane.intersection (⟨⟨0, 0, 0⟩, ⟨0, -1, 0⟩, 1 / 2⟩ : Plane ℚ) ⟨0, -5, 0⟩ ⟨0, 1, 0⟩
        = some ⟨0, 0, 0⟩ ∧
      Plane.intersection (⟨⟨0, 0, 0⟩, ⟨0, -1, 0⟩, 1 / 2⟩ : Plane ℚ) ⟨0, 5, 0⟩ ⟨0, 1, 0⟩ = none :=
  (plane_intersection_formula (⟨⟨0, 0, 0⟩, ⟨0, -1, 0⟩, 1 / 2⟩ : Plane ℚ)
    ⟨⟨0, 0, 0⟩, ⟨0, -1, 0⟩, 1, 0, 1⟩ ⟨0, -5, 0⟩ ⟨0, 1, 0⟩).2.2.2.2 (1 / 2)

/-! ## ChessPlane tiles -/

/-- An `int` value is left unchanged by the conversion to `int`. -/
theorem toInt32_of_range {z : ℤ} (h1 : -2147483648 ≤ z) (h2 : z < 2147483648) :
    toInt32 z = z := by
  unfold toInt32
  omega

/-- The remainder `w % 2` of C++ on the wrapped sum is zero exactly when the
exact sum is even. -/
theorem tmod_toInt32_eq_zero_iff (w : ℤ) : Int.tmod (toInt32 w) 2 = 0 ↔ Even w := by
  rw [← Int.dvd_iff_tmod_eq_zero, Int.even_iff]
  unfold toInt32
  omega

/-- C8. For a `ChessPlane` with positive `square_size` and a point whose tile
indices `floor(x/square_size)` and `floor(z/square_size)` are in the range of
`int`, `get_reflection_coeff` returns the black coefficient when the sum of the
two indices is even and the white one when it is odd, whatever `y` is and
also for negative `x` or `z`.  With `square_size = 1`, `(0.5, y, 0.5)` gives
black and `(1.5, y, 0.5)` gives white. -/
theorem chessplane_coeff_by_tile_parity {F : Type} [LinearOrderedField F] [FloorRing F]
    (cp : ChessPlane F) (p : Vec3 F) (_hsize : 0 < cp.square_size)
    (hx1 : -2147483648 ≤ ⌊p.x / cp.square_size⌋) (hx2 : ⌊p.x / cp.square_size⌋ < 2147483648)
    (hz1 : -2147483648 ≤ ⌊p.z / cp.square_size⌋) (hz2 : ⌊p.z / cp.square_size⌋ < 2147483648) :
    (Even (⌊p.x / cp.square_size⌋ + ⌊p.z / cp.square_size⌋) →
      cp.get_reflection_coeff p = cp.reflection_coeff_black) ∧
    (Odd (⌊p.x / cp.square_size⌋ + ⌊p.z / cp.square_size⌋) →
      cp.get_reflection_coeff p = cp.reflection_coeff_white) ∧
    (∀ y : F, cp.get_reflection_coeff ⟨p.x, y, p.z⟩ = cp.get_reflection_coeff p) ∧
    (cp.square_size = 1 → ∀ y : F,
      cp.get_reflection_coeff ⟨1 / 2, y, 1 / 2⟩ = cp.reflection_coeff_black ∧
      cp.get_reflection_coeff ⟨3 / 2, y, 1 / 2⟩ = cp.reflection_coeff_white) := by
  have hcond : ∀ a b : ℤ, -2147483648 ≤ a → a < 2147483648 → -2147483648 ≤ b →
      b < 2147483648 →
      (Int.tmod (toInt32 (toInt32 a + toInt32 b)) 2 = 0 ↔ Even (a + b)) := by
    intro a b ha1 ha2 hb1 hb2
    rw [toInt32_of_range ha1 ha2, toInt32_of_range hb1 hb2]
    exact tmod_toInt32_eq_zero_iff (a + b)
  refine ⟨?_, ?_, ?_, ?_⟩
  · intro he
    unfold ChessPlane.get_reflection_coeff
    simp only []
    rw [if_pos ((hcond _ _ hx1 hx2 hz1 hz2).2 he)]
  · intro ho
    unfold ChessPlane.get_reflection_coeff
    simp only []
    rw [if_neg (fun h => (Int.not_even_iff_odd.2 ho) ((hcond _ _ hx1 hx2 hz1 hz2).1 h))]
  · intro y
    rfl
  · intro h1 y
    have f0 : ⌊(1 / 2 : F) / 1⌋ = 0 := by
      rw [Int.floor_eq_iff]
      norm_num
    have f1 : ⌊(3 / 2 : F) / 1⌋ = 1 := by
      rw [Int.floor_eq_iff]
      norm_num
    unfold ChessPlane.get_reflection_coeff
    simp only [h1, f0, f1]
    constructor
    · rw [if_pos (by decide)]
    · rw [if_neg (by decide)]

/-- Witness for C8 over `ℚ`: `ChessPlane({0,0,0}, 1, 0.1, 0.3)` at `(-0.5, 7, 0.5)`,
whose tile indices are `-1` and `0`: the sum is odd and the coefficient white. -/
theorem chessplane_coeff_by_tile_parity_witness :
    ChessPlane.get_reflection_coeff
        (⟨⟨0, 0, 0⟩, ⟨0, -1, 0⟩, 1, 1 / 10, 3 / 10⟩ : ChessPlane ℚ) ⟨-1 / 2, 7, 1 / 2⟩
      = 3 / 10 := by
  have fx : ⌊(-1 / 2 : ℚ) / 1⌋ = -1 := by
    rw [Int.floor_eq_iff]
    norm_num
  have fz : ⌊(1 / 2 : ℚ) / 1⌋ = 0 := by
    rw [Int.floor_eq_iff]
    norm_num
  exact (chessplane_coeff_by_tile_parity
    (⟨⟨0, 0, 0⟩, ⟨0, -1, 0⟩, 1, 1 / 10, 3 / 10⟩ : ChessPlane ℚ) ⟨-1 / 2, 7, 1 / 2⟩
    one_pos (by rw [fx]; decide) (by rw [fx]; decide) (by rw [fz]; decide)
    (by rw [fz]; decide)).2.1 (by rw [fx, fz]; decide)

/-! ## The shading loop -/

namespace RaytracingEngine

variable {F : Type} [LinearOrderedField F] [FloorRing F]

theorem claimed_term_cons_zero (sqrt : F → F) (scene : Scene F) (light : Light F)
    (b : Bounce F) (bs : List (Bounce F)) :
    claimed_term sqrt scene light (b :: bs) 0
      = if b.lit sqrt scene light = true then b.coeff * b.cos * light.power else 0 := by
  simp [claimed_term]

theorem claimed_term_cons_succ (sqrt : F → F) (scene : Scene F) (light : Light F)
    (b : Bounce F) (bs : List (Bounce F)) (k : Nat) :
    claimed_term sqrt scene light (b :: bs) (k + 1)
      = b.coeff * claimed_term sqrt scene light bs k := by
  simp only [claimed_term, List.getElem?_cons_succ, List.take_succ_cons, List.map_cons,
    List.prod_cons]
  cases bs[k]? with
  | none => simp
  | some b1 =>
    simp only
    split_ifs
    · ring
    · simp

theorem running_sum_eq (sqrt : F → F) (scene : Scene F) (light : Light F) :
    ∀ (bs : List (Bounce F)) (cum : F),
      running_sum sqrt scene light cum bs
        = cum * claimed_intensity sqrt scene light bs := by
  intro bs
  induction bs with
  | nil =>
    intro cum
    simp [running_sum, claimed_intensity]
  | cons b bs ih =>
    intro cum
    have hsum : claimed_intensity sqrt scene light (b :: bs)
        = claimed_term sqrt scene light (b :: bs) 0
          + b.coeff * claimed_intensity sqrt scene light bs := by
      unfold claimed_intensity
      rw [List.length_cons, List.range_succ_eq_map, List.map_cons, List.sum_cons, List.map_map]
      congr 1
      rw [← List.sum_map_mul_left]
      congr 1
      apply List.map_congr_left
      intro k _
      exact claimed_term_cons_succ sqrt scene light b bs k
    rw [running_sum, ih, hsum, claimed_term_cons_zero]
    split_ifs
    · ring
    · ring

end RaytracingEngine

namespace RaytracingEngine

variable {F : Type} [LinearOrderedField F] [FloorRing F]

/-- The loop's `light_intensity` is the incoming one plus the running sum over
the chain of bounces that starts in the loop's state. -/
theorem shade_loop_eq_running_sum (sqrt : F → F) (scene : Scene F) (light : Light F) :
    ∀ (n : Nat) (st : ShadeState F),
      (shade_loop sqrt scene light n st).map (fun r => r.light_intensity)
        = (bounce_chain sqrt scene light n st.ray_point st.ray_dir st.excluded_obj).map
            (fun bs => st.light_intensity
              + running_sum sqrt scene light st.cum_reflection_coeff bs) := by
  intro n
  induction n with
  | zero =>
    intro st
    simp [shade_loop, bounce_chain, running_sum, Except.map]
  | succ n ih =>
    intro st
    simp only [shade_loop, shade_step, bounce_chain]
    cases hq : scene.get_nearest_intersection sqrt st.ray_point st.ray_dir st.excluded_obj with
    | error err => rfl
    | ok r =>
      cases r with
      | none => simp [running_sum, Except.map]
      | some t =>
        obtain ⟨h, nrm, prim⟩ := t
        simp only
        cases hu : (light.position - h).normalized sqrt with
        | error err => rfl
        | ok u =>
          simp only
          cases hd : (st.ray_dir - nrm * (2 : F) * (st.ray_dir.dot nrm)).normalized sqrt with
          | error err => rfl
          | ok d1 =>
            simp only
            rw [ih]
            simp only
            cases bounce_chain sqrt scene light n h d1 (some prim.addr) with
            | error err => rfl
            | ok bs =>
              simp only [Except.map, running_sum, Bounce.lit, Bounce.cos, Bounce.coeff,
                decide_eq_true_eq, Except.ok.injEq]
              split_ifs
              · ring
              · ring

/-- Erasing the ghost counters from the instrumented loop gives the loop. -/
theorem shade_loop_counted_erase (sqrt : F → F) (scene : Scene F) (light : Light F) :
    ∀ (n : Nat) (st : ShadeState F) (c : ShadeCount),
      (shade_loop_counted sqrt scene light n st c).map (fun r => r.1)
        = shade_loop sqrt scene light n st := by
  intro n
  induction n with
  | zero =>
    intro st c
    rfl
  | succ n ih =>
    intro st c
    simp only [shade_loop, shade_step, shade_loop_counted]
    cases hq : scene.get_nearest_intersection sqrt st.ray_point st.ray_dir st.excluded_obj with
    | error err => rfl
    | ok r =>
      cases r with
      | none => rfl
      | some t =>
        obtain ⟨h, nrm, prim⟩ := t
        simp only
        cases hu : (light.position - h).normalized sqrt with
        | error err => rfl
        | ok u =>
          simp only
          cases hd : (st.ray_dir - nrm * (2 : F) * (st.ray_dir.dot nrm)).normalized sqrt with
          | error err => rfl
          | ok d1 =>
            simp only
            rw [ih]
            simp only [decide_eq_true_eq]

/-- The instrumented loop counts one contribution for every lit bounce of the
chain. -/
theorem shade_loop_counted_contributions (sqrt : F → F) (scene : Scene F) (light : Light F) :
    ∀ (n : Nat) (st : ShadeState F) (c : ShadeCount),
      (shade_loop_counted sqrt scene light n st c).map (fun r => r.2.contributions)
        = (bounce_chain sqrt scene light n st.ray_point st.ray_dir st.excluded_obj).map
            (fun bs => c.contributions + bs.countP (Bounce.lit sqrt scene light)) := by
  intro n
  induction n with
  | zero =>
    intro st c
    simp [shade_loop_counted, bounce_chain, Except.map]
  | succ n ih =>
    intro st c
    simp only [shade_loop_counted, bounce_chain]
    cases hq : scene.get_nearest_intersection sqrt st.ray_point st.ray_dir st.excluded_obj with
    | error err => rfl
    | ok r =>
      cases r with
      | none => simp [Except.map]
      | some t =>
        obtain ⟨h, nrm, prim⟩ := t
        simp only
        cases hu : (light.position - h).normalized sqrt with
        | error err => rfl
        | ok u =>
          simp only
          cases hd : (st.ray_dir - nrm * (2 : F) * (st.ray_dir.dot nrm)).normalized sqrt with
          | error err => rfl
          | ok d1 =>
            simp only
            rw [ih]
            simp only
            cases bounce_chain sqrt scene light n h d1 (some prim.addr) with
            | error err => rfl
            | ok bs =>
              simp only [Except.map, List.countP_cons, Bounce.lit, Bounce.cos,
                Except.ok.injEq]
              split_ifs <;> omega

omit [FloorRing F] in
/-- The chain has at most as many bounces as the budget allows. -/
theorem bounce_chain_length_le (sqrt : F → F) (scene : Scene F) (light : Light F) :
    ∀ (n : Nat) (o d : Vec3 F) (e : Option Nat) (bs : List (Bounce F)),
      bounce_chain sqrt scene light n o d e = Except.ok bs → bs.length ≤ n := by
  intro n
  induction n with
  | zero =>
    intro o d e bs h
    simp only [bounce_chain, Except.ok.injEq] at h
    rw [← h]
    exact Nat.le_refl _
  | succ n ih =>
    intro o d e bs h
    simp only [bounce_chain] at h
    cases hq : scene.get_nearest_intersection sqrt o d e with
    | error err => rw [hq] at h; cases h
    | ok r =>
      rw [hq] at h
      cases r with
      | none =>
        simp only [Except.ok.injEq] at h
        rw [← h]
        exact Nat.zero_le _
      | some t =>
        obtain ⟨p, nrm, prim⟩ := t
        simp only at h
        cases hu : (light.position - p).normalized sqrt with
        | error err => rw [hu] at h; cases h
        | ok u =>
          rw [hu] at h
          simp only at h
          cases hd : (d - nrm * (2 : F) * (d.dot nrm)).normalized sqrt with
          | error err => rw [hd] at h; cases h
          | ok d1 =>
            rw [hd] at h
            simp only at h
            cases hc : bounce_chain sqrt scene light n p d1 (some prim.addr) with
            | error err => rw [hc] at h; cases h
            | ok bs1 =>
              rw [hc] at h
              simp only [Except.ok.injEq] at h
              rw [← h, List.length_cons]
              exact Nat.succ_le_succ (ih _ _ _ _ hc)

end RaytracingEngine

open RaytracingEngine in
/-- C9. For the shading loop of `render_frame` with bounce budget `N`: with
`bs` the chain of successive nearest hits (at most `N` of them), `c_k` the
reflection coefficient of bounce `k`, `cos_k` its cosine and `lit_k` its flag,
the resulting intensity is the sum over the lit bounces `k` of
`(c_1 * ... * c_k) * cos_k * power`, the product running over all earlier
bounces, lit or not.  The loop adds one light contribution per lit bounce, so
it adds `N` of them when each of `N` bounces is a hit that is lit. -/
theorem shade_eq_sum_over_lit_bounces {F : Type} [LinearOrderedField F] [FloorRing F]
    (sqrt : F → F) (scene : Scene F) (light : Light F) (N : Nat) (o d : Vec3 F) :
    shade sqrt scene light (N : Int) o d
        = (bounce_chain sqrt scene light N o d none).map (claimed_intensity sqrt scene light) ∧
    (∀ bs, bounce_chain sqrt scene light N o d none = Except.ok bs →
      bs.length ≤ N ∧
      (shade_loop_counted sqrt scene light N (shade_init o d) ⟨0, 0⟩).map
          (fun r => (r.1.light_intensity, r.2.contributions))
        = Except.ok (claimed_intensity sqrt scene light bs,
            bs.countP (Bounce.lit sqrt scene light)) ∧
      (bs.length = N → (∀ b ∈ bs, b.lit sqrt scene light = true) →
        (shade_loop_counted sqrt scene light N (shade_init o d) ⟨0, 0⟩).map
            (fun r => r.2.contributions) = Except.ok N)) := by
  have hmain : shade sqrt scene light (N : Int) o d
      = (bounce_chain sqrt scene light N o d none).map (claimed_intensity sqrt scene light) := by
    have h := shade_loop_eq_running_sum sqrt scene light N (shade_init o d)
    unfold shade
    rw [Int.toNat_ofNat]
    simp only [shade_init] at h ⊢
    cases hl : shade_loop sqrt scene light N
        { light_intensity := 0, cum_reflection_coeff := 1, ray_point := o, ray_dir := d,
          excluded_obj := none } with
    | error err =>
      rw [hl] at h
      cases hc : bounce_chain sqrt scene light N o d none with
      | error err1 =>
        rw [hc] at h
        simp only [Except.map] at h ⊢
        exact h
      | ok bs =>
        rw [hc] at h
        simp only [Except.map] at h
        cases h
    | ok st =>
      rw [hl] at h
      cases hc : bounce_chain sqrt scene light N o d none with
      | error err1 =>
        rw [hc] at h
        simp only [Except.map] at h
        cases h
      | ok bs =>
        rw [hc] at h
        simp only [Except.map, Except.ok.injEq] at h ⊢
        rw [h, running_sum_eq, zero_add, one_mul]
  refine ⟨hmain, ?_⟩
  intro bs hbs
  have hcount := shade_loop_counted_contributions sqrt scene light N (shade_init o d) ⟨0, 0⟩
  have herase := shade_loop_counted_erase sqrt scene light N (shade_init o d) ⟨0, 0⟩
  have hrun := shade_loop_eq_running_sum sqrt scene light N (shade_init o d)
  simp only [shade_init] at hcount herase hrun hbs ⊢
  rw [hbs] at hcount hrun
  simp only [Except.map, zero_add] at hcount hrun
  have hlen := bounce_chain_length_le sqrt scene light N o d none bs hbs
  cases hl : shade_loop_counted sqrt scene light N
      { light_intensity := 0, cum_reflection_coeff := 1, ray_point := o, ray_dir := d,
        excluded_obj := none } ⟨0, 0⟩ with
  | error err =>
    rw [hl] at hcount
    simp only at hcount
    cases hcount
  | ok r =>
    rw [hl] at hcount herase
    simp only [Except.map, Except.ok.injEq] at hcount herase
    rw [← herase] at hrun
    simp only [Except.ok.injEq] at hrun
    rw [running_sum_eq, one_mul] at hrun
    refine ⟨hlen, ?_, ?_⟩
    · simp only [Except.map, Except.ok.injEq, Prod.mk.injEq]
      exact ⟨hrun, hcount⟩
    · intro hN hall
      simp only [Except.map, Except.ok.injEq]
      rw [hcount, List.countP_eq_length.2 hall, hN]

open RaytracingEngine in
/-- Witness for C9 over `ℚ`: in `Demo.scene1` the ray from `(-3,-4,0)` in
direction `(3/5,4/5,0)` hits the floor in `(0,0,0)` and then the ceiling in
`(6,-8,0)`; both hits are lit with cosine 4/5 and coefficient 1/2.  With budget
2 the intensity is `1/2 * 4/5 + 1/2 * 1/2 * 4/5 = 3/5`. -/
theorem shade_eq_sum_over_lit_bounces_witness :
    shade ratSqrt Demo.scene1 Demo.light1 2 ⟨-3, -4, 0⟩ ⟨3 / 5, 4 / 5, 0⟩ = Except.ok (3 / 5) ∧
      (bounce_chain ratSqrt Demo.scene1 Demo.light1 2 ⟨-3, -4, 0⟩ ⟨3 / 5, 4 / 5, 0⟩ none).map
          (claimed_intensity ratSqrt Demo.scene1 Demo.light1) = Except.ok (3 / 5) := by
  have e1 : shade_step ratSqrt Demo.scene1 Demo.light1 (shade_init ⟨-3, -4, 0⟩ ⟨3 / 5, 4 / 5, 0⟩)
      = Except.ok (some ⟨2 / 5, 1 / 2, ⟨0, 0, 0⟩, ⟨3 / 5, -4 / 5, 0⟩, some 1⟩) := by
    simp only [shade_step, shade_init, Scene.get_nearest_intersection,
      Scene.get_nearest_intersection_loop, Scene.is_shadow, Scene.is_shadow_loop, Demo.scene1,
      Demo.light1, Demo.floor1, Demo.ceiling1, reduceCtorEq, if_false, if_true]
    norm_num [Object.intersection, Object.norm_dir, Object.get_reflection_coeff,
      Plane.intersection, Plane.norm_dir, Plane.get_reflection_coeff, Vec3.normalized,
      Vec3.norm, Vec3.dot, Vec3.add_def, Vec3.sub_def, Vec3.mul_def, eps, ratSqrt,
      Scene.lt_min_dist, abs_lt]
  have e2 : shade_step ratSqrt Demo.scene1 Demo.light1
      ⟨2 / 5, 1 / 2, ⟨0, 0, 0⟩, ⟨3 / 5, -4 / 5, 0⟩, some 1⟩
      = Except.ok (some ⟨3 / 5, 1 / 4, ⟨6, -8, 0⟩, ⟨3 / 5, 4 / 5, 0⟩, some 2⟩) := by
    simp only [shade_step, shade_init, Scene.get_nearest_intersection,
      Scene.get_nearest_intersection_loop, Scene.is_shadow, Scene.is_shadow_loop, Demo.scene1,
      Demo.light1, Demo.floor1, Demo.ceiling1, reduceCtorEq, if_false, if_true]
    norm_num [Object.intersection, Object.norm_dir, Object.get_reflection_coeff,
      Plane.intersection, Plane.norm_dir, Plane.get_reflection_coeff, Vec3.normalized,
      Vec3.norm, Vec3.dot, Vec3.add_def, Vec3.sub_def, Vec3.mul_def, eps, ratSqrt,
      Scene.lt_min_dist, abs_lt]
  have h : shade ratSqrt Demo.scene1 Demo.light1 2 ⟨-3, -4, 0⟩ ⟨3 / 5, 4 / 5, 0⟩
      = Except.ok (3 / 5) := by
    have h2 : Int.toNat 2 = 2 := rfl
    simp only [shade, h2, shade_loop, e1, e2]
  refine ⟨h, ?_⟩
  rw [← (shade_eq_sum_over_lit_bounces ratSqrt Demo.scene1 Demo.light1 2 ⟨-3, -4, 0⟩
    ⟨3 / 5, 4 / 5, 0⟩).1]
  exact h

open RaytracingEngine in
/-- C10. With `num_reflections = 0` the shading loop of `render_frame` leaves
`light_intensity` at 0 for every ray, light and scene, and it calls
`get_nearest_intersection` zero times. -/
theorem shade_zero_budget {F : Type} [LinearOrderedField F] [FloorRing F]
    (sqrt : F → F) (scene : Scene F) (light : Light F) (o d : Vec3 F) :
    shade sqrt scene light 0 o d = Except.ok 0 ∧
      shade_loop_counted sqrt scene light (Int.toNat 0) (shade_init o d) ⟨0, 0⟩
        = Except.ok (shade_init o d, ⟨0, 0⟩) :=
  ⟨rfl, rfl⟩

/-! ## Ray parameters of the returned points -/

section RayParameter

variable {F : Type} [LinearOrderedField F]

theorem eps_pos : 0 < eps F := by
  unfold eps
  positivity

omit [LinearOrderedField F] in
/-- A wrapped result is the point `p` exactly when the result is `p`. -/
theorem Hit.map_pt_eq_some (x : Option (Vec3 F)) (p : Vec3 F) :
    x.map Hit.pt = some (Hit.pt p) ↔ x = some p := by
  cases x with
  | none => simp
  | some q => simp

omit [LinearOrderedField F] in
/-- A wrapped result is never the NaN point. -/
theorem Hit.map_pt_ne_nan (x : Option (Vec3 F)) : x.map Hit.pt ≠ some Hit.nan := by
  cases x with
  | none => simp
  | some q => simp

theorem plane_intersection_forward (s : Plane F) (o d p : Vec3 F)
    (h : s.intersection o d = some p) : ForwardOf o d p := by
  unfold Plane.intersection at h
  simp only [] at h
  split_ifs at h with h1 h2
  exact ⟨_, h2, (Option.some.inj h).symm⟩

theorem chessplane_intersection_forward (s : ChessPlane F) (o d p : Vec3 F)
    (h : s.intersection o d = some p) : ForwardOf o d p := by
  unfold ChessPlane.intersection at h
  simp only [] at h
  split_ifs at h with h1 h2
  exact ⟨_, h2, (Option.some.inj h).symm⟩

theorem rect_intersection_forward (s : Rect F) (o d p : Vec3 F)
    (h : s.intersection o d = some p) : ForwardOf o d p := by
  unfold Rect.intersection at h
  simp only [] at h
  split_ifs at h with h1 h2 h3
  exact ⟨_, h2, (Option.some.inj h).symm⟩

theorem sphere_intersection_forward (sqrt : F → F) (s : Sphere F) (o d p : Vec3 F)
    (h : s.intersection sqrt o d = some p) : ForwardOf o d p := by
  unfold Sphere.intersection at h
  simp only [] at h
  split_ifs at h with h1 h2 h3 h4 h5 h6 h7
  · exact ⟨_, h2.1, (Option.some.inj h).symm⟩
  · exact ⟨_, h2.2, (Option.some.inj h).symm⟩
  · exact ⟨_, h4, (Option.some.inj h).symm⟩
  · exact ⟨_, h5, (Option.some.inj h).symm⟩
  · exact ⟨_, h7, (Option.some.inj h).symm⟩

theorem rectprism_intersection_loop_forward (sqrt : F → F) (o d : Vec3 F) :
    ∀ (faces : List (Rect F)) (acc : F × Option (Vec3 F)),
      (∀ p, acc.2 = some p → ForwardOf o d p) →
      ∀ p, (RectPrism.intersection_loop sqrt o d faces acc).2 = some p → ForwardOf o d p := by
  intro faces
  induction faces with
  | nil =>
    intro acc hacc p hp
    exact hacc p hp
  | cons face rest ih =>
    intro acc hacc p hp
    unfold RectPrism.intersection_loop at hp
    cases hf : face.intersection o d with
    | none =>
      rw [hf] at hp
      exact ih acc hacc p hp
    | some q =>
      rw [hf] at hp
      simp only at hp
      split_ifs at hp with hlt
      · refine ih _ ?_ p hp
        intro p1 hp1
        cases hp1
        exact rect_intersection_forward face o d q hf
      · exact ih acc hacc p hp

theorem cone_intersection_forward (sqrt : F → F) (s : Cone F) (o d p : Vec3 F)
    (h : s.intersection sqrt o d = some (Hit.pt p)) : ForwardOf o d p := by
  have hside : ∀ q, s.intersect_side sqrt o d = some (Hit.pt q) → ForwardOf o d q := by
    intro q hq
    unfold Cone.intersect_side at hq
    simp only [] at hq
    split_ifs at hq
    all_goals
      first
      | exact Hit.noConfusion (Option.some.inj hq)
      | exact ⟨_, lt_of_lt_of_le eps_pos (not_lt.1 (by assumption)),
          (Hit.pt.inj (Option.some.inj hq)).symm⟩
  have hbase : ∀ q, s.intersect_base sqrt o d = some q → ForwardOf o d q := by
    intro q hq
    unfold Cone.intersect_base at hq
    simp only [] at hq
    split_ifs at hq with h1 h2 h3
    exact ⟨_, lt_of_lt_of_le eps_pos (not_lt.1 h2), (Option.some.inj hq).symm⟩
  unfold Cone.intersection at h
  simp only [] at h
  cases hs : s.intersect_side sqrt o d with
  | none =>
    rw [hs] at h
    cases hb : s.intersect_base sqrt o d with
    | none =>
      rw [hb] at h
      cases h
    | some bh =>
      rw [hb] at h
      simp only [Option.some.injEq, Hit.pt.injEq] at h
      rw [← h]
      exact hbase bh hb
  | some sh =>
    rw [hs] at h
    cases hb : s.intersect_base sqrt o d with
    | none =>
      rw [hb] at h
      cases sh with
      | nan => simp at h
      | pt sp =>
        simp only [Option.some.injEq, Hit.pt.injEq] at h
        rw [← h]
        exact hside sp hs
    | some bh =>
      rw [hb] at h
      cases sh with
      | nan =>
        simp only [Option.some.injEq, Hit.pt.injEq] at h
        rw [← h]
        exact hbase bh hb
      | pt sp =>
        simp only at h
        split_ifs at h
        · simp only [Option.some.injEq, Hit.pt.injEq] at h
          rw [← h]
          exact hside sp hs
        · simp only [Option.some.injEq, Hit.pt.injEq] at h
          rw [← h]
          exact hbase bh hb

/-- Every point with numbers as coordinates that a variant other than `Cylinder`
returns is a ray point of strictly positive parameter. -/
theorem Object.intersection_forward_of_not_cylinder (sqrt : F → F) (obj : Object F)
    (hobj : ∀ c, obj ≠ Object.cylinder c) (o d p : Vec3 F)
    (h : obj.intersection sqrt o d = some (Hit.pt p)) : ∃ t : F, 0 < t ∧ p = o + d * t := by
  cases obj with
  | plane s =>
    exact plane_intersection_forward s o d p ((Hit.map_pt_eq_some _ p).1 h)
  | chessPlane s =>
    exact chessplane_intersection_forward s o d p ((Hit.map_pt_eq_some _ p).1 h)
  | sphere s =>
    exact sphere_intersection_forward sqrt s o d p ((Hit.map_pt_eq_some _ p).1 h)
  | rect s =>
    exact rect_intersection_forward s o d p ((Hit.map_pt_eq_some _ p).1 h)
  | rectPrism s =>
    exact rectprism_intersection_loop_forward sqrt o d s.faces _
      (by intro p hp; cases hp) p ((Hit.map_pt_eq_some _ p).1 h)
  | cylinder s => exact absurd rfl (hobj s)
  | cone s => exact cone_intersection_forward sqrt s o d p h

end RayParameter

/-- The computable square root on `ℚ` is exact on squares. -/
theorem ratSqrt_mul_self (q : ℚ) (hq : 0 ≤ q) : ratSqrt (q * q) = q := by
  unfold ratSqrt
  rw [if_neg (not_lt.2 (mul_self_nonneg q)), Rat.mul_self_num, Rat.mul_self_den,
    Int.natAbs_mul, Nat.sqrt_eq, Nat.sqrt_eq]
  have hnum : (q.num.natAbs : ℤ) = q.num := Int.natAbs_of_nonneg (Rat.num_nonneg.2 hq)
  have h2 : ((q.num.natAbs : ℕ) : ℚ) = (q.num : ℚ) := by
    rw [← Int.cast_natCast, hnum]
  rw [h2]
  exact Rat.num_div_den q

/-- The norm of `(1e-7, 0, 0)` over `ℚ`: the square root of `1e-14` is `1e-7`. -/
theorem norm_tiny_vector :
    Vec3.norm ratSqrt (⟨1 / 10000000, 0, 0⟩ : Vec3 ℚ) = 1 / 10000000 := by
  have h : ((1 : ℚ) / 10000000 * (1 / 10000000) + 0 * 0 + 0 * 0)
      = (1 / 10000000) * (1 / 10000000) := by norm_num
  unfold Vec3.norm
  simp only
  rw [h, ratSqrt_mul_self _ (by norm_num)]

/-! ## Vec3::normalized -/

section Normalized

variable {F : Type} [LinearOrderedField F]

theorem Vec3.normalized_of_norm_eq_zero (sqrt : F → F) (v : Vec3 F) (h : v.norm sqrt = 0) :
    v.normalized sqrt = Except.error (Error.runtime_error "Zero length vector!") := by
  unfold Vec3.normalized
  simp only [h, if_true]

theorem Vec3.normalized_of_norm_ne_zero (sqrt : F → F) (v : Vec3 F) (h : v.norm sqrt ≠ 0) :
    v.normalized sqrt
      = Except.ok ⟨v.x / v.norm sqrt, v.y / v.norm sqrt, v.z / v.norm sqrt⟩ := by
  unfold Vec3.normalized
  simp only [h, if_false]

/-- What `normalized` returns, when it returns: the norm is non-zero and the
components are divided by it. -/
theorem Vec3.normalized_ok_iff (sqrt : F → F) (v u : Vec3 F) :
    v.normalized sqrt = Except.ok u ↔
      v.norm sqrt ≠ 0 ∧ u = ⟨v.x / v.norm sqrt, v.y / v.norm sqrt, v.z / v.norm sqrt⟩ := by
  by_cases h : v.norm sqrt = 0
  · rw [Vec3.normalized_of_norm_eq_zero sqrt v h]
    constructor
    · intro h1
      cases h1
    · intro h1
      exact absurd h h1.1
  · rw [Vec3.normalized_of_norm_ne_zero sqrt v h]
    constructor
    · intro h1
      exact ⟨h, (Except.ok.inj h1).symm⟩
    · intro h1
      rw [h1.2]

/-- The only error `normalized` raises. -/
theorem Vec3.normalized_error (sqrt : F → F) (v : Vec3 F) (e : Error)
    (h : v.normalized sqrt = Except.error e) :
    e = Error.runtime_error "Zero length vector!" := by
  by_cases h0 : v.norm sqrt = 0
  · rw [Vec3.normalized_of_norm_eq_zero sqrt v h0] at h
    exact (Except.error.inj h).symm
  · rw [Vec3.normalized_of_norm_ne_zero sqrt v h0] at h
    cases h

theorem Vec3.norm_mul_self {sqrt : F → F} (hs : SqrtLaws sqrt) (v : Vec3 F) :
    v.norm sqrt * v.norm sqrt = v.dot v := by
  unfold Vec3.norm Vec3.dot
  exact hs.mul_self _ (Vec3.dot_self_nonneg v)

theorem Vec3.norm_nonneg {sqrt : F → F} (hs : SqrtLaws sqrt) (v : Vec3 F) : 0 ≤ v.norm sqrt :=
  hs.nonneg _

/-- A vector returned by `normalized` has `dot` square 1. -/
theorem Vec3.normalized_dot_self {sqrt : F → F} (hs : SqrtLaws sqrt) (v u : Vec3 F)
    (h : v.normalized sqrt = Except.ok u) : u.dot u = 1 := by
  obtain ⟨hn, hu⟩ := (Vec3.normalized_ok_iff sqrt v u).1 h
  have hsq := Vec3.norm_mul_self hs v
  rw [hu]
  simp only [Vec3.dot] at hsq ⊢
  have : v.x / v.norm sqrt * (v.x / v.norm sqrt) + v.y / v.norm sqrt * (v.y / v.norm sqrt)
      + v.z / v.norm sqrt * (v.z / v.norm sqrt)
      = (v.x * v.x + v.y * v.y + v.z * v.z) / (v.norm sqrt * v.norm sqrt) := by
    field_simp
  rw [this, ← hsq, div_self (mul_ne_zero hn hn)]

theorem Vec3.norm_eq_one_iff {sqrt : F → F} (hs : SqrtLaws sqrt) (u : Vec3 F) :
    u.norm sqrt = 1 ↔ u.dot u = 1 := by
  rw [Vec3.norm_eq_iff hs u zero_le_one, mul_one]

/-- A vector returned by `normalized` has norm 1. -/
theorem Vec3.normalized_norm {sqrt : F → F} (hs : SqrtLaws sqrt) (v u : Vec3 F)
    (h : v.normalized sqrt = Except.ok u) : u.norm sqrt = 1 :=
  (Vec3.norm_eq_one_iff hs u).2 (Vec3.normalized_dot_self hs v u h)

/-- A vector of norm 1 is returned unchanged. -/
theorem Vec3.normalized_of_norm_eq_one (sqrt : F → F) (v : Vec3 F) (h : v.norm sqrt = 1) :
    v.normalized sqrt = Except.ok v := by
  rw [Vec3.normalized_of_norm_ne_zero sqrt v (by rw [h]; exact one_ne_zero), h]
  simp only [div_one]

theorem Vec3.norm_eq_zero_iff {sqrt : F → F} (hs : SqrtLaws sqrt) (v : Vec3 F) :
    v.norm sqrt = 0 ↔ v = ⟨0, 0, 0⟩ := by
  rw [Vec3.norm_eq_iff hs v (le_refl 0), mul_zero]
  constructor
  · intro h
    by_contra hne
    exact absurd h (ne_of_gt (Vec3.dot_self_pos hne))
  · intro h
    rw [h]
    simp [Vec3.dot]

theorem Vec3.norm_neg (sqrt : F → F) (v : Vec3 F) : (-v).norm sqrt = v.norm sqrt := by
  simp only [Vec3.norm, Vec3.neg_def, neg_mul_neg]

end Normalized

/-- C16 (counterexample). The vector `(1e-7, 0, 0)` has norm `1e-7 < 1e-6`, and
`Vec3::normalized` returns `(1, 0, 0)` for it instead of failing.  The square
root taken is that of `1e-14`. -/
theorem normalized_accepts_norm_below_eps :
    Vec3.norm ratSqrt (⟨1 / 10000000, 0, 0⟩ : Vec3 ℚ) < eps ℚ ∧
      Vec3.normalized ratSqrt (⟨1 / 10000000, 0, 0⟩ : Vec3 ℚ) = Except.ok ⟨1, 0, 0⟩ := by
  have hn := norm_tiny_vector
  refine ⟨?_, ?_⟩
  · rw [hn]
    norm_num [eps]
  · rw [Vec3.normalized_of_norm_ne_zero _ _ (by rw [hn]; norm_num), hn]
    norm_num

/-- C16 (amended). `Vec3::normalized` fails, with the runtime error "Zero length
vector!", exactly when the computed norm equals 0; for every other vector,
also one whose norm is below `1e-6`, it returns the components divided by the
norm. -/
theorem normalized_fails_iff_norm_eq_zero {F : Type} [LinearOrderedField F]
    (sqrt : F → F) (v : Vec3 F) :
    (v.normalized sqrt = Except.error (Error.runtime_error "Zero length vector!") ↔
      v.norm sqrt = 0) ∧
    ((∃ u, v.normalized sqrt = Except.ok u) ↔ v.norm sqrt ≠ 0) ∧
    (v.norm sqrt ≠ 0 → v.normalized sqrt
      = Except.ok ⟨v.x / v.norm sqrt, v.y / v.norm sqrt, v.z / v.norm sqrt⟩) := by
  refine ⟨⟨?_, Vec3.normalized_of_norm_eq_zero sqrt v⟩, ⟨?_, ?_⟩,
    Vec3.normalized_of_norm_ne_zero sqrt v⟩
  · intro h
    by_contra h0
    rw [Vec3.normalized_of_norm_ne_zero sqrt v h0] at h
    cases h
  · rintro ⟨u, hu⟩
    exact ((Vec3.normalized_ok_iff sqrt v u).1 hu).1
  · intro h0
    exact ⟨_, Vec3.normalized_of_norm_ne_zero sqrt v h0⟩

/-- Witness for C16 (amended) over `ℚ`: `(1e-7, 0, 0)` has non-zero norm and is
normalised to `(1, 0, 0)`. -/
theorem normalized_fails_iff_norm_eq_zero_witness :
    Vec3.normalized ratSqrt (⟨1 / 10000000, 0, 0⟩ : Vec3 ℚ)
      = Except.ok ⟨(1 / 10000000) / Vec3.norm ratSqrt (⟨1 / 10000000, 0, 0⟩ : Vec3 ℚ),
          0 / Vec3.norm ratSqrt (⟨1 / 10000000, 0, 0⟩ : Vec3 ℚ),
          0 / Vec3.norm ratSqrt (⟨1 / 10000000, 0, 0⟩ : Vec3 ℚ)⟩ :=
  (normalized_fails_iff_norm_eq_zero ratSqrt (⟨1 / 10000000, 0, 0⟩ : Vec3 ℚ)).2.2
    (by rw [norm_tiny_vector]; norm_num)

/-- C17. A vector of norm 1 is returned by `Vec3::normalized` unchanged; for a
non-zero vector the result has norm 1 and normalising it again returns it
unchanged; normalising the zero vector fails. -/
theorem normalized_idempotent {F : Type} [LinearOrderedField F]
    (sqrt : F → F) (hs : SqrtLaws sqrt) (v : Vec3 F) :
    (v.norm sqrt = 1 → v.normalized sqrt = Except.ok v) ∧
    (v ≠ ⟨0, 0, 0⟩ → ∃ u, v.normalized sqrt = Except.ok u ∧ u.norm sqrt = 1 ∧
      u.normalized sqrt = Except.ok u) ∧
    Vec3.normalized sqrt (⟨0, 0, 0⟩ : Vec3 F)
      = Except.error (Error.runtime_error "Zero length vector!") := by
  refine ⟨Vec3.normalized_of_norm_eq_one sqrt v, ?_, ?_⟩
  · intro hv
    have hn : v.norm sqrt ≠ 0 := fun h => hv ((Vec3.norm_eq_zero_iff hs v).1 h)
    have hu := Vec3.normalized_of_norm_ne_zero sqrt v hn
    have h1 := Vec3.normalized_norm hs v _ hu
    exact ⟨_, hu, h1, Vec3.normalized_of_norm_eq_one sqrt _ h1⟩
  · exact Vec3.normalized_of_norm_eq_zero sqrt _ ((Vec3.norm_eq_zero_iff hs _).2 rfl)

/-- Witness for C17 over the reals with `Real.sqrt`: `(0, 3, 4)` is normalised to
a vector of norm 1 that normalises to itself. -/
theorem normalized_idempotent_witness :
    SqrtLaws Real.sqrt ∧
      ∃ u : Vec3 ℝ, Vec3.normalized Real.sqrt (⟨0, 3, 4⟩ : Vec3 ℝ) = Except.ok u ∧
        u.norm Real.sqrt = 1 ∧ u.normalized Real.sqrt = Except.ok u := by
  have hs : SqrtLaws Real.sqrt := ⟨Real.sqrt_nonneg, fun x hx => Real.mul_self_sqrt hx⟩
  have hv : (⟨0, 3, 4⟩ : Vec3 ℝ) ≠ ⟨0, 0, 0⟩ := by
    intro h
    have := congrArg Vec3.z h
    norm_num at this
  exact ⟨hs, (normalized_idempotent Real.sqrt hs ⟨0, 3, 4⟩).2.1 hv⟩

/-! ## Reflection -/

/-- C18. For a unit normal `n`, the reflected direction `r = d - n*2*(d.n)` that
the shading loop computes before normalising satisfies `r.n = -(d.n)` and
`|r| = |d|`; so for a unit `d` the normalisation returns `r` unchanged. -/
theorem reflection_law {F : Type} [LinearOrderedField F]
    (sqrt : F → F) (hs : SqrtLaws sqrt) (d n : Vec3 F) (hn : n.norm sqrt = 1) :
    (d - n * (2 : F) * (d.dot n)).dot n = -(d.dot n) ∧
    (d - n * (2 : F) * (d.dot n)).norm sqrt = d.norm sqrt ∧
    (d.norm sqrt = 1 →
      (d - n * (2 : F) * (d.dot n)).normalized sqrt
        = Except.ok (d - n * (2 : F) * (d.dot n))) := by
  have hnn : n.dot n = 1 := (Vec3.norm_eq_one_iff hs n).1 hn
  have hnorm : (d - n * (2 : F) * (d.dot n)).norm sqrt = d.norm sqrt := by
    unfold Vec3.norm
    congr 1
    simp only [Vec3.dot, Vec3.sub_def, Vec3.mul_def] at hnn ⊢
    linear_combination (4 * (d.x * n.x + d.y * n.y + d.z * n.z) ^ 2) * hnn
  refine ⟨?_, hnorm, ?_⟩
  · simp only [Vec3.dot, Vec3.sub_def, Vec3.mul_def] at hnn ⊢
    linear_combination (-2 * (d.x * n.x + d.y * n.y + d.z * n.z)) * hnn
  · intro hd
    exact Vec3.normalized_of_norm_eq_one sqrt _ (by rw [hnorm, hd])

/-- Witness for C18 over the reals with `Real.sqrt`: the direction `(3/5, 4/5, 0)`
reflected at the normal `(0, -1, 0)`. -/
theorem reflection_law_witness :
    SqrtLaws Real.sqrt ∧ Vec3.norm Real.sqrt (⟨0, -1, 0⟩ : Vec3 ℝ) = 1 ∧
      ((⟨3 / 5, 4 / 5, 0⟩ : Vec3 ℝ)
          - (⟨0, -1, 0⟩ : Vec3 ℝ) * (2 : ℝ)
            * (Vec3.dot (⟨3 / 5, 4 / 5, 0⟩ : Vec3 ℝ) ⟨0, -1, 0⟩)).dot
          ⟨0, -1, 0⟩
        = -(Vec3.dot (⟨3 / 5, 4 / 5, 0⟩ : Vec3 ℝ) ⟨0, -1, 0⟩) := by
  have hs : SqrtLaws Real.sqrt := ⟨Real.sqrt_nonneg, fun x hx => Real.mul_self_sqrt hx⟩
  have hn : Vec3.norm Real.sqrt (⟨0, -1, 0⟩ : Vec3 ℝ) = 1 := by
    rw [Vec3.norm_eq_one_iff hs]
    norm_num [Vec3.dot]
  exact ⟨hs, hn, (reflection_law Real.sqrt hs ⟨3 / 5, 4 / 5, 0⟩ ⟨0, -1, 0⟩ hn).1⟩

/-! ## Constructors -/

section ConstructorThms

variable {F : Type} [LinearOrderedField F]

/-- What a successful `Plane(point, norm, refl_coeff)` has checked and stored. -/
theorem plane_new_norm_ok (sqrt : F → F) (point norm : Vec3 F) (refl_coeff : F) (s : Plane F)
    (h : Plane.new_norm sqrt point norm refl_coeff = Except.ok s) :
    norm.normalized sqrt = Except.ok s.norm ∧ ¬ norm.norm sqrt < eps F := by
  unfold Plane.new_norm at h
  cases hn : norm.normalized sqrt with
  | error e => rw [hn] at h; cases h
  | ok n =>
    rw [hn] at h
    simp only at h
    split_ifs at h with h1
    cases h
    exact ⟨rfl, h1⟩

/-- What a successful `ChessPlane(point, norm, ...)` has checked and stored. -/
theorem chessplane_new_norm_ok (sqrt : F → F) (point norm : Vec3 F) (sz b w : F)
    (s : ChessPlane F) (h : ChessPlane.new_norm sqrt point norm sz b w = Except.ok s) :
    norm.normalized sqrt = Except.ok s.norm ∧ ¬ norm.norm sqrt < eps F := by
  unfold ChessPlane.new_norm at h
  cases hn : norm.normalized sqrt with
  | error e => rw [hn] at h; cases h
  | ok n =>
    rw [hn] at h
    simp only at h
    split_ifs at h with h1
    cases h
    exact ⟨rfl, h1⟩

/-- What a successful `Rect(center, norm, width_dir, ...)` has checked and
stored. -/
theorem rect_new_ok (sqrt : F → F) (center norm width_dir : Vec3 F) (width height c : F)
    (s : Rect F) (h : Rect.new sqrt center norm width_dir width height c = Except.ok s) :
    norm.normalized sqrt = Except.ok s.norm ∧
      width_dir.normalized sqrt = Except.ok s.width_dir ∧
      (norm.cross width_dir).normalized sqrt = Except.ok s.height_dir ∧
      ¬ norm.norm sqrt < eps F ∧ ¬ width_dir.norm sqrt < eps F ∧
      ¬ norm.dot width_dir > eps F ∧
      s.center = center ∧ s.width = width ∧ s.height = height := by
  unfold Rect.new at h
  cases hn : norm.normalized sqrt with
  | error e => rw [hn] at h; cases h
  | ok n =>
    rw [hn] at h
    simp only at h
    cases hw : width_dir.normalized sqrt with
    | error e => rw [hw] at h; cases h
    | ok w =>
      rw [hw] at h
      simp only at h
      cases hh : (norm.cross width_dir).normalized sqrt with
      | error e => rw [hh] at h; cases h
      | ok hd =>
        rw [hh] at h
        simp only at h
        split_ifs at h with h1 h2
        cases h
        exact ⟨rfl, rfl, rfl, fun h3 => h1 (Or.inl h3), fun h3 => h1 (Or.inr h3), h2,
          rfl, rfl, rfl⟩

/-- `Rect(...)` fails when the dot product of its two directions exceeds `1e-6`. -/
theorem Rect.new_error_of_dot_gt (sqrt : F → F) (center norm width_dir : Vec3 F)
    (width height c : F) (hdot : norm.dot width_dir > eps F) :
    ∃ e, Rect.new sqrt center norm width_dir width height c = Except.error e := by
  cases h : Rect.new sqrt center norm width_dir width height c with
  | error e => exact ⟨e, rfl⟩
  | ok s => exact absurd hdot (rect_new_ok sqrt center norm width_dir width height c s h).2.2.2.2.2.1

/-- What a successful `RectPrism(...)` has checked and stored. -/
theorem rectprism_new_ok (sqrt : F → F) (base_center height_dir width_dir : Vec3 F)
    (height width length c : F) (s : RectPrism F)
    (h : RectPrism.new sqrt base_center height_dir width_dir height width length c
      = Except.ok s) :
    height_dir.normalized sqrt = Except.ok s.height_dir ∧
      width_dir.normalized sqrt = Except.ok s.width_dir ∧
      (height_dir.cross width_dir).normalized sqrt = Except.ok s.length_dir ∧
      ¬ height_dir.norm sqrt < eps F ∧ ¬ width_dir.norm sqrt < eps F ∧
      ¬ height_dir.dot width_dir > eps F ∧
      ∃ f0 f1 f2 f3 f4 f5,
        Rect.new sqrt base_center (-height_dir) width_dir width length c = Except.ok f0 ∧
        Rect.new sqrt (base_center + height_dir * height) height_dir width_dir width length c
          = Except.ok f1 ∧
        Rect.new sqrt (base_center - s.length_dir * (length / 2) + height_dir * (height / 2))
          (-s.length_dir) width_dir width height c = Except.ok f2 ∧
        Rect.new sqrt (base_center + s.length_dir * (length / 2) + height_dir * (height / 2))
          s.length_dir width_dir width height c = Except.ok f3 ∧
        Rect.new sqrt (base_center - width_dir * (width / 2) + height_dir * (height / 2))
          (-width_dir) s.length_dir length height c = Except.ok f4 ∧
        Rect.new sqrt (base_center + width_dir * (width / 2) + height_dir * (height / 2))
          width_dir s.length_dir length height c = Except.ok f5 ∧
        s = ⟨base_center, s.height_dir, s.width_dir, s.length_dir, height, width, length, c,
          [f0, f1, f2, f3, f4, f5]⟩ := by
  unfold RectPrism.new at h
  cases hn : height_dir.normalized sqrt with
  | error e => rw [hn] at h; cases h
  | ok hd =>
    rw [hn] at h
    simp only at h
    cases hw : width_dir.normalized sqrt with
    | error e => rw [hw] at h; cases h
    | ok wd =>
      rw [hw] at h
      simp only at h
      cases hl : (height_dir.cross width_dir).normalized sqrt with
      | error e => rw [hl] at h; cases h
      | ok ld =>
        rw [hl] at h
        simp only at h
        split_ifs at h with h1 h2
        simp only [bind, Except.bind] at h
        cases e0 : Rect.new sqrt base_center (-height_dir) width_dir width length c with
        | error e => rw [e0] at h; cases h
        | ok f0 =>
          rw [e0] at h
          simp only at h
          cases e1 : Rect.new sqrt (base_center + height_dir * height) height_dir width_dir
              width length c with
          | error e => rw [e1] at h; cases h
          | ok f1 =>
            rw [e1] at h
            simp only at h
            cases e2 : Rect.new sqrt (base_center - ld * (length / 2) + height_dir * (height / 2))
                (-ld) width_dir width height c with
            | error e => rw [e2] at h; cases h
            | ok f2 =>
              rw [e2] at h
              simp only at h
              cases e3 : Rect.new sqrt
                  (base_center + ld * (length / 2) + height_dir * (height / 2))
                  ld width_dir width height c with
              | error e => rw [e3] at h; cases h
              | ok f3 =>
                rw [e3] at h
                simp only at h
                cases e4 : Rect.new sqrt
                    (base_center - width_dir * (width / 2) + height_dir * (height / 2))
                    (-width_dir) ld length height c with
                | error e => rw [e4] at h; cases h
                | ok f4 =>
                  rw [e4] at h
                  simp only at h
                  cases e5 : Rect.new sqrt
                      (base_center + width_dir * (width / 2) + height_dir * (height / 2))
                      width_dir ld length height c with
                  | error e => rw [e5] at h; cases h
                  | ok f5 =>
                    rw [e5] at h
                    simp only [Except.ok.injEq] at h
                    subst h
                    exact ⟨rfl, rfl, rfl, fun h3 => h1 (Or.inl h3), fun h3 => h1 (Or.inr h3),
                      h2, f0, f1, f2, f3, f4, f5, rfl, rfl, e2, e3, e4, e5, rfl⟩

/-- What a successful `Cylinder(...)` has stored; there is nothing it checks. -/
theorem cylinder_new_ok (sqrt : F → F) (base_center axis_dir : Vec3 F) (radius height c : F)
    (s : Cylinder F) (h : Cylinder.new sqrt base_center axis_dir radius height c = Except.ok s) :
    axis_dir.normalized sqrt = Except.ok s.axis_dir ∧ s.radius = radius ∧
      s.height = height := by
  unfold Cylinder.new at h
  cases hn : axis_dir.normalized sqrt with
  | error e => rw [hn] at h; cases h
  | ok a =>
    rw [hn] at h
    cases h
    exact ⟨rfl, rfl, rfl⟩

/-- What a successful `Cone(...)` has checked and stored. -/
theorem cone_new_ok (sqrt : F → F) (base_center axis : Vec3 F) (radius height c : F)
    (s : Cone F) (h : Cone.new sqrt base_center axis radius height c = Except.ok s) :
    axis.normalized sqrt = Except.ok s.axis ∧ ¬ |axis.norm sqrt| < eps F ∧
      0 < radius ∧ 0 < height ∧ s.radius = radius ∧ s.height = height ∧
      s.base_center = base_center ∧ s.vertex = base_center + axis * height := by
  unfold Cone.new at h
  cases hn : axis.normalized sqrt with
  | error e => rw [hn] at h; cases h
  | ok a =>
    rw [hn] at h
    simp only at h
    split_ifs at h with h1 h2
    cases h
    exact ⟨rfl, h1, not_le.1 (fun h3 => h2 (Or.inl h3)), not_le.1 (fun h3 => h2 (Or.inr h3)),
      rfl, rfl, rfl, rfl⟩

end ConstructorThms

section ConstructorChecks

variable {F : Type} [LinearOrderedField F]

/-- The constructors of `Plane`, `ChessPlane`, `Rect`, `RectPrism` and `Cone` fail
on a direction argument whose norm is below `1e-6`. -/
theorem constructors_reject_negligible_direction (sqrt : F → F) (hs : SqrtLaws sqrt)
    (v : Vec3 F) (hv : v.norm sqrt < eps F) :
    (∀ point c, ∃ e, Plane.new_norm sqrt point v c = Except.error e) ∧
    (∀ point sz b w, ∃ e, ChessPlane.new_norm sqrt point v sz b w = Except.error e) ∧
    (∀ center other width height c,
      (∃ e, Rect.new sqrt center v other width height c = Except.error e) ∧
      (∃ e, Rect.new sqrt center other v width height c = Except.error e)) ∧
    (∀ base other height width length c,
      (∃ e, RectPrism.new sqrt base v other height width length c = Except.error e) ∧
      (∃ e, RectPrism.new sqrt base other v height width length c = Except.error e)) ∧
    (∀ base radius height c, ∃ e, Cone.new sqrt base v radius height c = Except.error e) := by
  refine ⟨?_, ?_, ?_, ?_, ?_⟩
  · intro point c
    cases h : Plane.new_norm sqrt point v c with
    | error e => exact ⟨e, rfl⟩
    | ok s => exact absurd hv (plane_new_norm_ok sqrt point v c s h).2
  · intro point sz b w
    cases h : ChessPlane.new_norm sqrt point v sz b w with
    | error e => exact ⟨e, rfl⟩
    | ok s => exact absurd hv (chessplane_new_norm_ok sqrt point v sz b w s h).2
  · intro center other width height c
    constructor
    · cases h : Rect.new sqrt center v other width height c with
      | error e => exact ⟨e, rfl⟩
      | ok s => exact absurd hv (rect_new_ok sqrt center v other width height c s h).2.2.2.1
    · cases h : Rect.new sqrt center other v width height c with
      | error e => exact ⟨e, rfl⟩
      | ok s => exact absurd hv (rect_new_ok sqrt center other v width height c s h).2.2.2.2.1
  · intro base other height width length c
    constructor
    · cases h : RectPrism.new sqrt base v other height width length c with
      | error e => exact ⟨e, rfl⟩
      | ok s =>
        exact absurd hv (rectprism_new_ok sqrt base v other height width length c s h).2.2.2.1
    · cases h : RectPrism.new sqrt base other v height width length c with
      | error e => exact ⟨e, rfl⟩
      | ok s =>
        exact absurd hv (rectprism_new_ok sqrt base other v height width length c s h).2.2.2.2.1
  · intro base radius height c
    cases h : Cone.new sqrt base v radius height c with
    | error e => exact ⟨e, rfl⟩
    | ok s =>
      have h1 := (cone_new_ok sqrt base v radius height c s h).2.1
      rw [abs_of_nonneg (Vec3.norm_nonneg hs v)] at h1
      exact absurd hv h1

/-- `RectPrism(...)` fails when the dot product of `height_dir` and `width_dir`
exceeds `1e-6` in absolute value, whatever its sign: a positive one is caught
by the constructor's own test, a negative one by the test of the bottom face
`Rect(base_center, -height_dir, width_dir, ...)`. -/
theorem rectprism_constructor_rejects_nonorthogonal (sqrt : F → F)
    (base height_dir width_dir : Vec3 F) (height width length c : F)
    (hdot : |height_dir.dot width_dir| > eps F) :
    ∃ e, RectPrism.new sqrt base height_dir width_dir height width length c
      = Except.error e := by
  cases h : RectPrism.new sqrt base height_dir width_dir height width length c with
  | error e => exact ⟨e, rfl⟩
  | ok s =>
    exfalso
    obtain ⟨_, _, _, _, _, hpos, f0, _, _, _, _, _, e0, _⟩ :=
      rectprism_new_ok sqrt base height_dir width_dir height width length c s h
    have hneg := (rect_new_ok sqrt base (-height_dir) width_dir width length c f0 e0).2.2.2.2.2.1
    have hd : (-height_dir).dot width_dir = -(height_dir.dot width_dir) := by
      simp only [Vec3.dot, Vec3.neg_def]
      ring
    rw [hd] at hneg
    rcases lt_or_le 0 (height_dir.dot width_dir) with hp | hn
    · rw [abs_of_pos hp] at hdot
      exact hpos hdot
    · rw [abs_of_nonpos hn] at hdot
      exact hneg hdot

/-- `Cone(...)` fails when the radius or the height is not positive or the norm of
the axis is below `1e-6`, and succeeds otherwise; `Cylinder(...)` succeeds
whenever the norm of the axis is not 0, whatever the radius and the height. -/
theorem cone_constructor_validates (sqrt : F → F) (hs : SqrtLaws sqrt)
    (base axis : Vec3 F) (radius height c : F) :
    ((radius ≤ 0 ∨ height ≤ 0 ∨ axis.norm sqrt < eps F) →
      ∃ e, Cone.new sqrt base axis radius height c = Except.error e) ∧
    ((0 < radius ∧ 0 < height ∧ eps F ≤ axis.norm sqrt) →
      ∃ s, Cone.new sqrt base axis radius height c = Except.ok s) ∧
    (axis.norm sqrt ≠ 0 →
      ∃ s, Cylinder.new sqrt base axis radius height c = Except.ok s) ∧
    (axis.norm sqrt = 0 →
      ∃ e, Cylinder.new sqrt base axis radius height c = Except.error e) := by
  refine ⟨?_, ?_, ?_, ?_⟩
  · intro hbad
    cases h : Cone.new sqrt base axis radius height c with
    | error e => exact ⟨e, rfl⟩
    | ok s =>
      exfalso
      obtain ⟨_, h1, h2, h3, _⟩ := cone_new_ok sqrt base axis radius height c s h
      rw [abs_of_nonneg (Vec3.norm_nonneg hs axis)] at h1
      rcases hbad with hb | hb | hb
      · exact absurd h2 (not_lt.2 hb)
      · exact absurd h3 (not_lt.2 hb)
      · exact h1 hb
  · rintro ⟨hr, hh, ha⟩
    have hne : axis.norm sqrt ≠ 0 := ne_of_gt (lt_of_lt_of_le eps_pos ha)
    unfold Cone.new
    rw [Vec3.normalized_of_norm_ne_zero sqrt axis hne]
    simp only
    rw [if_neg (by rw [abs_of_nonneg (Vec3.norm_nonneg hs axis)]; exact not_lt.2 ha),
      if_neg (by rintro (h | h); exact absurd hr (not_lt.2 h); exact absurd hh (not_lt.2 h))]
    exact ⟨_, rfl⟩
  · intro hne
    unfold Cylinder.new
    rw [Vec3.normalized_of_norm_ne_zero sqrt axis hne]
    exact ⟨_, rfl⟩
  · intro h0
    unfold Cylinder.new
    rw [Vec3.normalized_of_norm_eq_zero sqrt axis h0]
    exact ⟨_, rfl⟩

end ConstructorChecks

/-- `Cylinder(...)` stores the normalised axis and the other arguments as given. -/
theorem cylinder_new_of_normalized {F : Type} [LinearOrderedField F] (sqrt : F → F)
    (base axis u : Vec3 F) (radius height c : F) (hu : axis.normalized sqrt = Except.ok u) :
    Cylinder.new sqrt base axis radius height c = Except.ok ⟨base, u, radius, height, c⟩ := by
  unfold Cylinder.new
  rw [hu]

/-- C12 (evaluation at the failing input). The axis `(1e-7, 0, 0)` has norm
`1e-7 < 1e-6`, and `Cylinder({0,0,0}, {1e-7,0,0}, 1, 1, 0.5)` is constructed, with
axis `(1, 0, 0)`: the constructor only normalises its argument.  The square root
taken is that of `1e-14`. -/
theorem cylinder_constructor_accepts_negligible_axis :
    Vec3.norm ratSqrt (⟨1 / 10000000, 0, 0⟩ : Vec3 ℚ) < eps ℚ ∧
      Cylinder.new ratSqrt ⟨0, 0, 0⟩ ⟨1 / 10000000, 0, 0⟩ 1 1 (1 / 2)
        = Except.ok ⟨⟨0, 0, 0⟩, ⟨1, 0, 0⟩, 1, 1, 1 / 2⟩ := by
  have hn := norm_tiny_vector
  have hu : Vec3.normalized ratSqrt (⟨1 / 10000000, 0, 0⟩ : Vec3 ℚ) = Except.ok ⟨1, 0, 0⟩ := by
    rw [Vec3.normalized_of_norm_ne_zero _ _ (by rw [hn]; norm_num), hn]
    norm_num
  refine ⟨?_, cylinder_new_of_normalized ratSqrt _ _ _ _ _ _ hu⟩
  rw [hn]
  norm_num [eps]

/-- C13 (evaluation at the failing input). The directions `(1,0,0)` and
`(-3,4,0)` have dot product `-3`, of absolute value above `1e-6`, and
`Rect({0,0,0}, {1,0,0}, {-3,4,0}, 1, 1, 0.5)` is constructed: the constructor
tests `norm.dot(width_dir) > 1e-6` without the absolute value.  The square roots
taken are those of 1, 25 and 16. -/
theorem rect_constructor_accepts_negative_dot :
    |Vec3.dot (⟨1, 0, 0⟩ : Vec3 ℚ) ⟨-3, 4, 0⟩| > eps ℚ ∧
      Rect.new ratSqrt ⟨0, 0, 0⟩ ⟨1, 0, 0⟩ ⟨-3, 4, 0⟩ 1 1 (1 / 2)
        = Except.ok ⟨⟨0, 0, 0⟩, ⟨1, 0, 0⟩, ⟨-3 / 5, 4 / 5, 0⟩, ⟨0, 0, 1⟩, 1, 1, 1 / 2⟩ := by
  refine ⟨?_, ?_⟩
  · norm_num [Vec3.dot, eps]
  · norm_num [Rect.new, Vec3.normalized, Vec3.norm, Vec3.dot, Vec3.cross, eps, ratSqrt]

/-- C14 (evaluation at the failing input). `Cylinder({0,0,0}, {0,1,0}, 0, -1, 0.5)`,
with radius zero and negative height, is constructed: the constructor has no
test of the radius or the height.  The square root taken is that of 1. -/
theorem cylinder_constructor_accepts_nonpositive_size :
    Cylinder.new ratSqrt ⟨0, 0, 0⟩ ⟨0, 1, 0⟩ 0 (-1) (1 / 2)
      = Except.ok ⟨⟨0, 0, 0⟩, ⟨0, 1, 0⟩, 0, -1, 1 / 2⟩ := by
  norm_num [Cylinder.new, Vec3.normalized, Vec3.norm, ratSqrt]

/-! ## Normals -/

section Normals

variable {F : Type} [LinearOrderedField F]

theorem Vec3.norm_neg_of_norm_eq_one (sqrt : F → F) (v : Vec3 F) (h : v.norm sqrt = 1) :
    (-v).norm sqrt = 1 := by
  rw [Vec3.norm_neg, h]

/-- The default normal `(0,-1,0)` of `Plane` and `ChessPlane` has norm 1. -/
theorem Vec3.norm_default_normal {sqrt : F → F} (hs : SqrtLaws sqrt) :
    Vec3.norm sqrt (⟨0, -1, 0⟩ : Vec3 F) = 1 := by
  rw [Vec3.norm_eq_one_iff hs]
  simp [Vec3.dot]

theorem RectPrism.norm_dir_unit (sqrt : F → F) (s : RectPrism F) (p : Vec3 F)
    (hh : s.height_dir.norm sqrt = 1) (hw : s.width_dir.norm sqrt = 1)
    (hl : s.length_dir.norm sqrt = 1) : (s.norm_dir p).norm sqrt = 1 := by
  unfold RectPrism.norm_dir
  simp only []
  split_ifs
  · exact Vec3.norm_neg_of_norm_eq_one sqrt _ hh
  · exact hh
  · exact Vec3.norm_neg_of_norm_eq_one sqrt _ hw
  · exact hw
  · exact Vec3.norm_neg_of_norm_eq_one sqrt _ hl
  · exact hl

end Normals

/-- C19 (counterexample). A `Rect` built by the default constructor `Rect()` has
the normal `(0,0,0)`, which `Rect::norm_dir` returns at every point; its norm is
0, not 1. -/
theorem default_rect_normal_not_unit :
    Object.norm_dir ratSqrt (Object.rect (Rect.new_default (1 : ℚ) 1 (1 / 2))) ⟨0, 0, 0⟩
        = Except.ok ⟨0, 0, 0⟩ ∧
      Vec3.norm ratSqrt (⟨0, 0, 0⟩ : Vec3 ℚ) = 0 ∧
      Vec3.norm ratSqrt (⟨0, 0, 0⟩ : Vec3 ℚ) ≠ 1 := by
  have h0 : Vec3.norm ratSqrt (⟨0, 0, 0⟩ : Vec3 ℚ) = 0 := by
    norm_num [Vec3.norm, ratSqrt]
  refine ⟨rfl, h0, ?_⟩
  rw [h0]
  norm_num

/-- C19 (amended). For an object built by a constructor that takes arguments, of
any of the seven variants, and every point at which `norm_dir` returns a
vector, that vector has norm 1. -/
theorem norm_dir_is_unit {F : Type} [LinearOrderedField F]
    (sqrt : F → F) (hs : SqrtLaws sqrt) (obj : Object F)
    (hobj : Object.ConstructedFromArguments sqrt obj)
    (p n : Vec3 F) (h : obj.norm_dir sqrt p = Except.ok n) : n.norm sqrt = 1 := by
  cases hobj with
  | plane point c =>
    simp only [Object.norm_dir, Plane.norm_dir, Plane.new, Except.ok.injEq] at h
    rw [← h]
    exact Vec3.norm_default_normal hs
  | plane_norm point nrm c s hc =>
    simp only [Object.norm_dir, Plane.norm_dir, Except.ok.injEq] at h
    rw [← h]
    exact Vec3.normalized_norm hs _ _ (plane_new_norm_ok sqrt point nrm c s hc).1
  | chessPlane point sz b w =>
    simp only [Object.norm_dir, ChessPlane.norm_dir, ChessPlane.new, Except.ok.injEq] at h
    rw [← h]
    exact Vec3.norm_default_normal hs
  | chessPlane_norm point nrm sz b w s hc =>
    simp only [Object.norm_dir, ChessPlane.norm_dir, Except.ok.injEq] at h
    rw [← h]
    exact Vec3.normalized_norm hs _ _ (chessplane_new_norm_ok sqrt point nrm sz b w s hc).1
  | sphere center radius c =>
    simp only [Object.norm_dir, Sphere.norm_dir] at h
    exact Vec3.normalized_norm hs _ _ h
  | rect center nrm wd width height c s hc =>
    simp only [Object.norm_dir, Rect.norm_dir, Except.ok.injEq] at h
    rw [← h]
    exact Vec3.normalized_norm hs _ _ (rect_new_ok sqrt center nrm wd width height c s hc).1
  | rectPrism base hd wd height width length c s hc =>
    simp only [Object.norm_dir, Except.ok.injEq] at h
    rw [← h]
    obtain ⟨h1, h2, h3, _⟩ := rectprism_new_ok sqrt base hd wd height width length c s hc
    exact RectPrism.norm_dir_unit sqrt s p (Vec3.normalized_norm hs _ _ h1)
      (Vec3.normalized_norm hs _ _ h2) (Vec3.normalized_norm hs _ _ h3)
  | cube base hd wd side c s hc =>
    simp only [Object.norm_dir, Except.ok.injEq] at h
    rw [← h]
    obtain ⟨h1, h2, h3, _⟩ := rectprism_new_ok sqrt base hd wd side side side c s hc
    exact RectPrism.norm_dir_unit sqrt s p (Vec3.normalized_norm hs _ _ h1)
      (Vec3.normalized_norm hs _ _ h2) (Vec3.normalized_norm hs _ _ h3)
  | cylinder base ad radius height c s hc =>
    have ha := Vec3.normalized_norm hs _ _ (cylinder_new_ok sqrt base ad radius height c s hc).1
    simp only [Object.norm_dir, Cylinder.norm_dir] at h
    split_ifs at h
    · rw [← Except.ok.inj h]
      exact Vec3.norm_neg_of_norm_eq_one sqrt _ ha
    · rw [← Except.ok.inj h]
      exact ha
    · exact Vec3.normalized_norm hs _ _ h
  | cone base ax radius height c s hc =>
    have ha := Vec3.normalized_norm hs _ _ (cone_new_ok sqrt base ax radius height c s hc).1
    simp only [Object.norm_dir, Cone.norm_dir] at h
    split_ifs at h
    · rw [← Except.ok.inj h]
      exact Vec3.norm_neg_of_norm_eq_one sqrt _ ha
    · exact Vec3.normalized_norm hs _ _ h

/-- Witness for C19 over the reals with `Real.sqrt`: the normal of
`Sphere({0,0,0}, 2, 0.5)` at the surface point `(0, 0, -2)`. -/
theorem norm_dir_is_unit_witness :
    SqrtLaws Real.sqrt ∧
      Object.norm_dir Real.sqrt (Object.sphere (Sphere.new (⟨0, 0, 0⟩ : Vec3 ℝ) 2 (1 / 2)))
          ⟨0, 0, -2⟩ = Except.ok ⟨0, 0, -1⟩ ∧
      Vec3.norm Real.sqrt (⟨0, 0, -1⟩ : Vec3 ℝ) = 1 := by
  have hs : SqrtLaws Real.sqrt := ⟨Real.sqrt_nonneg, fun x hx => Real.mul_self_sqrt hx⟩
  have hn : Vec3.norm Real.sqrt ((⟨0, 0, -2⟩ : Vec3 ℝ) - ⟨0, 0, 0⟩) = 2 := by
    rw [Vec3.norm_eq_iff hs _ (by norm_num)]
    norm_num [Vec3.dot, Vec3.sub_def]
  have hd : Object.norm_dir Real.sqrt
      (Object.sphere (Sphere.new (⟨0, 0, 0⟩ : Vec3 ℝ) 2 (1 / 2))) ⟨0, 0, -2⟩
      = Except.ok ⟨0, 0, -1⟩ := by
    simp only [Object.norm_dir, Sphere.norm_dir, Sphere.new]
    rw [Vec3.normalized_of_norm_ne_zero _ _ (by rw [hn]; norm_num), hn]
    norm_num [Vec3.sub_def]
  exact ⟨hs, hd, norm_dir_is_unit Real.sqrt hs _ (Object.ConstructedFromArguments.sphere _ _ _) _ _ hd⟩

/-! ## Rect -/

/-- C20 (counterexample). `Demo.rect0` is what `Rect({0,0,0}, {0,0,1}, {1,0,0}, 2,
2, 0.5)` builds.  The ray from `(1,0,-1)` towards `(0,0,1)` meets its plane at
`t = 1` in `q = (1,0,0)`, whose offset projected onto the width axis is exactly
`width/2 = 1` and onto the height axis is 0: `q` lies on the edge, and
`Rect::intersection` returns no hit. -/
theorem rect_intersection_rejects_edge_point :
    Rect.new ratSqrt ⟨0, 0, 0⟩ ⟨0, 0, 1⟩ ⟨1, 0, 0⟩ 2 2 (1 / 2) = Except.ok Demo.rect0 ∧
      eps ℚ ≤ |Demo.rect0.norm.dot ⟨0, 0, 1⟩| ∧
      (⟨1, 0, -1⟩ : Vec3 ℚ) + (⟨0, 0, 1⟩ : Vec3 ℚ) * (1 : ℚ) = ⟨1, 0, 0⟩ ∧
      |Demo.rect0.width_dir.dot ((⟨1, 0, 0⟩ : Vec3 ℚ) - Demo.rect0.center)|
        = Demo.rect0.width / 2 ∧
      |Demo.rect0.height_dir.dot ((⟨1, 0, 0⟩ : Vec3 ℚ) - Demo.rect0.center)|
        ≤ Demo.rect0.height / 2 ∧
      Demo.rect0.intersection ⟨1, 0, -1⟩ ⟨0, 0, 1⟩ = none := by
  refine ⟨?_, ?_, ?_, ?_, ?_, ?_⟩
  · norm_num [Rect.new, Demo.rect0, Vec3.normalized, Vec3.norm, Vec3.dot, Vec3.cross, eps,
      ratSqrt]
  · norm_num [Demo.rect0, Vec3.dot, eps]
  · norm_num [Vec3.add_def, Vec3.mul_def]
  · norm_num [Demo.rect0, Vec3.dot, Vec3.sub_def]
  · norm_num [Demo.rect0, Vec3.dot, Vec3.sub_def]
  · norm_num [Rect.intersection, Demo.rect0, Vec3.dot, Vec3.add_def, Vec3.sub_def,
      Vec3.mul_def, eps, abs_lt]

/-- C20 (amended). For a `Rect` and a ray whose plane intersection `q = o + t*d`
exists (`|n.d| >= 1e-6` and `t > 0`): `Rect::intersection` returns `q` exactly
when the offset `q - center` projected onto the width axis is below `width/2` in
absolute value and projected onto the height axis is below `height/2` in
absolute value, and it returns no hit exactly when one of the two projections
reaches or exceeds half the extent; a point on the edge is rejected. -/
theorem rect_intersection_strictly_inside {F : Type} [LinearOrderedField F]
    (s : Rect F) (o d : Vec3 F) (hnd : eps F ≤ |s.norm.dot d|)
    (ht : 0 < s.norm.dot (s.center - o) / s.norm.dot d) :
    (s.intersection o d = some (o + d * (s.norm.dot (s.center - o) / s.norm.dot d)) ↔
      |s.width_dir.dot (o + d * (s.norm.dot (s.center - o) / s.norm.dot d) - s.center)|
          < s.width / 2 ∧
        |s.height_dir.dot (o + d * (s.norm.dot (s.center - o) / s.norm.dot d) - s.center)|
          < s.height / 2) ∧
    (s.intersection o d = none ↔
      s.width / 2
          ≤ |s.width_dir.dot (o + d * (s.norm.dot (s.center - o) / s.norm.dot d) - s.center)| ∨
        s.height / 2
          ≤ |s.height_dir.dot
              (o + d * (s.norm.dot (s.center - o) / s.norm.dot d) - s.center)|) := by
  unfold Rect.intersection
  simp only []
  rw [if_neg (not_lt.2 hnd), if_pos ht]
  by_cases hin :
      |s.width_dir.dot (o + d * (s.norm.dot (s.center - o) / s.norm.dot d) - s.center)|
          < s.width / 2 ∧
        |s.height_dir.dot (o + d * (s.norm.dot (s.center - o) / s.norm.dot d) - s.center)|
          < s.height / 2
  · rw [if_pos hin]
    refine ⟨⟨fun _ => hin, fun _ => rfl⟩, ⟨?_, ?_⟩⟩
    · intro h
      cases h
    · rintro (h | h)
      · exact absurd hin.1 (not_lt.2 h)
      · exact absurd hin.2 (not_lt.2 h)
  · rw [if_neg hin]
    refine ⟨⟨?_, fun h => absurd h hin⟩, ⟨fun _ => ?_, fun _ => rfl⟩⟩
    · intro h
      cases h
    · by_contra hcon
      rw [not_or, not_le, not_le] at hcon
      exact hin hcon

/-- Witness for C20 (amended) over `ℚ`: for `Demo.rect0` the ray from `(1/2,0,-1)`
towards `(0,0,1)` hits strictly inside, in `(1/2,0,0)`, and the ray from
`(1,0,-1)` meets the edge and is rejected. -/
theorem rect_intersection_strictly_inside_witness :
    Demo.rect0.intersection ⟨1 / 2, 0, -1⟩ ⟨0, 0, 1⟩
        = some ((⟨1 / 2, 0, -1⟩ : Vec3 ℚ) + (⟨0, 0, 1⟩ : Vec3 ℚ)
            * (Demo.rect0.norm.dot (Demo.rect0.center - ⟨1 / 2, 0, -1⟩)
                / Demo.rect0.norm.dot ⟨0, 0, 1⟩)) ∧
      Demo.rect0.intersection ⟨1, 0, -1⟩ ⟨0, 0, 1⟩ = none := by
  constructor
  · refine (rect_intersection_strictly_inside Demo.rect0 ⟨1 / 2, 0, -1⟩ ⟨0, 0, 1⟩ ?_ ?_).1.2 ?_
    · norm_num [Demo.rect0, Vec3.dot, eps]
    · norm_num [Demo.rect0, Vec3.dot, Vec3.sub_def]
    · norm_num [Demo.rect0, Vec3.dot, Vec3.add_def, Vec3.sub_def, Vec3.mul_def, abs_lt]
  · refine (rect_intersection_strictly_inside Demo.rect0 ⟨1, 0, -1⟩ ⟨0, 0, 1⟩ ?_ ?_).2.2 ?_
    · norm_num [Demo.rect0, Vec3.dot, eps]
    · norm_num [Demo.rect0, Vec3.dot, Vec3.sub_def]
    · left
      norm_num [Demo.rect0, Vec3.dot, Vec3.add_def, Vec3.sub_def, Vec3.mul_def]

/-! ## Errors during tracing -/

section TracingErrors

variable {F : Type} [LinearOrderedField F]

/-- The only error `norm_dir` raises is the one of `normalized`. -/
theorem Object.norm_dir_error (sqrt : F → F) (obj : Object F) (p : Vec3 F) (e : Error)
    (h : obj.norm_dir sqrt p = Except.error e) :
    e = Error.runtime_error "Zero length vector!" := by
  cases obj with
  | plane s => cases h
  | chessPlane s => cases h
  | sphere s => exact Vec3.normalized_error sqrt _ e h
  | rect s => cases h
  | rectPrism s => cases h
  | cylinder s =>
    simp only [Object.norm_dir, Cylinder.norm_dir] at h
    split_ifs at h
    exact Vec3.normalized_error sqrt _ e h
  | cone s =>
    simp only [Object.norm_dir, Cone.norm_dir] at h
    split_ifs at h
    exact Vec3.normalized_error sqrt _ e h

theorem Scene.get_nearest_intersection_loop_error (sqrt : F → F) (o d : Vec3 F)
    (ex : Option Nat) :
    ∀ (rest : List (ObjectPtr F)) (best : Option (Scene.Nearest F)) (e : Error),
      Scene.get_nearest_intersection_loop sqrt o d ex rest best = Except.error e →
      e = Error.runtime_error "Zero length vector!" := by
  intro rest
  induction rest with
  | nil =>
    intro best e h
    simp only [Scene.get_nearest_intersection_loop] at h
    cases h
  | cons obj rest ih =>
    intro best e h
    unfold Scene.get_nearest_intersection_loop at h
    split_ifs at h with hex
    · exact ih best e h
    · cases hi : obj.obj.intersection sqrt o d with
      | none =>
        rw [hi] at h
        exact ih best e h
      | some hit =>
       rw [hi] at h
       cases hit with
       | nan => exact ih best e h
       | pt p =>
        simp only at h
        split_ifs at h with hlt
        · cases hn : obj.obj.norm_dir sqrt p with
          | error err =>
            rw [hn] at h
            simp only [Except.error.injEq] at h
            rw [← h]
            exact Object.norm_dir_error sqrt _ p err hn
          | ok n =>
            rw [hn] at h
            exact ih _ e h
        · exact ih best e h

/-- The only error `get_nearest_intersection` raises is the one of `normalized`. -/
theorem Scene.get_nearest_intersection_error (sqrt : F → F) (scene : Scene F) (o d : Vec3 F)
    (ex : Option Nat) (e : Error)
    (h : scene.get_nearest_intersection sqrt o d ex = Except.error e) :
    e = Error.runtime_error "Zero length vector!" := by
  unfold Scene.get_nearest_intersection at h
  cases hl : Scene.get_nearest_intersection_loop sqrt o d ex scene.objects none with
  | error err =>
    rw [hl] at h
    simp only [Except.error.injEq] at h
    rw [← h]
    exact Scene.get_nearest_intersection_loop_error sqrt o d ex _ _ err hl
  | ok r =>
    rw [hl] at h
    cases r with
    | none => cases h
    | some b => cases h

end TracingErrors

namespace RaytracingEngine

variable {F : Type} [LinearOrderedField F] [FloorRing F]

/-- The only error one pass of the shading loop raises is the one of
`normalized`. -/
theorem shade_step_error (sqrt : F → F) (scene : Scene F) (light : Light F)
    (st : ShadeState F) (e : Error) (h : shade_step sqrt scene light st = Except.error e) :
    e = Error.runtime_error "Zero length vector!" := by
  unfold shade_step at h
  cases hq : scene.get_nearest_intersection sqrt st.ray_point st.ray_dir st.excluded_obj with
  | error err =>
    rw [hq] at h
    simp only [Except.error.injEq] at h
    rw [← h]
    exact Scene.get_nearest_intersection_error sqrt scene _ _ _ err hq
  | ok r =>
    rw [hq] at h
    cases r with
    | none => cases h
    | some t =>
      obtain ⟨p, n, prim⟩ := t
      simp only at h
      cases hu : (light.position - p).normalized sqrt with
      | error err =>
        rw [hu] at h
        simp only [Except.error.injEq] at h
        rw [← h]
        exact Vec3.normalized_error sqrt _ err hu
      | ok u =>
        rw [hu] at h
        simp only at h
        cases hd : (st.ray_dir - n * (2 : F) * (st.ray_dir.dot n)).normalized sqrt with
        | error err =>
          rw [hd] at h
          simp only [Except.error.injEq] at h
          rw [← h]
          exact Vec3.normalized_error sqrt _ err hd
        | ok d1 =>
          rw [hd] at h
          cases h

theorem shade_loop_error (sqrt : F → F) (scene : Scene F) (light : Light F) :
    ∀ (n : Nat) (st : ShadeState F) (e : Error),
      shade_loop sqrt scene light n st = Except.error e →
      e = Error.runtime_error "Zero length vector!" := by
  intro n
  induction n with
  | zero =>
    intro st e h
    cases h
  | succ n ih =>
    intro st e h
    unfold shade_loop at h
    cases hs : shade_step sqrt scene light st with
    | error err =>
      rw [hs] at h
      simp only [Except.error.injEq] at h
      rw [← h]
      exact shade_step_error sqrt scene light st err hs
    | ok r =>
      rw [hs] at h
      cases r with
      | none => cases h
      | some st1 => exact ih st1 e h

end RaytracingEngine

open RaytracingEngine in
/-- C15 (counterexample). With the light at the hit point `(0,0,0)` of the ray
from `(0,-5,0)` towards `(0,1,0)` on the plane of `Demo.scene2`, the shading loop
with one bounce raises the runtime error of `normalized`; so it does in
`Demo.scene3` for the ray from `(0,0,-2)` towards `(0,0,1)`, whose hit on the
sphere of radius 0 coincides with the sphere's centre.  The square roots taken
are those of 25, 4 and 0. -/
theorem shade_throws_on_zero_length_vector :
    shade ratSqrt Demo.scene2 Demo.light2 1 ⟨0, -5, 0⟩ ⟨0, 1, 0⟩
        = Except.error (Error.runtime_error "Zero length vector!") ∧
      shade ratSqrt Demo.scene3 Demo.light1 1 ⟨0, 0, -2⟩ ⟨0, 0, 1⟩
        = Except.error (Error.runtime_error "Zero length vector!") := by
  have h1 : Int.toNat 1 = 1 := rfl
  constructor
  · simp only [shade, h1, shade_loop, shade_step, shade_init, Scene.get_nearest_intersection,
      Scene.get_nearest_intersection_loop, Demo.scene2, Demo.light2, Demo.plane0, reduceCtorEq,
      if_false, if_true]
    norm_num [Object.intersection, Object.norm_dir, Plane.intersection, Plane.norm_dir,
      Vec3.normalized, Vec3.norm, Vec3.dot, Vec3.add_def, Vec3.sub_def, Vec3.mul_def, eps,
      ratSqrt, Scene.lt_min_dist, abs_lt]
  · simp only [shade, h1, shade_loop, shade_step, shade_init, Scene.get_nearest_intersection,
      Scene.get_nearest_intersection_loop, Demo.scene3, Sphere.new, reduceCtorEq,
      if_false, if_true]
    norm_num [Object.intersection, Object.norm_dir, Sphere.intersection, Sphere.norm_dir,
      Vec3.normalized, Vec3.norm, Vec3.dot, Vec3.add_def, Vec3.sub_def, Vec3.mul_def, eps,
      ratSqrt, Scene.lt_min_dist, abs_lt]

open RaytracingEngine in
/-- C15 (amended). The shading loop of `render_frame` always terminates, either
with an intensity or with the runtime error "Zero length vector!" of
`Vec3::normalized`, which it does not catch.  With at least one bounce it raises
that error when the vector from the first hit to the light has norm 0 (the light
is at the hit point), and it passes on the error of `get_nearest_intersection`
(a `norm_dir` that normalises a zero-length vector). -/
theorem shade_returns_or_throws_zero_length {F : Type} [LinearOrderedField F] [FloorRing F]
    (sqrt : F → F) (scene : Scene F) (light : Light F) (N : Nat) (o d : Vec3 F) :
    ((∃ I, shade sqrt scene light (N : Int) o d = Except.ok I) ∨
      shade sqrt scene light (N : Int) o d
        = Except.error (Error.runtime_error "Zero length vector!")) ∧
    (∀ h n prim, 0 < N →
      scene.get_nearest_intersection sqrt o d none = Except.ok (some (h, n, prim)) →
      (light.position - h).norm sqrt = 0 →
      shade sqrt scene light (N : Int) o d
        = Except.error (Error.runtime_error "Zero length vector!")) ∧
    (∀ e, 0 < N → scene.get_nearest_intersection sqrt o d none = Except.error e →
      shade sqrt scene light (N : Int) o d = Except.error e) := by
  refine ⟨?_, ?_, ?_⟩
  · unfold shade
    cases hl : shade_loop sqrt scene light (Int.toNat (N : Int)) (shade_init o d) with
    | error err =>
      right
      simp only
      rw [shade_loop_error sqrt scene light _ _ err hl]
    | ok st =>
      left
      exact ⟨_, rfl⟩
  · intro h n prim hN hq hz
    obtain ⟨k, rfl⟩ := Nat.exists_eq_succ_of_ne_zero (Nat.pos_iff_ne_zero.1 hN)
    unfold shade
    rw [Int.toNat_ofNat]
    unfold shade_loop shade_step
    simp only [shade_init, hq, Vec3.normalized_of_norm_eq_zero sqrt _ hz]
  · intro e hN hq
    obtain ⟨k, rfl⟩ := Nat.exists_eq_succ_of_ne_zero (Nat.pos_iff_ne_zero.1 hN)
    unfold shade
    rw [Int.toNat_ofNat]
    unfold shade_loop shade_step
    simp only [shade_init, hq]

open RaytracingEngine in
/-- Witness for C15 (amended) over `ℚ`: in `Demo.scene2` the ray from `(0,-5,0)`
towards `(0,1,0)` hits the plane in `(0,0,0)`, where the light `Demo.light2` is;
the vector from the hit to the light has norm 0 and the loop raises the error. -/
theorem shade_returns_or_throws_zero_length_witness :
    Demo.scene2.get_nearest_intersection ratSqrt ⟨0, -5, 0⟩ ⟨0, 1, 0⟩ none
        = Except.ok (some (⟨0, 0, 0⟩, ⟨0, -1, 0⟩, Demo.plane0)) ∧
      (Demo.light2.position - ⟨0, 0, 0⟩).norm ratSqrt = 0 ∧
      shade ratSqrt Demo.scene2 Demo.light2 ((1 : Nat) : Int) ⟨0, -5, 0⟩ ⟨0, 1, 0⟩
        = Except.error (Error.runtime_error "Zero length vector!") := by
  have hq : Demo.scene2.get_nearest_intersection ratSqrt ⟨0, -5, 0⟩ ⟨0, 1, 0⟩ none
      = Except.ok (some (⟨0, 0, 0⟩, ⟨0, -1, 0⟩, Demo.plane0)) := by
    simp only [Scene.get_nearest_intersection, Scene.get_nearest_intersection_loop, Demo.scene2,
      Demo.plane0, reduceCtorEq, if_false, if_true]
    norm_num [Object.intersection, Object.norm_dir, Plane.intersection, Plane.norm_dir,
      Vec3.norm, Vec3.dot, Vec3.add_def, Vec3.sub_def, Vec3.mul_def, eps, ratSqrt,
      Scene.lt_min_dist, abs_lt]
  have hz : (Demo.light2.position - ⟨0, 0, 0⟩).norm ratSqrt = 0 := by
    norm_num [Demo.light2, Vec3.norm, Vec3.sub_def, ratSqrt]
  exact ⟨hq, hz, (shade_returns_or_throws_zero_length ratSqrt Demo.scene2 Demo.light2 1
    ⟨0, -5, 0⟩ ⟨0, 1, 0⟩).2.1 _ _ _ Nat.one_pos hq hz⟩

/-! ## Shadow of a sphere -/

section SphereShadow

variable {F : Type} [LinearOrderedField F]

/-- Seen from `h` along the unit vector `u`, a sphere of radius `r` centred at
`h + s*u` with `0 < r < s` is hit at parameter `s - r`. -/
theorem Sphere.intersection_towards_center {sqrt : F → F} (hs : SqrtLaws sqrt) (S : Sphere F)
    (h u : Vec3 F) (s : F) (hu : u.dot u = 1) (hc : S.center = h + u * s)
    (hr : 0 < S.radius) (hrs : S.radius < s) :
    S.intersection sqrt h u = some (h + u * (s - S.radius)) := by
  have hne : u ≠ ⟨0, 0, 0⟩ := by
    intro h0
    rw [h0] at hu
    simp [Vec3.dot] at hu
  have hroot : ∀ t : F,
      u.dot u * t * t + 2 * (h - S.center).dot u * t
          + ((h - S.center).dot (h - S.center) - S.radius * S.radius)
        = (t - (s - S.radius)) * (t - (s + S.radius)) := by
    intro t
    rw [hc]
    simp only [Vec3.dot, Vec3.sub_def, Vec3.add_def, Vec3.mul_def] at hu ⊢
    linear_combination (t * t - 2 * s * t + s * s) * hu
  rcases Sphere.intersection_spec hs S h u hne with ⟨_, hno⟩ | ⟨t, ht, hq, hi, hmin⟩
  · exfalso
    apply hno (s - S.radius) (by linarith)
    rw [hroot]
    ring
  · have hle : t ≤ s - S.radius := by
      apply hmin (s - S.radius) (by linarith)
      rw [hroot]
      ring
    rw [hroot] at hq
    rcases mul_eq_zero.1 hq with h1 | h1
    · have : t = s - S.radius := by linarith
      rw [hi, this]
    · exfalso
      linarith

end SphereShadow

open RaytracingEngine in
/-- C11. Let a scene contain a sphere `S` other than the excluded primitive, let
`u = normalize(L - h)` for a point `h` and a light position `L`, and let the
centre of `S` be `h + s*u` with `0 < radius < s < |L - h|`.  Then
`Scene::is_shadow(h, u, excluded, |L - h|)` returns true; hence a pass of the
shading loop whose nearest hit is `h`, on a primitive other than `S`, leaves
`light_intensity` unchanged.  In a scene whose primitives are all excluded,
`is_shadow` returns false. -/
theorem sphere_between_hit_and_light_occludes {F : Type} [LinearOrderedField F] [FloorRing F]
    (sqrt : F → F) (hs : SqrtLaws sqrt) (scene : Scene F) (q : ObjectPtr F) (S : Sphere F)
    (e : Option Nat) (h L u : Vec3 F) (s : F)
    (hq : q ∈ scene.objects) (hobj : q.obj = Object.sphere S) (hne : e ≠ some q.addr)
    (hu : (L - h).normalized sqrt = Except.ok u) (hc : S.center = h + u * s)
    (hr : 0 < S.radius) (hrs : S.radius < s) (hsL : s < (L - h).norm sqrt) :
    scene.is_shadow sqrt h u e ((L - h).norm sqrt) = true ∧
    (∀ (st : ShadeState F) (light : Light F) (n : Vec3 F) (prim : ObjectPtr F),
      light.position = L → e = some prim.addr →
      scene.get_nearest_intersection sqrt st.ray_point st.ray_dir st.excluded_obj
        = Except.ok (some (h, n, prim)) →
      shade_step sqrt scene light st
        = ((st.ray_dir - n * (2 : F) * (st.ray_dir.dot n)).normalized sqrt).map
            (fun ray_dir => some
              { light_intensity := st.light_intensity,
                cum_reflection_coeff :=
                  st.cum_reflection_coeff * prim.obj.get_reflection_coeff h,
                ray_point := h, ray_dir := ray_dir, excluded_obj := some prim.addr })) ∧
    (∀ (others : Scene F) (D : F), (∀ p ∈ others.objects, e = some p.addr) →
      others.is_shadow sqrt h u e D = false) := by
  have huu : u.dot u = 1 := Vec3.normalized_dot_self hs _ _ hu
  have hhit := Sphere.intersection_towards_center hs S h u s huu hc hr hrs
  have hdist : ((h + u * (s - S.radius)) - h).norm sqrt = s - S.radius := by
    rw [Vec3.norm_eq_iff hs _ (by linarith)]
    simp only [Vec3.dot, Vec3.sub_def, Vec3.add_def, Vec3.mul_def] at huu ⊢
    linear_combination ((s - S.radius) * (s - S.radius)) * huu
  have hshadow : scene.is_shadow sqrt h u e ((L - h).norm sqrt) = true := by
    unfold Scene.is_shadow
    rw [Scene.is_shadow_loop_iff]
    refine ⟨q, hq, hne, h + u * (s - S.radius), ?_, ?_⟩
    · rw [hobj]
      simp only [Object.intersection, hhit, Option.map_some']
    · rw [hdist]
      linarith
  refine ⟨hshadow, ?_, ?_⟩
  · intro st light n prim hL he hnear
    subst hL
    rw [he] at hshadow
    unfold shade_step
    rw [hnear]
    simp only [hu, hshadow, not_true_eq_false, and_false, if_false]
    cases (st.ray_dir - n * (2 : F) * (st.ray_dir.dot n)).normalized sqrt with
    | error err => rfl
    | ok d1 => rfl
  · intro others D hall
    cases hsh : others.is_shadow sqrt h u e D with
    | false => rfl
    | true =>
      unfold Scene.is_shadow at hsh
      rw [Scene.is_shadow_loop_iff] at hsh
      obtain ⟨p, hp, hpne, _⟩ := hsh
      exact absurd (hall p hp) hpne

/-- Witness for C11 over the reals with `Real.sqrt`: the unit sphere about
`(0,0,5)` lies between the point `(0,0,0)` and the light at `(0,0,10)`. -/
theorem sphere_between_hit_and_light_occludes_witness :
    SqrtLaws Real.sqrt ∧
      Vec3.normalized Real.sqrt ((⟨0, 0, 10⟩ : Vec3 ℝ) - ⟨0, 0, 0⟩) = Except.ok ⟨0, 0, 1⟩ ∧
      Scene.is_shadow Real.sqrt
          (Scene.mk [⟨1, Object.sphere (⟨⟨0, 0, 5⟩, 1, 1 / 2⟩ : Sphere ℝ)⟩])
          ⟨0, 0, 0⟩ ⟨0, 0, 1⟩ none (Vec3.norm Real.sqrt ((⟨0, 0, 10⟩ : Vec3 ℝ) - ⟨0, 0, 0⟩))
        = true := by
  have hs : SqrtLaws Real.sqrt := ⟨Real.sqrt_nonneg, fun x hx => Real.mul_self_sqrt hx⟩
  have hn : Vec3.norm Real.sqrt ((⟨0, 0, 10⟩ : Vec3 ℝ) - ⟨0, 0, 0⟩) = 10 := by
    rw [Vec3.norm_eq_iff hs _ (by norm_num)]
    norm_num [Vec3.dot, Vec3.sub_def]
  have hu : Vec3.normalized Real.sqrt ((⟨0, 0, 10⟩ : Vec3 ℝ) - ⟨0, 0, 0⟩)
      = Except.ok ⟨0, 0, 1⟩ := by
    rw [Vec3.normalized_of_norm_ne_zero _ _ (by rw [hn]; norm_num), hn]
    norm_num [Vec3.sub_def]
  refine ⟨hs, hu, (sphere_between_hit_and_light_occludes Real.sqrt hs
    (Scene.mk [⟨1, Object.sphere (⟨⟨0, 0, 5⟩, 1, 1 / 2⟩ : Sphere ℝ)⟩])
    ⟨1, Object.sphere (⟨⟨0, 0, 5⟩, 1, 1 / 2⟩ : Sphere ℝ)⟩ ⟨⟨0, 0, 5⟩, 1, 1 / 2⟩ none
    ⟨0, 0, 0⟩ ⟨0, 0, 10⟩ ⟨0, 0, 1⟩ 5 ?_ rfl ?_ hu ?_ ?_ ?_ ?_).1⟩
  · simp
  · simp
  · norm_num [Vec3.add_def, Vec3.mul_def]
  · norm_num
  · norm_num
  · rw [hn]
    norm_num

/-! ## Ties and agreement of the two scene queries -/

namespace Scene

variable {F : Type} [LinearOrderedField F]

theorem get_nearest_intersection_loop_first (sqrt : F → F) (o d : Vec3 F) (e : Option Nat) :
    ∀ (rest pre : List (ObjectPtr F)) (best res : Option (Nearest F)),
      (∀ b, best = some b →
        IsFirstMinimal sqrt o d e pre b ∧ e ≠ some b.2.2.2.addr ∧
          b.2.2.2.obj.intersection sqrt o d = some (Hit.pt b.2.1) ∧
          b.1 = (b.2.1 - o).norm sqrt) →
      (best = none → ∀ q ∈ pre, e ≠ some q.addr →
        ∀ p, q.obj.intersection sqrt o d ≠ some (Hit.pt p)) →
      get_nearest_intersection_loop sqrt o d e rest best = Except.ok res →
      ∀ b, res = some b → IsFirstMinimal sqrt o d e (pre ++ rest) b := by
  intro rest
  induction rest with
  | nil =>
    intro pre best res hb _ h b hres
    simp only [get_nearest_intersection_loop, Except.ok.injEq] at h
    rw [List.append_nil]
    rw [← h] at hres
    exact (hb b hres).1
  | cons obj rest ih =>
    intro pre best res hb hnone h
    have happ : pre ++ obj :: rest = (pre ++ [obj]) ++ rest := by simp
    rw [happ]
    -- the state is kept when `obj` does not replace the winner
    have keep : (∀ hq, obj.obj.intersection sqrt o d = some (Hit.pt hq) → e ≠ some obj.addr →
          ¬ lt_min_dist ((hq - o).norm sqrt) best) →
        (∀ b, best = some b →
          IsFirstMinimal sqrt o d e (pre ++ [obj]) b ∧ e ≠ some b.2.2.2.addr ∧
            b.2.2.2.obj.intersection sqrt o d = some (Hit.pt b.2.1) ∧
            b.1 = (b.2.1 - o).norm sqrt) ∧
        (best = none → ∀ q ∈ pre ++ [obj], e ≠ some q.addr →
          ∀ p, q.obj.intersection sqrt o d ≠ some (Hit.pt p)) := by
      intro hobj
      constructor
      · intro b hbest
        obtain ⟨⟨before, after, hS, h1, h2⟩, h3, h4, h5⟩ := hb b hbest
        refine ⟨⟨before, after ++ [obj], ?_, h1, ?_⟩, h3, h4, h5⟩
        · rw [hS]
          simp
        · intro q hq hne p hp
          rcases List.mem_append.1 hq with hq | hq
          · exact h2 q hq hne p hp
          · simp only [List.mem_singleton] at hq
            subst hq
            have := hobj p hp hne
            rw [hbest] at this
            simpa [lt_min_dist] using this
      · intro hbest q hq hne p hi
        rcases List.mem_append.1 hq with hq | hq
        · exact hnone hbest q hq hne p hi
        · simp only [List.mem_singleton] at hq
          subst hq
          have := hobj p hi hne
          rw [hbest] at this
          exact absurd trivial this
    unfold get_nearest_intersection_loop at h
    by_cases hex : e = some obj.addr
    · rw [if_pos hex] at h
      obtain ⟨k1, k2⟩ := keep (fun _ _ hne => absurd hex hne)
      exact ih (pre ++ [obj]) best res k1 k2 h
    · rw [if_neg hex] at h
      cases hi : obj.obj.intersection sqrt o d with
      | none =>
        rw [hi] at h
        obtain ⟨k1, k2⟩ := keep (fun p hp _ => by rw [hi] at hp; cases hp)
        exact ih (pre ++ [obj]) best res k1 k2 h
      | some hit =>
       rw [hi] at h
       cases hit with
       | nan =>
        obtain ⟨k1, k2⟩ := keep (fun p hp _ => by rw [hi] at hp; cases hp)
        exact ih (pre ++ [obj]) best res k1 k2 h
       | pt p =>
        simp only at h
        by_cases hlt : lt_min_dist ((p - o).norm sqrt) best
        · rw [if_pos hlt] at h
          cases hn : obj.obj.norm_dir sqrt p with
          | error err =>
            rw [hn] at h
            cases h
          | ok n =>
            rw [hn] at h
            refine ih (pre ++ [obj]) _ res ?_ ?_ h
            · intro b hbb
              cases hbb
              refine ⟨⟨pre, [], rfl, ?_, ?_⟩, hex, hi, rfl⟩
              · intro q hq hne hq2 hint
                cases hbest : best with
                | none => exact absurd hint (hnone hbest q hq hne hq2)
                | some b0 =>
                  rw [hbest] at hlt
                  simp only [lt_min_dist] at hlt
                  obtain ⟨⟨before, after, hS, h1, h2⟩, h3, h4, h5⟩ := hb b0 hbest
                  rw [hS] at hq
                  rcases List.mem_append.1 hq with hq | hq
                  · exact lt_trans hlt (h1 q hq hne hq2 hint)
                  · rcases List.mem_cons.1 hq with hq | hq
                    · subst hq
                      rw [h4] at hint
                      cases hint
                      rw [← h5]
                      exact hlt
                    · exact lt_of_lt_of_le hlt (h2 q hq hne hq2 hint)
              · intro q hq
                cases hq
            · intro hbb
              cases hbb
        · rw [if_neg hlt] at h
          obtain ⟨k1, k2⟩ := keep (fun p1 hp1 _ => by
            rw [hi] at hp1
            cases hp1
            exact hlt)
          exact ih (pre ++ [obj]) best res k1 k2 h

end Scene

/-- The objects of a scene built by calls of `add_object` are the objects it had
followed by the added ones, in the order of the calls. -/
theorem Scene.objects_foldl_add_object {F : Type} [LinearOrderedField F] :
    ∀ (objs : List (ObjectPtr F)) (scene : Scene F),
      (objs.foldl Scene.add_object scene).objects = scene.objects ++ objs := by
  intro objs
  induction objs with
  | nil =>
    intro scene
    simp
  | cons obj rest ih =>
    intro scene
    rw [List.foldl_cons, ih]
    simp [Scene.add_object]

/-- C21. Let a scene be built from `Scene()` by calling `add_object` on the
objects `objs[0], objs[1], ...` in that order.  When
`Scene::get_nearest_intersection` returns `(hit, normal, prim)`, `prim` is
`objs[i]` for an index `i` such that every hit of a non-excluded object added
earlier (`j < i`) is strictly farther from the ray origin than `hit`, and every
hit of one added later (`j > i`) is at least as far.  So every non-excluded
object whose hit lies at the same distance as `hit` was added at `i` or later:
of several objects whose hits lie at the same least distance, the one added
first is returned. -/
theorem get_nearest_intersection_first_of_ties {F : Type} [LinearOrderedField F]
    (sqrt : F → F) (objs : List (ObjectPtr F)) (o d : Vec3 F) (e : Option Nat)
    (hit normal : Vec3 F) (prim : ObjectPtr F)
    (h : (objs.foldl Scene.add_object Scene.new).get_nearest_intersection sqrt o d e
      = Except.ok (some (hit, normal, prim))) :
    ∃ i, objs[i]? = some prim ∧
      (∀ (j : Nat) (q : ObjectPtr F), j < i → objs[j]? = some q → e ≠ some q.addr →
        ∀ hq, q.obj.intersection sqrt o d = some (Hit.pt hq) →
          (hit - o).norm sqrt < (hq - o).norm sqrt) ∧
      (∀ (j : Nat) (q : ObjectPtr F), i < j → objs[j]? = some q → e ≠ some q.addr →
        ∀ hq, q.obj.intersection sqrt o d = some (Hit.pt hq) →
          (hit - o).norm sqrt ≤ (hq - o).norm sqrt) ∧
      (∀ (j : Nat) (q : ObjectPtr F), objs[j]? = some q → e ≠ some q.addr →
        ∀ hq, q.obj.intersection sqrt o d = some (Hit.pt hq) →
          (hq - o).norm sqrt = (hit - o).norm sqrt → i ≤ j) := by
  have hobjs : (objs.foldl Scene.add_object Scene.new).objects = objs := by
    rw [Scene.objects_foldl_add_object]
    simp [Scene.new]
  unfold Scene.get_nearest_intersection at h
  rw [hobjs] at h
  cases hl : Scene.get_nearest_intersection_loop sqrt o d e objs none with
  | error err => rw [hl] at h; cases h
  | ok res =>
    rw [hl] at h
    cases res with
    | none => cases h
    | some b =>
      simp only [Except.ok.injEq, Option.some.injEq, Prod.mk.injEq] at h
      obtain ⟨h1, h2, h3⟩ := h
      have hfirst := Scene.get_nearest_intersection_loop_first sqrt o d e objs []
        none (some b) (by intro b hb; cases hb) (by intro _ q hq; cases hq) hl b rfl
      have hcand := (Scene.get_nearest_intersection_loop_spec sqrt o d e objs []
        none (some b) (by intro b hb; cases hb) (by intro q hq; cases hq) hl).1 b rfl
      simp only [List.nil_append] at hfirst
      obtain ⟨before, after, hS, hb1, hb2⟩ := hfirst
      have hdist : b.1 = (hit - o).norm sqrt := by
        rw [hcand.2.2.2.2, h1]
      rw [h3] at hS
      rw [hdist] at hb1 hb2
      have hbefore : ∀ (j : Nat) (q : ObjectPtr F), j < before.length → objs[j]? = some q → q ∈ before := by
        intro j q hj hq
        rw [hS, List.getElem?_append_left hj] at hq
        exact List.getElem?_mem hq
      have hafter : ∀ (j : Nat) (q : ObjectPtr F), before.length < j → objs[j]? = some q → q ∈ after := by
        intro j q hj hq
        rw [hS, List.getElem?_append_right (le_of_lt hj)] at hq
        obtain ⟨k, hk⟩ : ∃ k, j - before.length = k + 1 :=
          ⟨j - before.length - 1, by omega⟩
        rw [hk, List.getElem?_cons_succ] at hq
        exact List.getElem?_mem hq
      refine ⟨before.length, ?_, ?_, ?_, ?_⟩
      · rw [hS, List.getElem?_append_right (le_refl _)]
        simp
      · intro j q hj hq hne p hp
        exact hb1 q (hbefore j q hj hq) hne p hp
      · intro j q hj hq hne p hp
        exact hb2 q (hafter j q hj hq) hne p hp
      · intro j q hq hne p hp heq
        by_contra hlt
        have := hb1 q (hbefore j q (not_le.1 hlt) hq) hne p hp
        rw [heq] at this
        exact lt_irrefl _ this

/-- Witness for C21 over `ℚ`: `plane0` and then `plane0_twin` are added to a new
scene; the two planes are hit in the same point `(0,0,0)` by the ray from
`(0,-5,0)` towards `(0,1,0)`; the query returns `Demo.plane0`, the one added
first, which is `objs[0]`. -/
theorem get_nearest_intersection_first_of_ties_witness :
    ([Demo.plane0, Demo.plane0_twin].foldl Scene.add_object Scene.new).get_nearest_intersection
        ratSqrt ⟨0, -5, 0⟩ ⟨0, 1, 0⟩ none
        = Except.ok (some (⟨0, 0, 0⟩, ⟨0, -1, 0⟩, Demo.plane0)) ∧
      Demo.plane0_twin.obj.intersection ratSqrt ⟨0, -5, 0⟩ ⟨0, 1, 0⟩
        = some (Hit.pt ⟨0, 0, 0⟩) ∧
      ∃ i, [Demo.plane0, Demo.plane0_twin][i]? = some Demo.plane0 ∧
        (∀ (j : Nat) (q : ObjectPtr ℚ), j < i → [Demo.plane0, Demo.plane0_twin][j]? = some q →
          (none : Option Nat) ≠ some q.addr →
          ∀ hq, q.obj.intersection ratSqrt ⟨0, -5, 0⟩ ⟨0, 1, 0⟩ = some (Hit.pt hq) →
            ((⟨0, 0, 0⟩ : Vec3 ℚ) - ⟨0, -5, 0⟩).norm ratSqrt
              < (hq - ⟨0, -5, 0⟩).norm ratSqrt) ∧
        (∀ (j : Nat) (q : ObjectPtr ℚ), i < j → [Demo.plane0, Demo.plane0_twin][j]? = some q →
          (none : Option Nat) ≠ some q.addr →
          ∀ hq, q.obj.intersection ratSqrt ⟨0, -5, 0⟩ ⟨0, 1, 0⟩ = some (Hit.pt hq) →
            ((⟨0, 0, 0⟩ : Vec3 ℚ) - ⟨0, -5, 0⟩).norm ratSqrt
              ≤ (hq - ⟨0, -5, 0⟩).norm ratSqrt) ∧
        (∀ (j : Nat) (q : ObjectPtr ℚ), [Demo.plane0, Demo.plane0_twin][j]? = some q →
          (none : Option Nat) ≠ some q.addr →
          ∀ hq, q.obj.intersection ratSqrt ⟨0, -5, 0⟩ ⟨0, 1, 0⟩ = some (Hit.pt hq) →
            (hq - ⟨0, -5, 0⟩).norm ratSqrt
              = ((⟨0, 0, 0⟩ : Vec3 ℚ) - ⟨0, -5, 0⟩).norm ratSqrt → i ≤ j) := by
  have hsc : [Demo.plane0, Demo.plane0_twin].foldl Scene.add_object Scene.new
      = Demo.scene4 := rfl
  have h : ([Demo.plane0, Demo.plane0_twin].foldl Scene.add_object
        Scene.new).get_nearest_intersection ratSqrt ⟨0, -5, 0⟩ ⟨0, 1, 0⟩ none
      = Except.ok (some (⟨0, 0, 0⟩, ⟨0, -1, 0⟩, Demo.plane0)) := by
    rw [hsc]
    simp only [Scene.get_nearest_intersection, Scene.get_nearest_intersection_loop,
      Demo.scene4, Demo.plane0, Demo.plane0_twin, reduceCtorEq, if_false, if_true]
    norm_num [Object.intersection, Object.norm_dir, Plane.intersection, Plane.norm_dir,
      Vec3.norm, Vec3.dot, Vec3.add_def, Vec3.sub_def, Vec3.mul_def, eps, ratSqrt,
      Scene.lt_min_dist, abs_lt]
  refine ⟨h, ?_,
    get_nearest_intersection_first_of_ties ratSqrt [Demo.plane0, Demo.plane0_twin] _ _ none
      _ _ _ h⟩
  norm_num [Demo.plane0_twin, Object.intersection, Plane.intersection, Vec3.dot, Vec3.add_def,
    Vec3.sub_def, Vec3.mul_def, eps, abs_lt]

/-- C28 (counterexample). For the scene holding `Cone({0,0,0}, {0,1,0}, 1, 1)` and
the ray from `(0,3,0)` towards `(0,-1,0)`, which meets the cone in its apex
`(0,1,0)` at distance 2: `is_shadow` with `distance_to_light = 3` returns true,
while `get_nearest_intersection` returns no hit at all: it raises the error of
`normalized`, thrown by `Cone::norm_dir` at the apex.  The square roots taken
are those of 0, 4 and 9. -/
theorem queries_disagree_when_norm_dir_throws :
    Demo.scene5.is_shadow ratSqrt ⟨0, 3, 0⟩ ⟨0, -1, 0⟩ none 3 = true ∧
      Demo.scene5.get_nearest_intersection ratSqrt ⟨0, 3, 0⟩ ⟨0, -1, 0⟩ none
        = Except.error (Error.runtime_error "Zero length vector!") := by
  have hi : Object.intersection ratSqrt (Object.cone Demo.cone0) ⟨0, 3, 0⟩ ⟨0, -1, 0⟩
      = some (Hit.pt ⟨0, 1, 0⟩) := by
    norm_num [Object.intersection, Cone.intersection, Cone.intersect_side, Cone.intersect_base,
      Demo.cone0, Vec3.norm, Vec3.dot, Vec3.add_def, Vec3.sub_def, Vec3.mul_def, Vec3.neg_def,
      eps, ratSqrt, abs_lt]
  have hn : Object.norm_dir ratSqrt (Object.cone Demo.cone0) ⟨0, 1, 0⟩
      = Except.error (Error.runtime_error "Zero length vector!") := by
    norm_num [Object.norm_dir, Cone.norm_dir, Demo.cone0, Vec3.normalized, Vec3.norm, Vec3.dot,
      Vec3.sub_def, Vec3.mul_def, eps, ratSqrt, abs_lt]
  constructor
  · simp only [Scene.is_shadow, Scene.is_shadow_loop, Demo.scene5, reduceCtorEq, if_false, hi]
    norm_num [Vec3.norm, Vec3.sub_def, ratSqrt]
  · simp only [Scene.get_nearest_intersection, Scene.get_nearest_intersection_loop,
      Demo.scene5, reduceCtorEq, if_false, hi, hn, Scene.lt_min_dist, if_true]

/-- C28 (amended). Whenever `Scene::get_nearest_intersection(o, d, e)` returns,
with a hit or with no hit, `Scene::is_shadow(o, d, e, D)` returns true exactly
when it returned a hit whose distance from `o` is strictly less than `D`. -/
theorem is_shadow_iff_nearest_within {F : Type} [LinearOrderedField F]
    (sqrt : F → F) (scene : Scene F) (o d : Vec3 F) (e : Option Nat) (D : F)
    (r : Option (Vec3 F × Vec3 F × ObjectPtr F))
    (h : scene.get_nearest_intersection sqrt o d e = Except.ok r) :
    scene.is_shadow sqrt o d e D = true ↔
      ∃ hit normal prim, r = some (hit, normal, prim) ∧ (hit - o).norm sqrt < D := by
  unfold Scene.get_nearest_intersection at h
  unfold Scene.is_shadow
  rw [Scene.is_shadow_loop_iff]
  cases hl : Scene.get_nearest_intersection_loop sqrt o d e scene.objects none with
  | error err => rw [hl] at h; cases h
  | ok res =>
    rw [hl] at h
    have hs := Scene.get_nearest_intersection_loop_spec sqrt o d e scene.objects [] none res
      (by intro b hb; cases hb) (by intro q hq; cases hq) hl
    simp only [List.nil_append] at hs
    obtain ⟨hc, hm⟩ := hs
    cases res with
    | none =>
      simp only [Except.ok.injEq] at h
      subst h
      constructor
      · rintro ⟨q, hq, hne, p, hp, _⟩
        exact absurd trivial (hm q hq hne p hp)
      · rintro ⟨_, _, _, hr, _⟩
        cases hr
    | some b =>
      simp only [Except.ok.injEq] at h
      subst h
      obtain ⟨c1, c2, c3, _, c5⟩ := hc b rfl
      constructor
      · rintro ⟨q, hq, hne, p, hp, hlt⟩
        refine ⟨b.2.1, b.2.2.1, b.2.2.2, rfl, ?_⟩
        have := hm q hq hne p hp
        simp only [Scene.lt_min_dist, not_lt] at this
        rw [← c5]
        exact lt_of_le_of_lt this hlt
      · rintro ⟨hit, normal, prim, hr, hlt⟩
        simp only [Option.some.injEq, Prod.mk.injEq] at hr
        obtain ⟨h1, _, _⟩ := hr
        rw [← h1] at hlt
        exact ⟨b.2.2.2, c1, c2, b.2.1, c3, hlt⟩

/-- Witness for C28 (amended) over `ℚ`: in `Demo.scene0` the nearest hit of the
ray from `(0,-5,0)` towards `(0,1,0)` is `(0,-3,0)`, at distance 2, and
`is_shadow` with `distance_to_light = 3` returns true. -/
theorem is_shadow_iff_nearest_within_witness :
    Demo.scene0.get_nearest_intersection ratSqrt ⟨0, -5, 0⟩ ⟨0, 1, 0⟩ none
        = Except.ok (some (⟨0, -3, 0⟩, ⟨0, -1, 0⟩, Demo.sphere0)) ∧
      Demo.scene0.is_shadow ratSqrt ⟨0, -5, 0⟩ ⟨0, 1, 0⟩ none 3 = true := by
  have h : Demo.scene0.get_nearest_intersection ratSqrt ⟨0, -5, 0⟩ ⟨0, 1, 0⟩ none
      = Except.ok (some (⟨0, -3, 0⟩, ⟨0, -1, 0⟩, Demo.sphere0)) := by
    simp only [Scene.get_nearest_intersection, Scene.get_nearest_intersection_loop,
      Demo.scene0, Demo.plane0, Demo.sphere0, reduceCtorEq, if_false, if_true]
    norm_num [Object.intersection, Object.norm_dir, Plane.intersection, Plane.norm_dir,
      Sphere.intersection, Sphere.norm_dir, Vec3.normalized, Vec3.norm, Vec3.dot, Vec3.add_def,
      Vec3.sub_def, Vec3.mul_def, eps, ratSqrt, Scene.lt_min_dist, abs_lt]
  refine ⟨h, (is_shadow_iff_nearest_within ratSqrt Demo.scene0 _ _ none 3 _ h).2
    ⟨_, _, _, rfl, ?_⟩⟩
  norm_num [Vec3.norm, Vec3.sub_def, ratSqrt]

/-! ## Rotations -/

section RotationThms

variable {F : Type} [LinearOrderedField F]

/-- The elements that the three loops of `operator*(const RotationMat&)` leave in
`result.mat`: element `i * 3 + j` is `0` plus the three products of row `i` of
the left factor and column `j` of the right one. -/
theorem RotationMat.mul_mat (A B : RotationMat F) :
    (A.mul B).mat = [
      0 + A.mat.getD 0 0 * B.mat.getD 0 0 + A.mat.getD 1 0 * B.mat.getD 3 0
        + A.mat.getD 2 0 * B.mat.getD 6 0,
      0 + A.mat.getD 0 0 * B.mat.getD 1 0 + A.mat.getD 1 0 * B.mat.getD 4 0
        + A.mat.getD 2 0 * B.mat.getD 7 0,
      0 + A.mat.getD 0 0 * B.mat.getD 2 0 + A.mat.getD 1 0 * B.mat.getD 5 0
        + A.mat.getD 2 0 * B.mat.getD 8 0,
      0 + A.mat.getD 3 0 * B.mat.getD 0 0 + A.mat.getD 4 0 * B.mat.getD 3 0
        + A.mat.getD 5 0 * B.mat.getD 6 0,
      0 + A.mat.getD 3 0 * B.mat.getD 1 0 + A.mat.getD 4 0 * B.mat.getD 4 0
        + A.mat.getD 5 0 * B.mat.getD 7 0,
      0 + A.mat.getD 3 0 * B.mat.getD 2 0 + A.mat.getD 4 0 * B.mat.getD 5 0
        + A.mat.getD 5 0 * B.mat.getD 8 0,
      0 + A.mat.getD 6 0 * B.mat.getD 0 0 + A.mat.getD 7 0 * B.mat.getD 3 0
        + A.mat.getD 8 0 * B.mat.getD 6 0,
      0 + A.mat.getD 6 0 * B.mat.getD 1 0 + A.mat.getD 7 0 * B.mat.getD 4 0
        + A.mat.getD 8 0 * B.mat.getD 7 0,
      0 + A.mat.getD 6 0 * B.mat.getD 2 0 + A.mat.getD 7 0 * B.mat.getD 5 0
        + A.mat.getD 8 0 * B.mat.getD 8 0] := by
  have h3 : List.range 3 = [0, 1, 2] := rfl
  have h9 : List.replicate 9 (0 : F) = [0, 0, 0, 0, 0, 0, 0, 0, 0] := rfl
  simp only [RotationMat.mul, RotationMat.mul_inner, RotationMat.zero, h3, h9, List.foldl_cons,
    List.foldl_nil, Nat.zero_mul, Nat.one_mul, Nat.zero_add, Nat.reduceMul, Nat.reduceAdd,
    List.set_cons_zero, List.set_cons_succ, List.getD_cons_zero, List.getD_cons_succ]

/-- Applying `RotationMat(Vec3(a, b, c))` is applying the rotation about Z, then
the one about Y, then the one about X. -/
theorem RotationMat.of_angles_apply (cos sin : F → F) (a b c : F) (v : Vec3 F) :
    (RotationMat.of_angles cos sin ⟨a, b, c⟩).apply v
      = (RotationMat.mk (RotationMat.Rx_values cos sin a)).apply
          ((RotationMat.mk (RotationMat.Ry_values cos sin b)).apply
            ((RotationMat.mk (RotationMat.Rz_values cos sin c)).apply v)) := by
  simp only [RotationMat.of_angles, RotationMat.apply, RotationMat.Rx_values,
    RotationMat.Ry_values, RotationMat.Rz_values, List.getD_cons_zero, List.getD_cons_succ]
  ext <;> simp only <;> ring

end RotationThms

/-- C22. For all angles `(a, b, c)`, `RotationMat(Vec3(a, b, c))` is the product
`Rx(a) * Ry(b) * Rz(c)` of the three standard axis rotations, each built by the
nine-coefficient constructor and multiplied by `RotationMat::operator*`; and
`Vec3::rotate(a, b, c)`, like `Vec3::rotate(Vec3(a, b, c))`, applied to a vector
returns what `RotationMat(Vec3(a, b, c)) * v` returns. -/
theorem rotation_matrix_is_product_of_axis_rotations {F : Type} [LinearOrderedField F]
    (cos sin : F → F) (a b c : F) :
    (∃ rx ry rz,
      RotationMat.of_values (RotationMat.Rx_values cos sin a) = Except.ok rx ∧
      RotationMat.of_values (RotationMat.Ry_values cos sin b) = Except.ok ry ∧
      RotationMat.of_values (RotationMat.Rz_values cos sin c) = Except.ok rz ∧
      RotationMat.of_angles cos sin ⟨a, b, c⟩ = (rx.mul ry).mul rz) ∧
    (∀ v : Vec3 F, v.rotate cos sin a b c = (RotationMat.of_angles cos sin ⟨a, b, c⟩).apply v) ∧
    (∀ v : Vec3 F,
      v.rotate_by cos sin ⟨a, b, c⟩ = (RotationMat.of_angles cos sin ⟨a, b, c⟩).apply v) := by
  refine ⟨⟨⟨RotationMat.Rx_values cos sin a⟩, ⟨RotationMat.Ry_values cos sin b⟩,
    ⟨RotationMat.Rz_values cos sin c⟩, rfl, rfl, rfl, ?_⟩, ?_, ?_⟩
  · have hm : ∀ A B : RotationMat F, A.mat = B.mat → A = B := by
      intro A B h
      cases A
      cases B
      simp only at h
      rw [h]
    apply hm
    rw [RotationMat.mul_mat, RotationMat.mul_mat]
    simp only [RotationMat.of_angles, RotationMat.Rx_values, RotationMat.Ry_values,
      RotationMat.Rz_values, List.getD_cons_zero, List.getD_cons_succ, List.cons.injEq,
      and_true]
    refine ⟨?_, ?_, ?_, ?_, ?_, ?_, ?_, ?_, ?_⟩ <;> ring
  · intro v
    simp only [Vec3.rotate, RotationMat.of_angles, RotationMat.apply, List.getD_cons_zero,
      List.getD_cons_succ]
    ext <;> simp only <;> ring
  · intro v
    simp only [Vec3.rotate_by, RotationMat.of_angles, RotationMat.apply, List.getD_cons_zero,
      List.getD_cons_succ]
    ext <;> simp only <;> ring

/-- C27. If `sin` and `cos` satisfy `sin² + cos² = 1`, then for all angles the
operator `R = RotationMat(Vec3(a, b, c))` preserves the dot product,
`(R*u).(R*v) = u.v`, hence the norm, `|R*v| = |v|`; and for all `RotationMat`
`A`, `B` and every vector `v`, `(A*B)*v = A*(B*v)`. -/
theorem rotation_matrix_orthonormal {F : Type} [LinearOrderedField F]
    (sqrt cos sin : F → F) (htrig : ∀ x, sin x * sin x + cos x * cos x = 1) (a b c : F) :
    (∀ u v : Vec3 F,
      ((RotationMat.of_angles cos sin ⟨a, b, c⟩).apply u).dot
          ((RotationMat.of_angles cos sin ⟨a, b, c⟩).apply v) = u.dot v) ∧
    (∀ v : Vec3 F,
      ((RotationMat.of_angles cos sin ⟨a, b, c⟩).apply v).norm sqrt = v.norm sqrt) ∧
    (∀ (A B : RotationMat F) (v : Vec3 F), (A.mul B).apply v = A.apply (B.apply v)) := by
  have hx : ∀ u v : Vec3 F,
      ((RotationMat.mk (RotationMat.Rx_values cos sin a)).apply u).dot
        ((RotationMat.mk (RotationMat.Rx_values cos sin a)).apply v) = u.dot v := by
    intro u v
    simp only [RotationMat.apply, RotationMat.Rx_values, Vec3.dot, List.getD_cons_zero,
      List.getD_cons_succ]
    linear_combination (u.y * v.y + u.z * v.z) * htrig a
  have hy : ∀ u v : Vec3 F,
      ((RotationMat.mk (RotationMat.Ry_values cos sin b)).apply u).dot
        ((RotationMat.mk (RotationMat.Ry_values cos sin b)).apply v) = u.dot v := by
    intro u v
    simp only [RotationMat.apply, RotationMat.Ry_values, Vec3.dot, List.getD_cons_zero,
      List.getD_cons_succ]
    linear_combination (u.x * v.x + u.z * v.z) * htrig b
  have hz : ∀ u v : Vec3 F,
      ((RotationMat.mk (RotationMat.Rz_values cos sin c)).apply u).dot
        ((RotationMat.mk (RotationMat.Rz_values cos sin c)).apply v) = u.dot v := by
    intro u v
    simp only [RotationMat.apply, RotationMat.Rz_values, Vec3.dot, List.getD_cons_zero,
      List.getD_cons_succ]
    linear_combination (u.x * v.x + u.y * v.y) * htrig c
  have hdot : ∀ u v : Vec3 F,
      ((RotationMat.of_angles cos sin ⟨a, b, c⟩).apply u).dot
          ((RotationMat.of_angles cos sin ⟨a, b, c⟩).apply v) = u.dot v := by
    intro u v
    rw [RotationMat.of_angles_apply, RotationMat.of_angles_apply, hx, hy, hz]
  refine ⟨hdot, ?_, ?_⟩
  · intro v
    have h := hdot v v
    unfold Vec3.norm
    unfold Vec3.dot at h
    rw [h]
  · intro A B v
    simp only [RotationMat.apply, RotationMat.mul_mat, List.getD_cons_zero, List.getD_cons_succ]
    ext <;> simp only <;> ring

/-- Witness for C27 over the reals with `Real.cos` and `Real.sin`: the rotation by
the angles `(1, 2, 3)` preserves the dot product of `(1, 0, 0)` and `(0, 1, 0)`. -/
theorem rotation_matrix_orthonormal_witness :
    (∀ x : ℝ, Real.sin x * Real.sin x + Real.cos x * Real.cos x = 1) ∧
      ((RotationMat.of_angles Real.cos Real.sin (⟨1, 2, 3⟩ : Vec3 ℝ)).apply ⟨1, 0, 0⟩).dot
          ((RotationMat.of_angles Real.cos Real.sin (⟨1, 2, 3⟩ : Vec3 ℝ)).apply ⟨0, 1, 0⟩)
        = Vec3.dot (⟨1, 0, 0⟩ : Vec3 ℝ) ⟨0, 1, 0⟩ := by
  have htrig : ∀ x : ℝ, Real.sin x * Real.sin x + Real.cos x * Real.cos x = 1 := by
    intro x
    have := Real.sin_sq_add_cos_sq x
    rw [sq, sq] at this
    exact this
  exact ⟨htrig, (rotation_matrix_orthonormal Real.sqrt Real.cos Real.sin htrig 1 2 3).1 _ _⟩

/-! ## Cone: apex and normal -/

/-- `Cone(...)` stores as apex the base centre plus `height` times the axis
argument as given, not normalised. -/
theorem cone_new_vertex {F : Type} [LinearOrderedField F] (sqrt : F → F)
    (base axis : Vec3 F) (radius height c : F) (s : Cone F)
    (h : Cone.new sqrt base axis radius height c = Except.ok s) :
    s.vertex = base + axis * height ∧ axis.normalized sqrt = Except.ok s.axis :=
  ⟨(cone_new_ok sqrt base axis radius height c s h).2.2.2.2.2.2.2,
    (cone_new_ok sqrt base axis radius height c s h).1⟩

/-- C23 (evaluation at the failing input). `Cone({0,0,0}, {0,2,0}, 1, 1, 0.5)` is
constructed with the unit axis `(0,1,0)` and the apex `(0,2,0)`, at distance 2
from the base centre, whereas `b + normalize(a) * height` is `(0,1,0)`: the
initialiser of `vertex` uses the constructor's argument `axis`, not the
normalised member.  The square root taken is that of 4. -/
theorem cone_constructor_vertex_not_normalised :
    Cone.new ratSqrt ⟨0, 0, 0⟩ ⟨0, 2, 0⟩ 1 1 (1 / 2)
        = Except.ok ⟨⟨0, 0, 0⟩, ⟨0, 1, 0⟩, 1, 1, 1 / 2, ⟨0, 2, 0⟩⟩ ∧
      Vec3.normalized ratSqrt (⟨0, 2, 0⟩ : Vec3 ℚ) = Except.ok ⟨0, 1, 0⟩ ∧
      (⟨0, 0, 0⟩ : Vec3 ℚ) + (⟨0, 1, 0⟩ : Vec3 ℚ) * (1 : ℚ) = ⟨0, 1, 0⟩ ∧
      (⟨0, 2, 0⟩ : Vec3 ℚ) ≠ ⟨0, 1, 0⟩ := by
  refine ⟨?_, ?_, ?_, ?_⟩
  · norm_num [Cone.new, Vec3.normalized, Vec3.norm, Vec3.add_def, Vec3.mul_def, eps, ratSqrt,
      abs_lt]
  · norm_num [Vec3.normalized, Vec3.norm, ratSqrt]
  · norm_num [Vec3.add_def, Vec3.mul_def]
  · intro h
    have := congrArg Vec3.y h
    norm_num at this

/-- C24 (evaluation at the failing input). `Demo.cone_wide` is what
`Cone({0,0,0}, {0,1,0}, 2, 1, 0.5)` builds.  The point `p = (1, 1/2, 0)` lies on
its lateral surface, half way up, and is not the apex.  There `Cone::norm_dir`
returns the normalisation of `(1, 1, 0)`, whose dot product with the slant
direction `p - apex = (1, -1/2, 0)` is not 0: the axial component is scaled by
`radius/height` where a perpendicular vector needs its square. -/
theorem cone_norm_dir_not_perpendicular :
    Cone.new Real.sqrt ⟨0, 0, 0⟩ ⟨0, 1, 0⟩ 2 1 (1 / 2) = Except.ok (Demo.cone_wide ℝ) ∧
      (Demo.cone_wide ℝ).on_lateral_surface ⟨1, 1 / 2, 0⟩ ∧
      ∃ n : Vec3 ℝ, (Demo.cone_wide ℝ).norm_dir Real.sqrt ⟨1, 1 / 2, 0⟩ = Except.ok n ∧
        n = ⟨1 / Real.sqrt 2, 1 / Real.sqrt 2, 0⟩ ∧
        n.dot ((⟨1, 1 / 2, 0⟩ : Vec3 ℝ) - (Demo.cone_wide ℝ).vertex) ≠ 0 := by
  have hs : SqrtLaws Real.sqrt := ⟨Real.sqrt_nonneg, fun x hx => Real.mul_self_sqrt hx⟩
  have h2 : (0 : ℝ) < Real.sqrt 2 := Real.sqrt_pos.2 (by norm_num)
  refine ⟨?_, ?_, ?_⟩
  · have hn : Vec3.norm Real.sqrt (⟨0, 1, 0⟩ : Vec3 ℝ) = 1 := by
      rw [Vec3.norm_eq_one_iff hs]
      norm_num [Vec3.dot]
    unfold Cone.new
    rw [Vec3.normalized_of_norm_eq_one Real.sqrt _ hn, hn]
    norm_num [Demo.cone_wide, eps, Vec3.add_def, Vec3.mul_def]
  · norm_num [Cone.on_lateral_surface, Demo.cone_wide, Vec3.dot, Vec3.sub_def]
  · have hm : (⟨1, 1 / 2, 0⟩ : Vec3 ℝ) - (Demo.cone_wide ℝ).vertex
        - (Demo.cone_wide ℝ).axis
            * (((⟨1, 1 / 2, 0⟩ : Vec3 ℝ) - (Demo.cone_wide ℝ).vertex).dot (Demo.cone_wide ℝ).axis)
        - (Demo.cone_wide ℝ).axis
            * (((⟨1, 1 / 2, 0⟩ : Vec3 ℝ) - (Demo.cone_wide ℝ).vertex).dot (Demo.cone_wide ℝ).axis)
            * ((Demo.cone_wide ℝ).radius / (Demo.cone_wide ℝ).height)
        = ⟨1, 1, 0⟩ := by
      norm_num [Demo.cone_wide, Vec3.dot, Vec3.sub_def, Vec3.mul_def]
    have hnorm : Vec3.norm Real.sqrt (⟨1, 1, 0⟩ : Vec3 ℝ) = Real.sqrt 2 := by
      unfold Vec3.norm
      norm_num
    have hcond : ¬ |((⟨1, 1 / 2, 0⟩ : Vec3 ℝ) - (Demo.cone_wide ℝ).base_center).dot
        (Demo.cone_wide ℝ).axis| < eps ℝ := by
      norm_num [Demo.cone_wide, Vec3.dot, Vec3.sub_def, eps, abs_lt]
    refine ⟨⟨1 / Real.sqrt 2, 1 / Real.sqrt 2, 0⟩, ?_, rfl, ?_⟩
    · unfold Cone.norm_dir
      rw [if_neg hcond]
      simp only []
      rw [hm, Vec3.normalized_of_norm_ne_zero Real.sqrt _ (by rw [hnorm]; exact ne_of_gt h2),
        hnorm]
      norm_num
    · simp only [Demo.cone_wide, Vec3.dot, Vec3.sub_def]
      have : (1 : ℝ) / Real.sqrt 2 * (1 - 0) + 1 / Real.sqrt 2 * (1 / 2 - 1) + 0 * (0 - 0)
          = 1 / (2 * Real.sqrt 2) := by
        field_simp
        ring
      rw [this]
      positivity

/-! ## RectPrism: placement of the faces -/

/-- C25 (evaluation at the failing input). `Demo.prism0` is what
`RectPrism({0,0,0}, {0,2,0}, {1,0,0}, 1, 2, 2, 0.5)` builds, from orthogonal
non-zero directions of which `height_dir` has length 2.  For the ray from
`(0,5,0)` towards `(0,-1,0)`, `RectPrism::intersection` returns `(0,2,0)`, a point
of the top face, which the constructor places at `base_center + height_dir *
height` with `height_dir` as given.  That point is not in the box
`{ b + x*h + y*w + z*l : 0 <= x <= 1, |y| <= 1, |z| <= 1 }` of the unit axes
`h = (0,1,0)`, `w = (1,0,0)`, `l = (0,0,-1)`.  The square roots taken are those
of 1, 4, 9 and 25. -/
theorem rectprism_faces_placed_with_raw_direction :
    RectPrism.new ratSqrt ⟨0, 0, 0⟩ ⟨0, 2, 0⟩ ⟨1, 0, 0⟩ 1 2 2 (1 / 2) = Except.ok Demo.prism0 ∧
      Demo.prism0.intersection ratSqrt ⟨0, 5, 0⟩ ⟨0, -1, 0⟩ = some ⟨0, 2, 0⟩ ∧
      ¬ RectPrism.in_box Demo.prism0.base_center Demo.prism0.height_dir Demo.prism0.width_dir
          Demo.prism0.length_dir 1 2 2 (⟨0, 2, 0⟩ : Vec3 ℚ) := by
  refine ⟨?_, ?_, ?_⟩
  · have n1 : Vec3.normalized ratSqrt (⟨0, 2, 0⟩ : Vec3 ℚ) = Except.ok ⟨0, 1, 0⟩ := by
      norm_num [Vec3.normalized, Vec3.norm, ratSqrt]
    have n2 : Vec3.normalized ratSqrt (⟨1, 0, 0⟩ : Vec3 ℚ) = Except.ok ⟨1, 0, 0⟩ := by
      norm_num [Vec3.normalized, Vec3.norm, ratSqrt]
    have n3 : Vec3.normalized ratSqrt (Vec3.cross (⟨0, 2, 0⟩ : Vec3 ℚ) ⟨1, 0, 0⟩)
        = Except.ok ⟨0, 0, -1⟩ := by
      norm_num [Vec3.normalized, Vec3.norm, Vec3.cross, ratSqrt]
    have f0 : Rect.new ratSqrt ⟨0, 0, 0⟩ (-(⟨0, 2, 0⟩ : Vec3 ℚ)) ⟨1, 0, 0⟩ 2 2 (1 / 2)
        = Except.ok ⟨⟨0, 0, 0⟩, ⟨0, -1, 0⟩, ⟨1, 0, 0⟩, ⟨0, 0, 1⟩, 2, 2, 1 / 2⟩ := by
      norm_num [Rect.new, Vec3.normalized, Vec3.norm, Vec3.dot, Vec3.cross, Vec3.neg_def, eps,
        ratSqrt]
    have f1 : Rect.new ratSqrt ((⟨0, 0, 0⟩ : Vec3 ℚ) + (⟨0, 2, 0⟩ : Vec3 ℚ) * (1 : ℚ))
        ⟨0, 2, 0⟩ ⟨1, 0, 0⟩ 2 2 (1 / 2)
        = Except.ok ⟨⟨0, 2, 0⟩, ⟨0, 1, 0⟩, ⟨1, 0, 0⟩, ⟨0, 0, -1⟩, 2, 2, 1 / 2⟩ := by
      norm_num [Rect.new, Vec3.normalized, Vec3.norm, Vec3.dot, Vec3.cross, Vec3.add_def,
        Vec3.mul_def, eps, ratSqrt]
    have f2 : Rect.new ratSqrt
        ((⟨0, 0, 0⟩ : Vec3 ℚ) - (⟨0, 0, -1⟩ : Vec3 ℚ) * ((2 : ℚ) / 2)
          + (⟨0, 2, 0⟩ : Vec3 ℚ) * ((1 : ℚ) / 2))
        (-(⟨0, 0, -1⟩ : Vec3 ℚ)) ⟨1, 0, 0⟩ 2 1 (1 / 2)
        = Except.ok ⟨⟨0, 1, 1⟩, ⟨0, 0, 1⟩, ⟨1, 0, 0⟩, ⟨0, 1, 0⟩, 2, 1, 1 / 2⟩ := by
      norm_num [Rect.new, Vec3.normalized, Vec3.norm, Vec3.dot, Vec3.cross, Vec3.add_def,
        Vec3.sub_def, Vec3.mul_def, Vec3.neg_def, eps, ratSqrt]
    have f3 : Rect.new ratSqrt
        ((⟨0, 0, 0⟩ : Vec3 ℚ) + (⟨0, 0, -1⟩ : Vec3 ℚ) * ((2 : ℚ) / 2)
          + (⟨0, 2, 0⟩ : Vec3 ℚ) * ((1 : ℚ) / 2))
        ⟨0, 0, -1⟩ ⟨1, 0, 0⟩ 2 1 (1 / 2)
        = Except.ok ⟨⟨0, 1, -1⟩, ⟨0, 0, -1⟩, ⟨1, 0, 0⟩, ⟨0, -1, 0⟩, 2, 1, 1 / 2⟩ := by
      norm_num [Rect.new, Vec3.normalized, Vec3.norm, Vec3.dot, Vec3.cross, Vec3.add_def,
        Vec3.sub_def, Vec3.mul_def, Vec3.neg_def, eps, ratSqrt]
    have f4 : Rect.new ratSqrt
        ((⟨0, 0, 0⟩ : Vec3 ℚ) - (⟨1, 0, 0⟩ : Vec3 ℚ) * ((2 : ℚ) / 2)
          + (⟨0, 2, 0⟩ : Vec3 ℚ) * ((1 : ℚ) / 2))
        (-(⟨1, 0, 0⟩ : Vec3 ℚ)) ⟨0, 0, -1⟩ 2 1 (1 / 2)
        = Except.ok ⟨⟨-1, 1, 0⟩, ⟨-1, 0, 0⟩, ⟨0, 0, -1⟩, ⟨0, -1, 0⟩, 2, 1, 1 / 2⟩ := by
      norm_num [Rect.new, Vec3.normalized, Vec3.norm, Vec3.dot, Vec3.cross, Vec3.add_def,
        Vec3.sub_def, Vec3.mul_def, Vec3.neg_def, eps, ratSqrt]
    have f5 : Rect.new ratSqrt
        ((⟨0, 0, 0⟩ : Vec3 ℚ) + (⟨1, 0, 0⟩ : Vec3 ℚ) * ((2 : ℚ) / 2)
          + (⟨0, 2, 0⟩ : Vec3 ℚ) * ((1 : ℚ) / 2))
        ⟨1, 0, 0⟩ ⟨0, 0, -1⟩ 2 1 (1 / 2)
        = Except.ok ⟨⟨1, 1, 0⟩, ⟨1, 0, 0⟩, ⟨0, 0, -1⟩, ⟨0, 1, 0⟩, 2, 1, 1 / 2⟩ := by
      norm_num [Rect.new, Vec3.normalized, Vec3.norm, Vec3.dot, Vec3.cross, Vec3.add_def,
        Vec3.sub_def, Vec3.mul_def, Vec3.neg_def, eps, ratSqrt]
    have c1 : ¬ (Vec3.norm ratSqrt (⟨0, 2, 0⟩ : Vec3 ℚ) < eps ℚ
        ∨ Vec3.norm ratSqrt (⟨1, 0, 0⟩ : Vec3 ℚ) < eps ℚ) := by
      norm_num [Vec3.norm, eps, ratSqrt]
    have c2 : ¬ Vec3.dot (⟨0, 2, 0⟩ : Vec3 ℚ) ⟨1, 0, 0⟩ > eps ℚ := by
      norm_num [Vec3.dot, eps]
    unfold RectPrism.new
    simp only [n1, n2, n3, if_neg c1, if_neg c2, bind, Except.bind, f0, f1, f2, f3, f4, f5,
      Demo.prism0]
  · norm_num [RectPrism.intersection, RectPrism.intersection_loop, Rect.intersection,
      Demo.prism0, Vec3.norm, Vec3.dot, Vec3.add_def, Vec3.sub_def, Vec3.mul_def, eps,
      FLT_MAX, ratSqrt, abs_lt]
  · rintro ⟨x, y, z, hp, _, hx, _, _⟩
    have := congrArg Vec3.y hp
    simp only [Demo.prism0, Vec3.add_def, Vec3.mul_def] at this
    linarith

/-! ## The shading loop: bounds on the intensity -/

namespace RaytracingEngine

variable {F : Type} [LinearOrderedField F] [FloorRing F]

/-- When the chain of bounces exists, the loop returns the running sum over it
started at cumulative coefficient 1. -/
theorem shade_of_bounce_chain (sqrt : F → F) (scene : Scene F) (light : Light F) (N : Nat)
    (o d : Vec3 F) (bs : List (Bounce F))
    (hbs : bounce_chain sqrt scene light N o d none = Except.ok bs) :
    shade sqrt scene light (N : Int) o d = Except.ok (running_sum sqrt scene light 1 bs) := by
  have h := shade_loop_eq_running_sum sqrt scene light N (shade_init o d)
  unfold shade
  rw [Int.toNat_ofNat]
  simp only [shade_init] at h ⊢
  rw [hbs] at h
  cases hl : shade_loop sqrt scene light N
      { light_intensity := 0, cum_reflection_coeff := 1, ray_point := o, ray_dir := d,
        excluded_obj := none } with
  | error err =>
    rw [hl] at h
    simp only [Except.map] at h
    cases h
  | ok st =>
    rw [hl] at h
    simp only [Except.map, Except.ok.injEq, zero_add] at h ⊢
    exact h

omit [FloorRing F] in
/-- Every bounce of a chain carries a direction to the light of `dot` square 1. -/
theorem bounce_chain_to_light_unit {sqrt : F → F} (hs : SqrtLaws sqrt) (scene : Scene F)
    (light : Light F) :
    ∀ (n : Nat) (o d : Vec3 F) (e : Option Nat) (bs : List (Bounce F)),
      bounce_chain sqrt scene light n o d e = Except.ok bs →
      ∀ b ∈ bs, b.to_light.dot b.to_light = 1 := by
  intro n
  induction n with
  | zero =>
    intro o d e bs h b hb
    simp only [bounce_chain, Except.ok.injEq] at h
    rw [← h] at hb
    cases hb
  | succ n ih =>
    intro o d e bs h b hb
    simp only [bounce_chain] at h
    cases hq : scene.get_nearest_intersection sqrt o d e with
    | error err => rw [hq] at h; cases h
    | ok r =>
      rw [hq] at h
      cases r with
      | none =>
        simp only [Except.ok.injEq] at h
        rw [← h] at hb
        cases hb
      | some t =>
        obtain ⟨p, nrm, prim⟩ := t
        simp only at h
        cases hu : (light.position - p).normalized sqrt with
        | error err => rw [hu] at h; cases h
        | ok u =>
          rw [hu] at h
          simp only at h
          cases hd : (d - nrm * (2 : F) * (d.dot nrm)).normalized sqrt with
          | error err => rw [hd] at h; cases h
          | ok d1 =>
            rw [hd] at h
            simp only at h
            cases hc : bounce_chain sqrt scene light n p d1 (some prim.addr) with
            | error err => rw [hc] at h; cases h
            | ok bs1 =>
              rw [hc] at h
              simp only [Except.ok.injEq] at h
              rw [← h] at hb
              rcases List.mem_cons.1 hb with hb1 | hb1
              · rw [hb1]
                exact Vec3.normalized_dot_self hs _ _ hu
              · exact ih _ _ _ _ hc b hb1

omit [FloorRing F] in
/-- The `dot` of two vectors of `dot` square 1 is at most 1. -/
theorem Vec3.dot_le_one_of_unit (n u : Vec3 F) (hn : n.dot n = 1) (hu : u.dot u = 1) :
    n.dot u ≤ 1 := by
  simp only [Vec3.dot] at hn hu ⊢
  nlinarith [sq_nonneg (n.x - u.x), sq_nonneg (n.y - u.y), sq_nonneg (n.z - u.z)]

omit [FloorRing F] in
/-- The geometric sum `rho + ... + rho^(n+1)` is `rho + rho * (rho + ... + rho^n)`. -/
theorem geom_sum_succ (rho : F) (n : Nat) :
    (∑ k in Finset.range (n + 1), rho ^ (k + 1))
      = rho + rho * ∑ k in Finset.range n, rho ^ (k + 1) := by
  rw [Finset.sum_range_succ', Finset.mul_sum, add_comm]
  congr 1
  · simp
  · apply Finset.sum_congr rfl
    intro k _
    ring

omit [FloorRing F] in
theorem geom_sum_nonneg (rho : F) (h0 : 0 ≤ rho) (n : Nat) :
    0 ≤ ∑ k in Finset.range n, rho ^ (k + 1) :=
  Finset.sum_nonneg (fun _ _ => pow_nonneg h0 _)

omit [FloorRing F] in
theorem geom_sum_mono (rho : F) (h0 : 0 ≤ rho) {m n : Nat} (hmn : m ≤ n) :
    (∑ k in Finset.range m, rho ^ (k + 1)) ≤ ∑ k in Finset.range n, rho ^ (k + 1) :=
  Finset.sum_le_sum_of_subset_of_nonneg (Finset.range_mono hmn)
    (fun _ _ _ => pow_nonneg h0 _)

omit [FloorRing F] in
theorem geom_sum_le_card (rho : F) (h0 : 0 ≤ rho) (h1 : rho ≤ 1) (n : Nat) :
    (∑ k in Finset.range n, rho ^ (k + 1)) ≤ (n : F) := by
  have h : (∑ k in Finset.range n, rho ^ (k + 1)) ≤ ∑ _k in Finset.range n, (1 : F) :=
    Finset.sum_le_sum (fun _ _ => pow_le_one₀ h0 h1)
  simpa using h

omit [FloorRing F] in
theorem geom_sum_le_limit (rho : F) (h0 : 0 ≤ rho) (h1 : rho < 1) (n : Nat) :
    (∑ k in Finset.range n, rho ^ (k + 1)) ≤ rho / (1 - rho) := by
  have hpos : 0 < 1 - rho := sub_pos.2 h1
  induction n with
  | zero =>
    simp only [Finset.range_zero, Finset.sum_empty]
    exact div_nonneg h0 (le_of_lt hpos)
  | succ n ih =>
    rw [geom_sum_succ]
    have h2 : rho * (∑ k in Finset.range n, rho ^ (k + 1)) ≤ rho * (rho / (1 - rho)) :=
      mul_le_mul_of_nonneg_left ih h0
    have h3 : rho + rho * (rho / (1 - rho)) = rho / (1 - rho) := by
      field_simp
      ring
    linarith

/-- The running sum over bounces with coefficients in `[0, rho]` and cosines at
most 1, started at a cumulative coefficient `cum >= 0`, lies between 0 and
`cum * power * (rho + ... + rho^len)`. -/
theorem running_sum_bounds (sqrt : F → F) (scene : Scene F) (light : Light F) (rho : F)
    (hp : 0 ≤ light.power) (h0 : 0 ≤ rho) :
    ∀ (bs : List (Bounce F)) (cum : F), 0 ≤ cum →
      (∀ b ∈ bs, 0 ≤ b.coeff ∧ b.coeff ≤ rho) → (∀ b ∈ bs, b.cos ≤ 1) →
      0 ≤ running_sum sqrt scene light cum bs ∧
        running_sum sqrt scene light cum bs
          ≤ cum * light.power * ∑ k in Finset.range bs.length, rho ^ (k + 1) := by
  intro bs
  induction bs with
  | nil =>
    intro cum _ _ _
    simp [running_sum]
  | cons b bs ih =>
    intro cum hcum hc hcos
    obtain ⟨hb0, hb1⟩ := hc b (List.mem_cons_self _ _)
    have hbcos := hcos b (List.mem_cons_self _ _)
    have hcb : 0 ≤ cum * b.coeff := mul_nonneg hcum hb0
    obtain ⟨ih0, ih1⟩ := ih (cum * b.coeff) hcb
      (fun x hx => hc x (List.mem_cons_of_mem _ hx))
      (fun x hx => hcos x (List.mem_cons_of_mem _ hx))
    have hS := geom_sum_nonneg rho h0 bs.length
    have hcp : 0 ≤ cum * light.power := mul_nonneg hcum hp
    have hcbp : cum * b.coeff * light.power ≤ cum * rho * light.power :=
      mul_le_mul_of_nonneg_right (mul_le_mul_of_nonneg_left hb1 hcum) hp
    have hrest : running_sum sqrt scene light (cum * b.coeff) bs
        ≤ cum * rho * light.power * ∑ k in Finset.range bs.length, rho ^ (k + 1) :=
      le_trans ih1 (mul_le_mul_of_nonneg_right hcbp hS)
    have hterm0 : 0 ≤ (if b.lit sqrt scene light = true
        then cum * b.coeff * b.cos * light.power else 0) := by
      split_ifs with hl
      · have hpos : 0 < b.cos := by
          simp only [Bounce.lit, decide_eq_true_eq] at hl
          exact hl.1
        exact mul_nonneg (mul_nonneg hcb (le_of_lt hpos)) hp
      · exact le_refl 0
    have hterm1 : (if b.lit sqrt scene light = true
        then cum * b.coeff * b.cos * light.power else 0) ≤ cum * rho * light.power := by
      split_ifs with hl
      · have h1 : cum * b.coeff * b.cos ≤ cum * b.coeff * 1 :=
          mul_le_mul_of_nonneg_left hbcos hcb
        rw [mul_one] at h1
        exact le_trans (mul_le_mul_of_nonneg_right h1 hp) hcbp
      · exact mul_nonneg (mul_nonneg hcum h0) hp
    rw [running_sum, List.length_cons, geom_sum_succ]
    refine ⟨add_nonneg hterm0 ih0, ?_⟩
    have : cum * light.power * (rho + rho * ∑ k in Finset.range bs.length, rho ^ (k + 1))
        = cum * rho * light.power
          + cum * rho * light.power * ∑ k in Finset.range bs.length, rho ^ (k + 1) := by
      ring
    rw [this]
    exact add_le_add hterm1 hrest

end RaytracingEngine

open RaytracingEngine in
/-- C26. For the shading loop of `render_frame` with bounce budget `N`, on a ray
whose chain of bounces `bs` exists: if the light power is `>= 0`, every
reflection coefficient met lies in `[0, rho]` with `0 <= rho <= 1`, and every
normal returned by the scene is a unit vector, then the loop returns an
intensity `I` with `0 <= I <= power * (rho + rho^2 + ... + rho^N)`; in
particular `I <= N * power`, and `I <= power * rho / (1 - rho)` when `rho < 1`. -/
theorem shade_intensity_bounded {F : Type} [LinearOrderedField F] [FloorRing F]
    (sqrt : F → F) (hs : SqrtLaws sqrt) (scene : Scene F) (light : Light F) (N : Nat)
    (o d : Vec3 F) (rho : F) (bs : List (Bounce F))
    (hp : 0 ≤ light.power) (h0 : 0 ≤ rho) (h1 : rho ≤ 1)
    (hbs : bounce_chain sqrt scene light N o d none = Except.ok bs)
    (hc : ∀ b ∈ bs, 0 ≤ b.coeff ∧ b.coeff ≤ rho)
    (hn : ∀ b ∈ bs, b.normal.norm sqrt = 1) :
    ∃ I : F, shade sqrt scene light (N : Int) o d = Except.ok I ∧ 0 ≤ I ∧
      I ≤ light.power * ∑ k in Finset.range N, rho ^ (k + 1) ∧
      I ≤ (N : F) * light.power ∧
      (rho < 1 → I ≤ light.power * rho / (1 - rho)) := by
  have hcos : ∀ b ∈ bs, b.cos ≤ 1 := fun b hb =>
    Vec3.dot_le_one_of_unit b.normal b.to_light ((Vec3.norm_eq_one_iff hs _).1 (hn b hb))
      (bounce_chain_to_light_unit hs scene light N o d none bs hbs b hb)
  obtain ⟨hI0, hI1⟩ := running_sum_bounds sqrt scene light rho hp h0 bs 1 zero_le_one hc hcos
  rw [one_mul] at hI1
  have hlen := bounce_chain_length_le sqrt scene light N o d none bs hbs
  have hI2 : running_sum sqrt scene light 1 bs
      ≤ light.power * ∑ k in Finset.range N, rho ^ (k + 1) :=
    le_trans hI1 (mul_le_mul_of_nonneg_left (geom_sum_mono rho h0 hlen) hp)
  refine ⟨_, shade_of_bounce_chain sqrt scene light N o d bs hbs, hI0, hI2, ?_, ?_⟩
  · have h := mul_le_mul_of_nonneg_left (geom_sum_le_card rho h0 h1 N) hp
    rw [mul_comm light.power (N : F)] at h
    exact le_trans hI2 h
  · intro hlt
    have h := mul_le_mul_of_nonneg_left (geom_sum_le_limit rho h0 hlt N) hp
    rw [← mul_div_assoc] at h
    exact le_trans hI2 h

open RaytracingEngine in
/-- Witness for C26 over the reals with `Real.sqrt`: the plane `y = 0` with normal
`(0,-1,0)` and coefficient 1/2, a light of power 1 at `(0,-1,0)`, and the ray
from `(0,-1,0)` in direction `(0,1,0)` with budget 2.  The chain has the single
bounce at `(0,0,0)`; the reflected ray leaves the plane and meets nothing. -/
theorem shade_intensity_bounded_witness :
    SqrtLaws Real.sqrt ∧
      ∃ I : ℝ, shade Real.sqrt (⟨[⟨1, Object.plane ⟨⟨0, 0, 0⟩, ⟨0, -1, 0⟩, 1 / 2⟩⟩]⟩ : Scene ℝ)
          ⟨⟨0, -1, 0⟩, 1⟩ ((2 : Nat) : Int) ⟨0, -1, 0⟩ ⟨0, 1, 0⟩ = Except.ok I ∧ 0 ≤ I ∧
        I ≤ (1 : ℝ) * ∑ k in Finset.range 2, ((1 : ℝ) / 2) ^ (k + 1) ∧
        I ≤ ((2 : Nat) : ℝ) * 1 ∧
        ((1 : ℝ) / 2 < 1 → I ≤ (1 : ℝ) * (1 / 2) / (1 - 1 / 2)) := by
  have hs : SqrtLaws Real.sqrt := ⟨Real.sqrt_nonneg, fun x hx => Real.mul_self_sqrt hx⟩
  have hchain : bounce_chain Real.sqrt
      (⟨[⟨1, Object.plane ⟨⟨0, 0, 0⟩, ⟨0, -1, 0⟩, 1 / 2⟩⟩]⟩ : Scene ℝ) ⟨⟨0, -1, 0⟩, 1⟩ 2
      ⟨0, -1, 0⟩ ⟨0, 1, 0⟩ none
      = Except.ok [⟨⟨0, 0, 0⟩, ⟨0, -1, 0⟩, ⟨1, Object.plane ⟨⟨0, 0, 0⟩, ⟨0, -1, 0⟩, 1 / 2⟩⟩,
          ⟨0, -1, 0⟩⟩] := by
    simp only [bounce_chain, Scene.get_nearest_intersection,
      Scene.get_nearest_intersection_loop, reduceCtorEq, if_false, if_true]
    norm_num [Object.intersection, Object.norm_dir, Plane.intersection, Plane.norm_dir,
      Vec3.normalized, Vec3.norm, Vec3.dot, Vec3.add_def, Vec3.sub_def, Vec3.mul_def, eps,
      FLT_MAX, Scene.lt_min_dist, abs_lt]
  refine ⟨hs, shade_intensity_bounded Real.sqrt hs _ _ 2 _ _ (1 / 2) _ (by norm_num)
    (by norm_num) (by norm_num) hchain ?_ ?_⟩
  · intro b hb
    rw [List.mem_singleton] at hb
    rw [hb]
    norm_num [Bounce.coeff, Object.get_reflection_coeff, Plane.get_reflection_coeff]
  · intro b hb
    rw [List.mem_singleton] at hb
    rw [hb]
    norm_num [Vec3.norm]
